import Mathlib

/-!
# PennMUSH HTTP request handling (`src/http.c`, `hdrs/http.h`)

A shallow embedding of the HTTP request parser and response state machine.

C strings are represented by the list of characters that precede their
terminating NUL.  Buffers that are written through a moving pointer
(`hp`, `cp`, `rp`) are represented by their string content together with the
pointer as an offset into the buffer.

Three accesses that the source does not bound are kept apart from the defined
behaviour.  A copy into the field `type` that does not fit it, and a write
past the end of the command buffer `cbuf`, are recorded by the marks
`type_overrun` on the request and `cbuf_overrun` on the descriptor.  A scan
of the status table that reads past its last entry is the result `overrun`
of `get_http_status`; `cmd_respond`, whose control flow depends on the
pointer the scan returns, gives no result after it.
-/

namespace PennHttp

/-! ## Constants and characters -/

/-- Sizes declared in headers that are not part of `http.c` / `http.h`:
`HTTP_STR_LEN` is the size of the short string fields of `http_request`
(`path`, `query`, `route`, `type`, `res_type`), `BUFFER_LEN` the size of the
large buffers (`headers`, `content`, `response`, and every local `buff`). -/
structure Limits where
  HTTP_STR_LEN : Nat
  BUFFER_LEN : Nat
  deriving DecidableEq

/-- The NUL byte. -/
def NUL : Char := Char.ofNat 0
/-- Carriage return. -/
def CR : Char := Char.ofNat 13
/-- Line feed. -/
def LF : Char := Char.ofNat 10
/-- The grave accent that separates the components of an attribute tree. -/
def TICK : Char := Char.ofNat 96

/-- The two-byte end of line. -/
def CRLF : List Char := [CR, LF]

/-- Request states of `hdrs/http.h`. -/
def HTTP_REQUEST_HEADERS : Nat := 1
def HTTP_REQUEST_CONTENT : Nat := 2
def HTTP_REQUEST_DONE : Nat := 3
def HTTP_REQUEST_STARTED : Nat := 4

/-- Content headers of `hdrs/http.h`. -/
def HTTP_CONTENT_LENGTH : List Char := "Content-Length".toList
def HTTP_CONTENT_TYPE : List Char := "Content-Type".toList

/-- Connection timeout in seconds, of `hdrs/http.h`. -/
def HTTP_TIMEOUT : Nat := 2

/-! ## C library routines on strings -/

/-- The C string stored at the start of a byte buffer: everything before the
first NUL. -/
def cstr (buf : List Char) : List Char := buf.takeWhile (fun c => c != NUL)

/-- C `isspace` in the "C" locale: space, `\t`, `\n`, `\v`, `\f`, `\r`. -/
def isspace (c : Char) : Bool := c == ' ' || (9 ≤ c.toNat && c.toNat ≤ 13)

/-- The test `strncmp(a, b, n) == 0` on two C strings. -/
def strncmp_eq (a b : List Char) (n : Nat) : Bool := a.take n == b.take n

/-- C `tolower` in the "C" locale. -/
def tolower (c : Char) : Char :=
  if 65 ≤ c.toNat ∧ c.toNat ≤ 90 then Char.ofNat (c.toNat + 32) else c

/-- The test `strncasecmp(a, b, n) == 0` on two C strings. -/
def strncasecmp_eq (a b : List Char) (n : Nat) : Bool :=
  (a.take n).map tolower == (b.take n).map tolower

/-- C `strchr(s, c)` followed by `*(p++) = '\0'`: the text before the first
occurrence of `c` and the text after it, or `none` when `c` does not occur. -/
def strchr : List Char → Char → Option (List Char × List Char)
  | [], _ => none
  | x :: xs, c =>
    if x = c then some ([], xs)
    else match strchr xs c with
      | some (pre, post) => some (x :: pre, post)
      | none => none

/-- C `strstr(hay, needle) != NULL`. -/
def strstr : List Char → List Char → Bool
  | [], needle => needle.isEmpty
  | x :: xs, needle => needle.isPrefixOf (x :: xs) || strstr xs needle

/-- C `strncpy(dst, src, n)` seen on the string stored in `dst`: a source
shorter than `n` is copied whole and NUL padded; otherwise `n` characters are
copied without a terminator and the old content continues after them. -/
def strncpy (dst src : List Char) (n : Nat) : List Char :=
  if src.length < n then src else src.take n ++ dst.drop n

/-- C `snprintf(dst, n, "%s", s)`: at most `n - 1` characters and a
terminator; nothing is written when `n = 0`. -/
def snprintf (dst : List Char) (n : Nat) (s : List Char) : List Char :=
  if n = 0 then dst else s.take (n - 1)

/-- Modelled from the spec: the macro `UPCASE` of `case.h` (not among the
sources), "upper-case the entire string": a lower-case ASCII letter becomes
the corresponding capital, every other character is unchanged. -/
def UPCASE (c : Char) : Char :=
  if 97 ≤ c.toNat ∧ c.toNat ≤ 122 then Char.ofNat (c.toNat - 32) else c

/-! ## Methods -/

/-- The enumeration `http_method` indexing `http_method_str`. -/
inductive http_method where
  | UNKNOWN | GET | POST | PUT | PATCH | DELETE
  deriving DecidableEq

/-- The table `http_method_str`. -/
def http_method_str : http_method → List Char
  | .UNKNOWN => "UNKNOWN ".toList
  | .GET => "GET ".toList
  | .POST => "POST ".toList
  | .PUT => "PUT ".toList
  | .PATCH => "PATCH ".toList
  | .DELETE => "DELETE ".toList

/-- The methods visited by the loop of `parse_http_method`, from
`HTTP_METHOD_GET` up to `HTTP_NUM_METHODS`, in order. -/
def http_methods : List http_method := [.GET, .POST, .PUT, .PATCH, .DELETE]

/-- Function `parse_http_method`: the first method whose label is a prefix of the
command, else `HTTP_METHOD_UNKNOWN`. -/
def parse_http_method (command : List Char) : http_method :=
  match http_methods.find?
      (fun i => strncmp_eq command (http_method_str i) (http_method_str i).length) with
  | some i => i
  | none => .UNKNOWN

/-- Function `is_http_request`. -/
def is_http_request (command : List Char) : Bool :=
  if parse_http_method command ≠ .UNKNOWN then true else false

/-! ## The request -/

/-- The structure `http_request` (declared in a header that is not among the
sources; the fields are those used by `http.c`).  `hp`, `cp` and `rp` are the
write positions in `headers`, `content` and `response`.

`type_overrun` is not a member of the C structure.  It is set once a copy
into `type` has filled the field without a terminator or gone past its end;
from then on the members that follow `type` in memory, whose order is not
among the sources, need not hold what the other fields say. -/
structure http_request where
  method : http_method
  path : List Char
  query : List Char
  route : List Char
  type : List Char
  length : Nat
  recv : Nat
  headers : List Char
  hp : Nat
  content : List Char
  cp : Nat
  response : List Char
  rp : Nat
  res_type : List Char
  status : Nat
  wrap_html : Bool
  state : Nat
  timer : Option Nat
  type_overrun : Bool := false
  deriving DecidableEq

/-- The request after `memset(req, 0, sizeof(http_request))`. -/
def http_request.zero : http_request :=
  { method := .UNKNOWN, path := [], query := [], route := [], type := [],
    length := 0, recv := 0, headers := [], hp := 0, content := [], cp := 0,
    response := [], rp := 0, res_type := [], status := 0, wrap_html := false,
    state := 0, timer := none }

/-- The backward scan `for (c--; c >= path && *c == '/'; c--); c++;` started
with `c` at offset `n`: the offset just after the last character before `n`
that is not a slash. -/
def rscan_slash (path : List Char) : Nat → Nat
  | 0 => 0
  | n + 1 => if path.get? n = some '/' then rscan_slash path n else n + 1

/-- The removal of trailing slashes in `parse_http_query`: a NUL is written
over the first slash of the trailing run, if there is one. -/
def strip_trailing (path : List Char) : List Char :=
  let c := rscan_slash path path.length
  if path.get? c = some '/' then path.take c else path

/-- The route name computed by `parse_http_query` from the path (query string
already cut off). -/
def route_name (path : List Char) : List Char :=
  let c := path.dropWhile (fun x => x == '/')
  if c ≠ [] then
    ((strip_trailing c).map (fun x => if x = '/' then TICK else x)).map UPCASE
  else
    "INDEX".toList

/-- The straight-line second half of `parse_http_query`, from "find the
optional query string" to the copy of the route attribute name; `path` is the
path+query token. -/
def setup_request (L : Limits) (req : http_request) (path : List Char) : http_request :=
  let (path, req) :=
    match strchr path '?' with
    | some (path, query) =>
      (path, { req with query := strncpy req.query query (L.HTTP_STR_LEN - 1) })
    | none => (path, req)
  let req := { req with path := strncpy req.path path (L.HTTP_STR_LEN - 1) }
  let req := { req with
    state := HTTP_REQUEST_HEADERS, timer := none, length := 0, recv := 0,
    hp := 0, cp := 0, rp := 0, status := 200,
    res_type := strncpy req.res_type "Content-Type: text/plain\r\n".toList L.HTTP_STR_LEN }
  { req with
    route := snprintf req.route L.HTTP_STR_LEN ("HTTP".toList ++ TICK :: route_name path) }

/-- Function `parse_http_query`: the return value (`true` for 1) and the request as the
call leaves it. -/
def parse_http_query (L : Limits) (req : http_request) (line : List Char) :
    Bool × http_request :=
  let method := parse_http_method line
  if method = .UNKNOWN then (false, req) else
  let req := { req with method := method }
  match strchr line ' ' with
  | none => (false, req)
  | some (_, c) =>
    let path := c.dropWhile isspace
    match strchr path ' ' with
    | none => (false, req)
    | some (path, version) =>
      if path.length ≥ L.HTTP_STR_LEN then (false, req) else
      if !strncmp_eq version "HTTP/1.1".toList 8 then (false, req) else
      (true, setup_request L req path)

/-! ## Bounded string building -/

/-- Modelled from the spec: `safe_strl` of `strutil.h` (not among the sources),
"bounded, truncate on overflow": up to `len` characters of `s` are written at
the write position `bp` of a buffer of `BUFFER_LEN` bytes, never beyond
offset `BUFFER_LEN - 1`, and the write position moves past them.  No
terminator is written. -/
def safe_strl (L : Limits) (s : List Char) (len : Nat) (buff : List Char) (bp : Nat) :
    List Char × Nat :=
  let w := s.take (min len (L.BUFFER_LEN - 1 - bp))
  (buff.take bp ++ w ++ buff.drop (bp + w.length), bp + w.length)

/-- Modelled from the spec: `safe_chr` of `strutil.h`, the one-character case
of `safe_strl`. -/
def safe_chr (L : Limits) (c : Char) (buff : List Char) (bp : Nat) : List Char × Nat :=
  safe_strl L [c] 1 buff bp

/-- Modelled from the spec: `safe_str` of `strutil.h`, `safe_strl` on the
whole string.  `safe_format` is `safe_str` on the formatted text. -/
def safe_str (L : Limits) (s : List Char) (buff : List Char) (bp : Nat) : List Char × Nat :=
  safe_strl L s s.length buff bp

/-- The assignment `*bp = '\0'`: the string in the buffer ends at the write
position. -/
def terminate (buff : List Char) (bp : Nat) : List Char := buff.take bp

/-- Modelled from the spec: `parse_integer` of `parse.h` (not among the
sources), "parses the value as an unsigned integer": leading white space is
skipped and the decimal digits that follow are read; no digits give 0. -/
def parse_integer (s : List Char) : Nat :=
  ((s.dropWhile isspace).takeWhile Char.isDigit).foldl
    (fun n c => 10 * n + (c.toNat - 48)) 0

/-- The text printed for `%d` / `%u` of an unsigned number. -/
def fmt_uint (n : Nat) : List Char := (Nat.repr n).toList

/-! ## Status table -/

/-- The array `http_status_codes`, exactly the entries of the initialiser. -/
def http_status_codes : List (Nat × List Char) := [
    (100, "Continue".toList),
    (101, "Switching Protocols".toList),
    (102, "Processing".toList),
    (103, "Early Hints".toList),
    (200, "OK".toList),
    (201, "Created".toList),
    (202, "Accepted".toList),
    (203, "Non-Authoritative Information".toList),
    (204, "No Content".toList),
    (205, "Reset Content".toList),
    (206, "Partial Content".toList),
    (207, "Multi-Status".toList),
    (208, "Already Reported".toList),
    (226, "IM Used".toList),
    (300, "Multiple Choices".toList),
    (301, "Moved Permanently".toList),
    (302, "Found".toList),
    (303, "See Other".toList),
    (304, "Not Modified".toList),
    (305, "Use Proxy".toList),
    (306, "(Unused)".toList),
    (307, "Temporary Redirect".toList),
    (308, "Permanent Redirect".toList),
    (400, "Bad Request".toList),
    (401, "Unauthorized".toList),
    (402, "Payment Required".toList),
    (403, "Forbidden".toList),
    (404, "Not Found".toList),
    (405, "Method Not Allowed".toList),
    (406, "Not Acceptable".toList),
    (407, "Proxy Authentication Required".toList),
    (408, "Request Timeout".toList),
    (409, "Conflict".toList),
    (410, "Gone".toList),
    (411, "Length Required".toList),
    (412, "Precondition Failed".toList),
    (413, "Payload Too Large".toList),
    (414, "URI Too Long".toList),
    (415, "Unsupported Media Type".toList),
    (416, "Range Not Satisfiable".toList),
    (417, "Expectation Failed".toList),
    (421, "Misdirected Request".toList),
    (422, "Unprocessable Entity".toList),
    (423, "Locked".toList),
    (424, "Failed Dependency".toList),
    (425, "Too Early".toList),
    (426, "Upgrade Required".toList),
    (428, "Precondition Required".toList),
    (429, "Too Many Requests".toList),
    (431, "Request Header Fields Too Large".toList),
    (451, "Unavailable For Legal Reasons".toList),
    (500, "Internal Server Error".toList),
    (501, "Not Implemented".toList),
    (502, "Bad Gateway".toList),
    (503, "Service Unavailable".toList),
    (504, "Gateway Timeout".toList),
    (505, "HTTP Version Not Supported".toList),
    (506, "Variant Also Negotiates".toList),
    (507, "Insufficient Storage".toList),
    (508, "Loop Detected".toList),
    (510, "Not Extended".toList),
    (511, "Network Authentication Required".toList)]

/-- What the scan of `get_http_status` can end in: the phrase of a matching
entry, `NULL` after an entry whose code is 0, or a read past the last element
of the array. -/
inductive status_lookup where
  | found (str : List Char)
  | null
  | overrun
  deriving DecidableEq

/-- The loop `for (c = tbl; c && c->code; c++) if (c->code == code) return c->str;`
over the entries that remain. -/
def status_scan : List (Nat × List Char) → Nat → status_lookup
  | [], _ => .overrun
  | (c, str) :: rest, code =>
    if c = 0 then .null
    else if c = code then .found str
    else status_scan rest code

/-- Function `get_http_status`. -/
def get_http_status (code : Nat) : status_lookup := status_scan http_status_codes code

/-! ## Descriptors and the outside world -/

/-- The arguments of one `queue_event(EVENT_HANDLER, route, ...)` call. -/
structure http_event where
  route : List Char
  descriptor : Nat
  ip : List Char
  method : List Char
  path : List Char
  query : List Char
  type : List Char
  length : Nat
  headers : List Char
  content : List Char
  deriving DecidableEq

/-- The calls `http.c` makes into the rest of the server, in the order made. -/
inductive effect where
  | queue_write (b : List Char)
  | queue_eol
  | queue_event (e : http_event) (result : Bool)
  | sq_cancel
  | sq_register_in (time : Nat)
  | boot_desc
  deriving DecidableEq

/-- The descriptor `DESC`, as far as `http.c` uses it, with the record of the
calls made on its behalf.

`cbuf_overrun` is not a member of the C structure.  It is set once
`process_http_request` has written past the end of its local buffer `cbuf`;
what the function does after such a write is not determined by the source. -/
structure DESC where
  descriptor : Nat
  ip : List Char
  http : Option http_request
  log : List effect
  cbuf_overrun : Bool := false
  deriving DecidableEq

/-- The parts of the server outside `http.c` that its behaviour depends on. -/
structure Env where
  L : Limits
  /-- The size of the command buffer `cbuf` of `process_http_request`,
  declared in a header that is not among the sources. -/
  MAX_COMMAND_LEN : Nat
  MUDNAME : List Char
  MUDURL : List Char
  /-- Whether `atr_get_noparent(EVENT_HANDLER, "HTTP")` finds an attribute. -/
  http_attr : Bool
  /-- Whether `mush_malloc` returns memory. -/
  malloc_ok : Bool
  /-- The value `queue_event` returns for an event name: whether a handler is
  bound to it. -/
  handler_bound : List Char → Bool

/-- The call `queue_write(d, b, n)`. -/
def queue_write (d : DESC) (b : List Char) : DESC := { d with log := d.log ++ [effect.queue_write b] }

/-- The call `queue_eol(d)`. -/
def queue_eol (d : DESC) : DESC := { d with log := d.log ++ [effect.queue_eol] }

/-- The `queue_event` calls recorded for a descriptor: the dispatches. -/
def dispatches (d : DESC) : List http_event :=
  d.log.filterMap (fun x => match x with
    | .queue_event e _ => some e
    | _ => none)

/-- The bytes handed to `queue_write` for a descriptor, call by call. -/
def writes (d : DESC) : List (List Char) :=
  d.log.filterMap (fun x => match x with
    | .queue_write b => some b
    | _ => none)

/-! ## Header and body lines -/

/-- Function `parse_http_header`.  The copy `strncpy(req->type, value, strlen(value))`
is bounded by the length of the value, not by the size of the field: a value
shorter than `HTTP_STR_LEN` is copied over the start of the string in `type`,
without a terminator; a value of `HTTP_STR_LEN` bytes or more fills the field,
leaves it without a terminator and, when longer, is written on past its end.
In that case the field holds the first `HTTP_STR_LEN` bytes of the value and
the request is marked with `type_overrun`. -/
def parse_http_header (L : Limits) (req : http_request) (line : List Char) : http_request :=
  let len := line.length
  let (h1, p1) := safe_strl L line len req.headers req.hp
  let (h2, p2) := safe_chr L LF h1 p1
  let req := { req with headers := terminate h2 p2, hp := p2 }
  match strchr line ':' with
  | none => req
  | some (line, value) =>
    if strncmp_eq line HTTP_CONTENT_LENGTH HTTP_CONTENT_LENGTH.length then
      { req with length := parse_integer value }
    else if strncmp_eq line HTTP_CONTENT_TYPE HTTP_CONTENT_TYPE.length then
      if value.length < L.HTTP_STR_LEN then
        { req with type := strncpy req.type value value.length }
      else
        { req with type := value.take L.HTTP_STR_LEN, type_overrun := true }
    else req

/-- Whether the copy into `type` that `parse_http_header` makes for a line
leaves a terminated string inside the field: the line does not reach the
`strncpy`, or its value is shorter than `HTTP_STR_LEN`. -/
def type_copy_fits (L : Limits) (line : List Char) : Bool :=
  match strchr line ':' with
  | none => true
  | some (name, value) =>
    if strncmp_eq name HTTP_CONTENT_LENGTH HTTP_CONTENT_LENGTH.length then true
    else if strncmp_eq name HTTP_CONTENT_TYPE HTTP_CONTENT_TYPE.length then
      decide (value.length < L.HTTP_STR_LEN)
    else true

/-- Function `parse_http_content`: the return value and the request afterwards. -/
def parse_http_content (L : Limits) (req : http_request) (line : List Char) :
    Bool × http_request :=
  let len := line.length
  let (c1, p1) := safe_strl L line len req.content req.cp
  let req := { req with content := terminate c1 p1, cp := p1 }
  let req := { req with recv := req.recv + len }
  if req.recv ≥ req.length then (true, req) else (false, req)

/-! ## Responses -/

/-- The text `send_http_status` formats: status line, headers, and a small
HTML page. -/
def status_page (status : Nat) (code route content : List Char) : List Char :=
  "HTTP/1.1 ".toList ++ fmt_uint status ++ " ".toList ++ code ++ "\r\n".toList
    ++ "Content-Type: text/html; charset:iso-8859-1\r\n".toList
    ++ "Pragma: no-cache\r\n".toList
    ++ "Connection: Close\r\n".toList
    ++ "X-Route: ".toList ++ route ++ "\r\n".toList
    ++ "\r\n".toList
    ++ "<!DOCTYPE html>\r\n".toList
    ++ "<HTML><HEAD>".toList
    ++ "<TITLE>".toList ++ fmt_uint status ++ " ".toList ++ code ++ "</TITLE>".toList
    ++ "</HEAD><BODY><p>".toList ++ content ++ "</p>\r\n".toList
    ++ "</BODY></HTML>\r\n".toList

/-- Function `send_http_status`.  The callers in `http.c` pass 400, 404, 408 and 500,
which the table lists; for a code that is not listed the scan leaves the
table, and the model returns as for a null pointer. -/
def send_http_status (E : Env) (d : DESC) (status : Nat) (content : List Char) : DESC :=
  match d.http with
  | none => d
  | some req =>
    match get_http_status status with
    | .found code =>
      let (buff, bp) := safe_str E.L (status_page status code req.route content) [] 0
      queue_eol (queue_write d (terminate buff bp))
    | _ => d

/-- The buffer `send_mudurl` builds. -/
def mudurl_page (E : Env) : List Char :=
  let has_mudurl := strncmp_eq E.MUDURL "http".toList 4
  let (b1, p1) := safe_str E.L
    ("HTTP/1.1 200 OK\r\n".toList
      ++ "Content-Type: text/html; charset:iso-8859-1\r\n".toList
      ++ "Pragma: no-cache\r\n".toList
      ++ "Connection: Close\r\n".toList
      ++ "\r\n".toList
      ++ "<!DOCTYPE html>\r\n".toList
      ++ "<HTML><HEAD>".toList
      ++ "<TITLE>Welcome to ".toList ++ E.MUDNAME ++ "!</TITLE>".toList) [] 0
  let (b2, p2) :=
    if has_mudurl then
      safe_str E.L ("<meta http-equiv=\"refresh\" content=\"5; url=".toList ++ E.MUDURL
        ++ "\">".toList) b1 p1
    else (b1, p1)
  let (b3, p3) := safe_str E.L "</HEAD><BODY><h1>Oops!</h1>".toList b2 p2
  let (b4, p4) :=
    if has_mudurl then
      safe_str E.L ("<p>You've come here by accident! Please click <a href=\"".toList
        ++ E.MUDURL ++ "\">".toList ++ E.MUDURL ++ "</a> to go to the website for ".toList
        ++ E.MUDNAME
        ++ " if your browser doesn't redirect you in a few seconds.</p>".toList) b3 p3
    else
      safe_str E.L
        ("<p>You've come here by accident! Try using a MUSH client, not a browser, to connect to ".toList
          ++ E.MUDNAME ++ ".</p>".toList) b3 p3
  let (b5, p5) := safe_str E.L "</BODY></HTML>\r\n".toList b4 p4
  terminate b5 p5

/-- Function `send_mudurl`. -/
def send_mudurl (E : Env) (d : DESC) : DESC :=
  queue_eol (queue_write d (mudurl_page E))

/-- The reason phrase as `%s` prints it; a null pointer is printed as
`(null)` by the C library.  What is printed after a scan that left the table
is not determined by the source; the model prints the same. -/
def status_text : status_lookup → List Char
  | .found str => str
  | _ => "(null)".toList

/-- The block `send_http_response` builds on its first call: status line,
response headers, content type, blank line and, when wrapping is on for an
HTML content type, the opening of the page.  The buffer and its write
position. -/
def response_head (E : Env) (req : http_request) : List Char × Nat :=
  let status := get_http_status req.status
  let (b1, p1) := safe_str E.L
    ("HTTP/1.1 ".toList ++ fmt_uint req.status ++ " ".toList ++ status_text status
      ++ "\r\n".toList) [] 0
  let (b2, p2) := safe_str E.L req.response b1 p1
  let (b3, p3) := safe_str E.L req.res_type b2 p2
  let (b4, p4) := safe_str E.L "\r\n".toList b3 p3
  if req.wrap_html && strstr req.res_type "text/html".toList then
    safe_str E.L
      ("<!DOCTYPE html>\r\n".toList ++ "<HTML><HEAD>\r\n".toList
        ++ "<TITLE>".toList ++ E.MUDNAME ++ "</TITLE>\r\n".toList
        ++ "</HEAD><BODY>\r\n".toList) b4 p4
  else (b4, p4)

/-- Function `send_http_response`; `content` is `none` for a null pointer. -/
def send_http_response (E : Env) (d : DESC) (content : Option (List Char)) : DESC :=
  match d.http with
  | none => d
  | some req =>
    let (req, buff, bp) :=
      if req.state ≠ HTTP_REQUEST_STARTED then
        let req := { req with state := HTTP_REQUEST_STARTED }
        (req, response_head E req)
      else (req, [], 0)
    let (buff, bp) :=
      match content with
      | some (c :: cs) => safe_str E.L (c :: cs) buff bp
      | _ => (buff, bp)
    queue_eol (queue_write { d with http := some req } (terminate buff bp))

/-- Function `close_http_request`. -/
def close_http_request (E : Env) (d : DESC) : DESC :=
  let d :=
    match d.http with
    | some req =>
      let d :=
        match req.timer with
        | some _ =>
          { d with http := some { req with timer := none },
                   log := d.log ++ [effect.sq_cancel] }
        | none => d
      if req.wrap_html && strstr req.res_type "text/html".toList then
        let (buff, bp) := safe_str E.L "</BODY></HTML>\r\n".toList [] 0
        queue_eol (queue_write d (terminate buff bp))
      else d
    | none => d
  { d with log := d.log ++ [effect.boot_desc] }

/-! ## Dispatch and time-outs -/

/-- Function `run_http_request`: the value returned by `queue_event` and the descriptor
with the call recorded. -/
def run_http_request (E : Env) (d : DESC) : Bool × DESC :=
  match d.http with
  | none => (false, d)
  | some req =>
    let e : http_event :=
      { route := req.route, descriptor := d.descriptor, ip := d.ip,
        method := http_method_str req.method, path := req.path, query := req.query,
        type := req.type, length := req.length, headers := req.headers,
        content := req.content }
    let r := E.handler_bound req.route
    (r, { d with log := d.log ++ [effect.queue_event e r] })

/-- Function `reset_http_timeout`. -/
def reset_http_timeout (d : DESC) (time : Nat) : DESC :=
  match d.http with
  | none => d
  | some req =>
    let d :=
      match req.timer with
      | some _ => { d with log := d.log ++ [effect.sq_cancel] }
      | none => d
    { d with http := some { req with timer := some time },
             log := d.log ++ [effect.sq_register_in time] }

/-- Function `http_timeout_wrapper` fired for a descriptor (its return value is always
`false`). -/
def http_timeout_wrapper (E : Env) (d : DESC) : DESC :=
  match d.http with
  | none => d
  | some req =>
    if req.state < HTTP_REQUEST_DONE then
      let d := { d with http := some { req with state := HTTP_REQUEST_DONE } }
      match run_http_request E d with
      | (false, d) => close_http_request E (send_http_status E d 404 "File not found.".toList)
      | (true, d) => reset_http_timeout d 1
    else
      let d :=
        if req.state ≠ HTTP_REQUEST_STARTED then
          send_http_status E d 408 "Unable to complete request.".toList
        else d
      close_http_request E d

/-! ## Request processing -/

/-- The 404 sent by `process_http_helper` when no handler is bound to the
route. -/
def send_not_found (E : Env) (d : DESC) (req : http_request) : DESC :=
  let (buff, bp) := safe_str E.L
    ("File not found. \"".toList ++ req.route ++ "\"".toList) [] 0
  send_http_status E d 404 (terminate buff bp)

/-- The block that `process_http_helper` runs at both places where a request
is complete: `req->state = HTTP_REQUEST_DONE`, then `run_http_request`, and on
failure the 404 and `return 0`. -/
def dispatch_or_404 (E : Env) (d : DESC) (req : http_request) : Bool × DESC :=
  let req := { req with state := HTTP_REQUEST_DONE }
  match run_http_request E { d with http := some req } with
  | (false, d) => (false, send_not_found E d req)
  | (true, d) => (true, d)

/-- Function `process_http_helper`: one line of the request. -/
def process_http_helper (E : Env) (d : DESC) (command : List Char) : Bool × DESC :=
  match d.http with
  | none => (false, send_mudurl E d)
  | some req =>
    if req.state = HTTP_REQUEST_HEADERS then
      if command = [] then
        if req.method = .GET then
          dispatch_or_404 E d req
        else
          (true, { d with http := some { req with state := HTTP_REQUEST_CONTENT } })
      else
        (true, { d with http := some (parse_http_header E.L req command) })
    else if req.state = HTTP_REQUEST_CONTENT then
      match parse_http_content E.L req command with
      | (true, req) => dispatch_or_404 E d req
      | (false, req) => (true, { d with http := some req })
    else (true, d)

/-- The copy `strncpy(cbuf, command, got)`: `got` bytes, NUL padded after the
end of the string in `command`. -/
def copy_command (command : List Char) (got : Nat) : List Char :=
  let s := (cstr command).take got
  s ++ List.replicate (got - s.length) NUL

/-- A write of the first `n` bytes of the local buffer `cbuf` of
`process_http_request`, which has `MAX_COMMAND_LEN` bytes: with `n` larger than
that the write goes past the end of the buffer, and the descriptor is marked
with `cbuf_overrun`. -/
def cbuf_write (E : Env) (d : DESC) (n : Nat) : DESC :=
  if E.MAX_COMMAND_LEN < n then { d with cbuf_overrun := true } else d

/-- The splitting loop of `process_http_request` and the handling of the last
line after it.  `cur` holds the bytes from `head` up to `q`, the last
argument the bytes from `q` up to `end`; its second element, when there is
one, is the byte `*(q + 1)` with `(q + 1) < end`.  The terminators that
the loop writes fall on bytes below `end`; the one written after the loop
falls on `*end`, the byte of `cbuf` at offset `got`. -/
def split_lines (E : Env) (got : Nat) : DESC → List Char → List Char → Bool × DESC
  | d, cur, [] =>
    if cur ≠ [] then process_http_helper E (cbuf_write E d (got + 1)) (cstr cur) else (true, d)
  | d, cur, [c] =>
    if c = CR ∨ c = LF then
      match process_http_helper E d (cstr cur) with
      | (false, d) => (false, d)
      | (true, d) => split_lines E got d [] []
    else split_lines E got d (cur ++ [c]) []
  | d, cur, c :: n :: rest =>
    if c = CR ∨ c = LF then
      match process_http_helper E d (cstr cur) with
      | (false, d) => (false, d)
      | (true, d) =>
        if n = LF then split_lines E got d [] rest else split_lines E got d [] (n :: rest)
    else split_lines E got d (cur ++ [c]) (n :: rest)

/-- Function `process_http_request`.  The local buffer `cbuf` has `MAX_COMMAND_LEN`
bytes and the source does not compare `got` with it: `strncpy(cbuf, command, got)`
writes `got` bytes, and the terminator of an unfinished last line is written
at offset `got`. -/
def process_http_request (E : Env) (d : DESC) (command : List Char) (got : Nat) :
    Bool × DESC :=
  match split_lines E got (cbuf_write E d got) [] (copy_command command got) with
  | (false, d) => (false, d)
  | (true, d) => (true, reset_http_timeout d HTTP_TIMEOUT)

/-- Function `do_http_command`: the first line of a request. -/
def do_http_command (E : Env) (d : DESC) (command : List Char) : Bool × DESC :=
  if !E.http_attr then (false, send_mudurl E d) else
  if !E.malloc_ok then
    (false, send_http_status E { d with http := none } 500
      "Unable to allocate http request.".toList)
  else
    let d := { d with http := some http_request.zero }
    match parse_http_query E.L http_request.zero command with
    | (false, req) =>
      (false, send_http_status E { d with http := some req } 400
        "Invalid request method.".toList)
    | (true, req) => (true, reset_http_timeout { d with http := some req } HTTP_TIMEOUT)


/-! ## The specification's wording, for comparison with the code -/

/-- The method prefixes of the specification. -/
def starts_with_method (line : List Char) : Prop :=
  "GET ".toList <+: line ∨ "POST ".toList <+: line ∨ "PUT ".toList <+: line ∨
    "PATCH ".toList <+: line ∨ "DELETE ".toList <+: line

instance (line : List Char) : Decidable (starts_with_method line) := by
  unfold starts_with_method; infer_instance

/-- The request target of a request line in the words of the specification:
the line is split on the first space to get the method and the next
space-delimited token is the target (white space before it is skipped). -/
def spec_target (line : List Char) : List Char :=
  (((line.dropWhile (fun c => c != ' ')).drop 1).dropWhile isspace).takeWhile
    (fun c => c != ' ')

/-- The text after the space that ends the target. -/
def spec_version (line : List Char) : List Char :=
  ((((line.dropWhile (fun c => c != ' ')).drop 1).dropWhile isspace).dropWhile
    (fun c => c != ' ')).drop 1

/-- The portion of a target before the first `?`. -/
def spec_path_part (target : List Char) : List Char :=
  target.takeWhile (fun c => c != '?')

/-- The path normalization of the specification: strip all leading `/`; if
nothing remains the result is `INDEX`; otherwise strip all trailing `/`,
replace every remaining `/` with the separator and upper-case every
character. -/
def spec_normalize (p : List Char) : List Char :=
  let r := p.dropWhile (fun c => c == '/')
  if r = [] then "INDEX".toList
  else ((r.rdropWhile (fun c => c == '/')).map (fun c => if c = '/' then TICK else c)).map UPCASE

/-- An example configuration: short fields of 64 bytes, buffers of 8192. -/
def example_limits : Limits := { HTTP_STR_LEN := 64, BUFFER_LEN := 8192 }

/-! ## Sequences of events on a connection -/

/-- The state of the request of a descriptor (0 when there is none). -/
def request_state (d : DESC) : Nat :=
  match d.http with
  | some req => req.state
  | none => 0

/-- The events that reach a request: a line handed to `process_http_helper`,
the timer firing `http_timeout_wrapper`, a call of `send_http_response`. -/
inductive http_step where
  | line (l : List Char)
  | timeout
  | respond (content : Option (List Char))
  deriving DecidableEq

/-- One event applied to a descriptor. -/
def apply_step (E : Env) (d : DESC) : http_step → DESC
  | .line l => (process_http_helper E d l).2
  | .timeout => http_timeout_wrapper E d
  | .respond content => send_http_response E d content

/-- A finite sequence of events applied in order. -/
def run_steps (E : Env) (d : DESC) (steps : List http_step) : DESC :=
  steps.foldl (apply_step E) d

/-- Chunks of bytes handed to `process_http_request` one after the other, each
with its own length as `got`. -/
def feed_chunks (E : Env) (d : DESC) (chunks : List (List Char)) : DESC :=
  chunks.foldl (fun d chunk => (process_http_request E d chunk chunk.length).2) d

/-- The bytes of a list of lines, each followed by CR LF. -/
def crlf_lines (lines : List (List Char)) : List Char :=
  (lines.map (fun l => l ++ CRLF)).flatten

/-- What one event may do to the record of dispatches: leave it as it is (and
leave a request that is DONE or STARTED in one of these states), or add one
call while the state moves from HEADERS or CONTENT to DONE. -/
def dispatch_step (a b : DESC) : Prop :=
  (dispatches b = dispatches a ∧
      (HTTP_REQUEST_DONE ≤ request_state a → HTTP_REQUEST_DONE ≤ request_state b)) ∨
    ((request_state a = HTTP_REQUEST_HEADERS ∨ request_state a = HTTP_REQUEST_CONTENT) ∧
      request_state b = HTTP_REQUEST_DONE ∧ ∃ e, dispatches b = dispatches a ++ [e])

/-- The four states a request goes through. -/
def valid_state (d : DESC) : Prop :=
  HTTP_REQUEST_HEADERS ≤ request_state d ∧ request_state d ≤ HTTP_REQUEST_STARTED

/-- Lines handed to `process_http_helper` one after the other, stopping at the
first that returns 0, as the loop of `process_http_request` does. -/
def feed_lines (E : Env) : DESC → List (List Char) → Bool × DESC
  | d, [] => (true, d)
  | d, l :: ls =>
    match process_http_helper E d l with
    | (false, d) => (false, d)
    | (true, d) => feed_lines E d ls

/-- An example environment: command buffers of 4096 bytes, an HTTP handler
object exists, memory is available and a handler is bound to the route of
`/news` only. -/
def example_env : Env :=
  { L := example_limits, MAX_COMMAND_LEN := 4096, MUDNAME := "PennMUSH".toList, MUDURL := [],
    http_attr := true, malloc_ok := true,
    handler_bound := fun route => route == "HTTP`NEWS".toList }

/-- An example descriptor on which nothing has happened yet. -/
def example_desc : DESC :=
  { descriptor := 7, ip := "127.0.0.1".toList, http := none, log := [] }

/-- An example request: the one `parse_http_query` sets up for a POST. -/
def example_request : http_request :=
  (parse_http_query example_limits http_request.zero "POST /form HTTP/1.1".toList).2

/-- An example descriptor whose request is waiting for header lines. -/
def example_headers_desc : DESC := { example_desc with http := some example_request }

/-- An example request that waits for a body of three bytes. -/
def example_body_request : http_request :=
  { example_request with state := HTTP_REQUEST_CONTENT, length := 3 }

/-- An example descriptor whose request is waiting for its body. -/
def example_body_desc : DESC := { example_desc with http := some example_body_request }

/-! ## The `@respond` command -/

/-- Modelled from the spec: `parse_uint32` of `parse.h` (not among the
sources), the status code "value" read as an unsigned 32-bit decimal number:
the digits are read as by `parse_integer` and the result is capped at the
largest 32-bit value. -/
def parse_uint32 (s : List Char) : Nat := min (parse_integer s) 4294967295

/-- The switches of `@respond` that `cmd_respond` tests with `SW_ISSET`. -/
structure respond_switches where
  html : Bool := false
  json : Bool := false
  text : Bool := false
  wrap : Bool := false
  nowrap : Bool := false
  type : Bool := false
  header : Bool := false
  status : Bool := false
  notify : Bool := false
  send : Bool := false
  deriving DecidableEq

/-- The content-type switches of `cmd_respond`: the request, the message for
the executor and the new value of `close_socket`. -/
def respond_content_type (E : Env) (sw : respond_switches) (req : http_request) :
    http_request × List (List Char) × Bool :=
  if sw.html then
    let t := strncpy req.res_type "Content-Type: text/html\r\n".toList E.L.HTTP_STR_LEN
    ({ req with res_type := t }, ["Content-Type set to text/html.".toList], false)
  else if sw.json then
    let t := strncpy req.res_type "Content-Type: application/json\r\n".toList E.L.HTTP_STR_LEN
    ({ req with res_type := t }, ["Content-Type set to application/json.".toList], false)
  else if sw.text then
    let t := strncpy req.res_type "Content-Type: text/plain\r\n".toList E.L.HTTP_STR_LEN
    ({ req with res_type := t }, ["Content-Type set to text/plain.".toList], false)
  else (req, [], true)

/-- The end of `cmd_respond`, reached when no sub-command returned early: the
response is sent and the socket closed unless `/send` holds it open. -/
def respond_finish (E : Env) (sw : respond_switches) (d : DESC) (content : Option (List Char))
    (close_socket : Bool) : DESC :=
  let d := send_http_response E d content
  if close_socket && (sw.notify || !sw.send) then close_http_request E d else d

/-- Function `cmd_respond`, the command `@respond`.  An argument is the empty
list when the pointer is null or the string empty; `port` is what
`port_desc(parse_integer(arg_left))` finds and `conn_http` its flag
`CONN_HTTP_REQUEST`.  The result is the descriptor afterwards and the
messages sent to the executor with `notify`.  It is `none` when the scan of
`get_http_status` for the code of the status switch has read past the end of
`http_status_codes`: the pointer the command then tests is not determined by
the source. -/
def cmd_respond (E : Env) (sw : respond_switches) (arg_left arg_right : List Char)
    (port : Option DESC) (conn_http : Bool) :
    Option (Option DESC × List (List Char)) :=
  if arg_left = [] then some (port, ["Invalid arguments.".toList]) else
  match port with
  | none => some (none, ["Descriptor not found.".toList])
  | some d =>
    if d.http = none ∨ conn_http = false then
      some (some d, ["Descriptor has not made an HTTP request.".toList])
    else
    let d := reset_http_timeout d HTTP_TIMEOUT
    match d.http with
    | none => some (some d, [])
    | some req =>
      let (req, said, close_socket) := respond_content_type E sw req
      let close_socket := if arg_right ≠ [] then true else close_socket
      let req :=
        if sw.wrap then { req with wrap_html := true }
        else if sw.nowrap then { req with wrap_html := false }
        else req
      let d := { d with http := some req }
      if sw.type then
        if arg_right = [] then some (some d, said ++ ["Invalid arguments.".toList])
        else
          let t := snprintf req.res_type E.L.HTTP_STR_LEN
            ("Content-Type: ".toList ++ arg_right ++ "\r\n".toList)
          let req := { req with res_type := t }
          some (some { d with http := some req },
            said ++ ["Content-Type set to ".toList ++ arg_right ++ ".".toList])
      else if sw.header then
        if arg_right = [] then some (some d, said ++ ["Invalid arguments.".toList])
        else
          match strchr arg_right ':' with
          | none =>
            some (some d, said ++ ["Invalid format, expected \"Header-Name: Value\".".toList])
          | some ([], _) =>
            some (some d, said ++ ["Invalid format, expected \"Header-Name: Value\".".toList])
          | some (_ :: _, _) =>
            if strncasecmp_eq arg_right HTTP_CONTENT_LENGTH HTTP_CONTENT_LENGTH.length then
              some (some d,
                said ++ ["You may not manually set the Content-Length header.".toList])
            else if strncasecmp_eq arg_right HTTP_CONTENT_TYPE HTTP_CONTENT_TYPE.length then
              some (some d,
                said ++ ["You may not manually set the Content-Type header.".toList])
            else
              let (r1, p1) := safe_str E.L arg_right req.response req.rp
              let (r2, p2) := safe_str E.L "\r\n".toList r1 p1
              let req := { req with response := r2, rp := p2,
                                    headers := terminate req.headers req.hp }
              let d := { d with http := some req }
              let said := said ++ ["Header added, ".toList ++ arg_right ++ ".".toList]
              if !sw.notify then some (some d, said)
              else some (some (respond_finish E sw d none close_socket), said)
      else if sw.status then
        if arg_right = [] then some (some d, said ++ ["Invalid arguments.".toList])
        else
          let code := parse_uint32 arg_right
          match get_http_status code with
          | .found p =>
            let req := { req with status := code }
            let d := { d with http := some req }
            let said := said ++ ["Status code set to ".toList ++ fmt_uint code ++ " ".toList
              ++ p ++ ".".toList]
            if !sw.notify then some (some d, said)
            else some (some (respond_finish E sw d none close_socket), said)
          | .null => some (some d, said ++ ["Invalid HTTP status code.".toList])
          | .overrun => none
      else
        some (some (respond_finish E sw d (some arg_right) close_socket), said)

/-! ## Reading the record of calls -/

/-- The delays of the `sq_register_in` calls recorded for a descriptor: the
times a timeout was armed. -/
def rearms (d : DESC) : List Nat :=
  d.log.filterMap (fun x => match x with
    | .sq_register_in t => some t
    | _ => none)

/-- What `close_http_request` adds to the record of calls for a request: the
cancellation of a pending timer, the closing wrapper when wrapping is on for
an HTML content type, and the termination of the connection. -/
def close_effects (E : Env) (req : http_request) : List effect :=
  (if req.timer.isSome then [effect.sq_cancel] else [])
    ++ (if req.wrap_html && strstr req.res_type "text/html".toList then
          [effect.queue_write ("</BODY></HTML>\r\n".toList.take (E.L.BUFFER_LEN - 1)),
            effect.queue_eol]
        else [])
    ++ [effect.boot_desc]

/-- The opening of the HTML page that `send_http_response` writes when
wrapping is on. -/
def html_opening (E : Env) : List Char :=
  "<!DOCTYPE html>\r\n".toList ++ "<HTML><HEAD>\r\n".toList
    ++ "<TITLE>".toList ++ E.MUDNAME ++ "</TITLE>\r\n".toList
    ++ "</HEAD><BODY>\r\n".toList

/-- The status line, headers and blank line that begin a response, in the
words of the specification: status line with the code and its reason phrase,
the extra response headers, the content-type header, a blank line, and the
opening of the HTML page if and only if wrapping is on and the content-type
header contains `text/html`. -/
def spec_response_head (E : Env) (req : http_request) (reason : List Char) : List Char :=
  "HTTP/1.1 ".toList ++ fmt_uint req.status ++ " ".toList ++ reason ++ "\r\n".toList
    ++ req.response ++ req.res_type ++ "\r\n".toList
    ++ (if req.wrap_html = true ∧ strstr req.res_type "text/html".toList = true then
          html_opening E
        else [])

/-- The method of the request of a descriptor (`UNKNOWN` when there is none). -/
def request_method (d : DESC) : http_method :=
  match d.http with
  | some req => req.method
  | none => .UNKNOWN

/-- An example request for GET, as `parse_http_query` sets it up. -/
def example_get_request : http_request :=
  (parse_http_query example_limits http_request.zero "GET /news HTTP/1.1".toList).2

/-- An example descriptor whose GET request is waiting for header lines. -/
def example_get_desc : DESC := { example_desc with http := some example_get_request }

/-- The example environment when `mush_malloc` fails. -/
def example_env_no_memory : Env := { example_env with malloc_ok := false }

/-- The example environment with no handler bound to any route. -/
def example_env_unbound : Env := { example_env with handler_bound := fun _ => false }

/-- An example descriptor after the blank line of the GET request: the handler
has been called and no response has started. -/
def example_done_desc : DESC := (process_http_helper example_env example_get_desc []).2

/-- An example descriptor after `@respond/html/wrap/status 7=404` on the
dispatched GET request: content type, wrapping and status are set, and no
response has started. -/
def example_wrapped_desc : DESC :=
  match cmd_respond example_env { html := true, wrap := true, status := true } "7".toList
      "404".toList (some example_done_desc) true with
  | some (some d, _) => d
  | _ => example_done_desc

/-- The lines that the loop of `process_http_request` hands to
`process_http_helper`, one after the other, as long as no call returns 0: the
same traversal as `split_lines` with the calls replaced by a list. -/
def delivered_lines : List Char → List Char → List (List Char)
  | cur, [] => if cur ≠ [] then [cstr cur] else []
  | cur, [c] =>
    if c = CR ∨ c = LF then cstr cur :: delivered_lines [] []
    else delivered_lines (cur ++ [c]) []
  | cur, c :: n :: rest =>
    if c = CR ∨ c = LF then
      cstr cur :: (if n = LF then delivered_lines [] rest else delivered_lines [] (n :: rest))
    else delivered_lines (cur ++ [c]) (n :: rest)

/-- The operations on a request: the events of `http_step` and a use of the
`@respond` command on the descriptor, with any switches and arguments. -/
inductive http_op where
  | step (s : http_step)
  | command (sw : respond_switches) (arg_left arg_right : List Char) (conn_http : Bool)
  deriving DecidableEq

/-- One operation applied to a descriptor; `none` when `cmd_respond` gives
`none`. -/
def apply_op (E : Env) (d : DESC) : http_op → Option DESC
  | .step s => some (apply_step E d s)
  | .command sw arg_left arg_right conn_http =>
    match cmd_respond E sw arg_left arg_right (some d) conn_http with
    | some (d', _) => some (d'.getD d)
    | none => none

/-- A finite sequence of operations applied in order, as long as each gives a
descriptor. -/
def run_ops (E : Env) : DESC → List http_op → Option DESC
  | d, [] => some d
  | d, op :: ops =>
    match apply_op E d op with
    | some d' => run_ops E d' ops
    | none => none

/-- The bytes of a list of lines, each with its own terminator: CR LF when the
flag is set, a bare LF otherwise. -/
def terminated_lines (lines : List (List Char × Bool)) : List Char :=
  (lines.map (fun lt => lt.1 ++ (if lt.2 then CRLF else [LF]))).flatten

/-! # Properties -/

/-! ## Strings -/

theorem strncmp_eq_length (a b : List Char) :
    strncmp_eq a b b.length = true ↔ b <+: a := by
  unfold strncmp_eq
  rw [List.take_length, List.prefix_iff_eq_take, beq_iff_eq]
  exact eq_comm

theorem strchr_append (pre post : List Char) (c : Char) (h : c ∉ pre) :
    strchr (pre ++ c :: post) c = some (pre, post) := by
  induction pre with
  | nil => simp [strchr]
  | cons x xs ih =>
    have hx : x ≠ c := fun e => h (by simp [e])
    have hxs : c ∉ xs := fun e => h (by simp [e])
    simp [strchr, hx, ih hxs]

theorem strchr_eq_some {s : List Char} {c : Char} {pre post : List Char}
    (h : strchr s c = some (pre, post)) : s = pre ++ c :: post ∧ c ∉ pre := by
  induction s generalizing pre with
  | nil => simp [strchr] at h
  | cons x xs ih =>
    unfold strchr at h
    by_cases hx : x = c
    · simp [hx] at h
      obtain ⟨h1, h2⟩ := h
      subst h1 h2
      simp [hx]
    · simp only [hx, if_false] at h
      cases hr : strchr xs c with
      | none => simp [hr] at h
      | some pp =>
        obtain ⟨p1, p2⟩ := pp
        simp [hr] at h
        obtain ⟨h1, h2⟩ := h
        subst h1 h2
        obtain ⟨e, hn⟩ := ih hr
        refine ⟨by simp [← e], ?_⟩
        simp [hn, Ne.symm hx]

theorem strchr_eq_none {s : List Char} {c : Char} : strchr s c = none ↔ c ∉ s := by
  induction s with
  | nil => simp [strchr]
  | cons x xs ih =>
    unfold strchr
    by_cases hx : x = c
    · simp [hx]
    · simp only [hx, if_false]
      cases hr : strchr xs c with
      | none => simp [ih.mp hr, Ne.symm hx]
      | some pp =>
        have := strchr_eq_some hr
        simp [this.1]

theorem takeWhile_ne_append (pre post : List Char) (c : Char) (h : c ∉ pre) :
    (pre ++ c :: post).takeWhile (fun x => x != c) = pre ∧
      (pre ++ c :: post).dropWhile (fun x => x != c) = c :: post := by
  induction pre with
  | nil => simp
  | cons x xs ih =>
    have hx : x ≠ c := fun e => h (by simp [e])
    have hxs : c ∉ xs := fun e => h (by simp [e])
    simp [List.takeWhile_cons, List.dropWhile_cons, hx, ih hxs]

theorem takeWhile_ne_of_not_mem (s : List Char) (c : Char) (h : c ∉ s) :
    s.takeWhile (fun x => x != c) = s := by
  rw [List.takeWhile_eq_self_iff]
  intro x hx
  simp only [bne_iff_ne, ne_eq]
  rintro rfl
  exact h hx


/-! ## Methods -/

theorem unknown_not_mem_http_methods : http_method.UNKNOWN ∉ http_methods := by decide

theorem parse_http_method_ne_unknown (line : List Char) :
    parse_http_method line ≠ .UNKNOWN ↔
      ∃ m ∈ http_methods, http_method_str m <+: line := by
  unfold parse_http_method
  cases hf : http_methods.find?
      (fun i => strncmp_eq line (http_method_str i) (http_method_str i).length) with
  | none =>
    simp only [ne_eq, not_true_eq_false, false_iff, not_exists, not_and]
    intro m hm hp
    have := List.find?_eq_none.mp hf m hm
    exact this ((strncmp_eq_length _ _).mpr hp)
  | some i =>
    have hmem := List.mem_of_find?_eq_some hf
    have hp := List.find?_some hf
    constructor
    · intro _
      exact ⟨i, hmem, (strncmp_eq_length _ _).mp hp⟩
    · intro _ e
      simp only at e
      exact unknown_not_mem_http_methods (e ▸ hmem)

theorem starts_with_method_iff (line : List Char) :
    starts_with_method line ↔ ∃ m ∈ http_methods, http_method_str m <+: line := by
  simp [starts_with_method, http_methods, http_method_str]

theorem parse_http_method_label (m : http_method) (hm : m ∈ http_methods)
    (rest : List Char) : parse_http_method (http_method_str m ++ rest) = m := by
  simp only [http_methods, List.mem_cons, List.mem_singleton, List.not_mem_nil, or_false] at hm
  rcases hm with rfl | rfl | rfl | rfl | rfl <;>
    simp [parse_http_method, http_methods, http_method_str, strncmp_eq, List.find?]

theorem parse_http_query_unknown (L : Limits) (req : http_request) (line : List Char)
    (h : parse_http_method line = .UNKNOWN) : parse_http_query L req line = (false, req) := by
  simp [parse_http_query, h]

/-- C4: `is_http_request` holds exactly for the lines that start with one of
the five method labels (compared case-sensitively), and a line with none of
them is refused by `parse_http_query`, which leaves the request untouched,
and is not an HTTP request for `is_http_request`. -/
theorem is_http_request_iff_starts_with_method (L : Limits) (req : http_request)
    (line : List Char) :
    (is_http_request line = true ↔ starts_with_method line) ∧
      (¬ starts_with_method line →
        parse_http_query L req line = (false, req) ∧ is_http_request line = false) := by
  have key : is_http_request line = true ↔ starts_with_method line := by
    rw [starts_with_method_iff, ← parse_http_method_ne_unknown]
    unfold is_http_request
    by_cases h : parse_http_method line = .UNKNOWN <;> simp [h]
  refine ⟨key, fun hn => ⟨?_, ?_⟩⟩
  · apply parse_http_query_unknown
    by_contra h
    exact hn ((starts_with_method_iff line).mpr ((parse_http_method_ne_unknown line).mp h))
  · cases hb : is_http_request line with
    | false => rfl
    | true => exact absurd (key.mp hb) hn

theorem is_http_request_iff_starts_with_method_witness :
    ¬ starts_with_method "get / HTTP/1.1".toList ∧
      parse_http_query ⟨64, 8192⟩ http_request.zero "get / HTTP/1.1".toList
        = (false, http_request.zero) ∧
      is_http_request "get / HTTP/1.1".toList = false :=
  ⟨by decide,
    (is_http_request_iff_starts_with_method ⟨64, 8192⟩ http_request.zero
      "get / HTTP/1.1".toList).2 (by decide)⟩

/-! ## Route names -/

theorem rscan_slash_append (l r : List Char) (n : Nat) (h : n ≤ l.length) :
    rscan_slash (l ++ r) n = rscan_slash l n := by
  induction n with
  | zero => rfl
  | succ k ih =>
    have hk : k < l.length := h
    simp only [rscan_slash, List.get?_eq_getElem?, List.getElem?_append_left hk]
    rw [ih (Nat.le_of_lt hk)]

theorem rscan_slash_length (l : List Char) :
    rscan_slash l l.length = (l.rdropWhile (fun c => c == '/')).length := by
  induction l using List.reverseRecOn with
  | nil => rfl
  | append_singleton l a ih =>
    rw [List.rdropWhile_concat]
    simp only [List.length_append, List.length_singleton, rscan_slash,
      List.get?_eq_getElem?, List.getElem?_concat_length, Option.some.injEq, beq_iff_eq]
    by_cases ha : a = '/'
    · simp only [ha, if_true]
      rw [rscan_slash_append _ _ _ (le_refl _), ih]
    · simp [ha]

theorem rdropWhile_slash_get (l : List Char) :
    l.get? (l.rdropWhile (fun c => c == '/')).length = some '/' ∨
      l.rdropWhile (fun c => c == '/') = l := by
  induction l using List.reverseRecOn with
  | nil => right; rfl
  | append_singleton l a ih =>
    rw [List.rdropWhile_concat]
    by_cases ha : a = '/'
    · left
      simp only [ha, beq_self_eq_true, if_true]
      rcases ih with h | h
      · have hlt : (l.rdropWhile (fun c => c == '/')).length < l.length := by
          by_contra hc
          rw [List.get?_eq_getElem?, List.getElem?_eq_none (Nat.le_of_not_lt hc)] at h
          cases h
        rw [List.get?_eq_getElem?, List.getElem?_append_left hlt, ← List.get?_eq_getElem?]
        exact h
      · rw [h, List.get?_eq_getElem?, List.getElem?_concat_length]
    · right
      simp [ha]

theorem strip_trailing_eq (l : List Char) :
    strip_trailing l = l.rdropWhile (fun c => c == '/') := by
  unfold strip_trailing
  simp only [rscan_slash_length]
  have hpre : l.rdropWhile (fun c => c == '/') <+: l := List.rdropWhile_prefix _ _
  have htake : l.take (l.rdropWhile (fun c => c == '/')).length
      = l.rdropWhile (fun c => c == '/') := (List.prefix_iff_eq_take.mp hpre).symm
  split
  · exact htake
  · rename_i hne
    rcases rdropWhile_slash_get l with h | h
    · exact absurd h hne
    · exact h.symm

/-- The route name computed by the pointer loops of `parse_http_query` is the
normalization described by the specification. -/
theorem route_name_eq_spec (p : List Char) : route_name p = spec_normalize p := by
  unfold route_name spec_normalize
  simp only [strip_trailing_eq]
  by_cases h : p.dropWhile (fun c => c == '/') = [] <;> simp [h]

/-! ## The request line -/

/-- A request line put together from a method, the white space after the
method label, a target and the text after the space that ends the target. -/
theorem parse_http_query_shape (L : Limits) (req : http_request) (m : http_method)
    (ws target version : List Char) (hm : m ∈ http_methods)
    (hws : ∀ c ∈ ws, isspace c = true)
    (hhead : ∀ c ∈ target.head?, isspace c = false) (hne : target ≠ [])
    (hsp : ' ' ∉ target) :
    parse_http_query L req (http_method_str m ++ (ws ++ (target ++ ' ' :: version))) =
      if target.length ≥ L.HTTP_STR_LEN then (false, { req with method := m })
      else if !strncmp_eq version "HTTP/1.1".toList 8 then (false, { req with method := m })
      else (true, setup_request L { req with method := m } target) := by
  have hmeth := parse_http_method_label m hm (ws ++ (target ++ ' ' :: version))
  have hunk : m ≠ .UNKNOWN := fun e => unknown_not_mem_http_methods (e ▸ hm)
  obtain ⟨word, hword, hwsp⟩ : ∃ word, http_method_str m = word ++ [' '] ∧ ' ' ∉ word := by
    simp only [http_methods, List.mem_cons, List.mem_singleton, List.not_mem_nil,
      or_false] at hm
    rcases hm with rfl | rfl | rfl | rfl | rfl
    · exact ⟨"GET".toList, by decide, by decide⟩
    · exact ⟨"POST".toList, by decide, by decide⟩
    · exact ⟨"PUT".toList, by decide, by decide⟩
    · exact ⟨"PATCH".toList, by decide, by decide⟩
    · exact ⟨"DELETE".toList, by decide, by decide⟩
  have h1 : strchr (http_method_str m ++ (ws ++ (target ++ ' ' :: version))) ' '
      = some (word, ws ++ (target ++ ' ' :: version)) := by
    rw [hword, List.append_assoc, List.singleton_append]
    exact strchr_append _ _ _ hwsp
  have h2 : (ws ++ (target ++ ' ' :: version)).dropWhile isspace
      = target ++ ' ' :: version := by
    rw [List.dropWhile_append, (List.dropWhile_eq_nil_iff).mpr hws]
    simp only [List.isEmpty_nil, if_true]
    cases target with
    | nil => exact absurd rfl hne
    | cons t ts =>
      have := hhead t (by simp)
      simp [List.dropWhile_cons, this]
  have h3 : strchr (target ++ ' ' :: version) ' ' = some (target, version) :=
    strchr_append _ _ _ hsp
  unfold parse_http_query
  simp only [hmeth, hunk, if_false, h1, h2, h3]

theorem parse_http_query_accept (L : Limits) (req : http_request) (line : List Char)
    (h : (parse_http_query L req line).1 = true) :
    ∃ m ws target version,
      line = http_method_str m ++ (ws ++ (target ++ ' ' :: version)) ∧
      m ∈ http_methods ∧ (∀ c ∈ ws, isspace c = true) ∧
      (∀ c ∈ target.head?, isspace c = false) ∧ target ≠ [] ∧ ' ' ∉ target ∧
      target.length < L.HTTP_STR_LEN ∧ "HTTP/1.1".toList <+: version := by
  unfold parse_http_query at h
  by_cases hu : parse_http_method line = .UNKNOWN
  · simp [hu] at h
  simp only [hu, if_false] at h
  obtain ⟨m, hm, hpre⟩ := (parse_http_method_ne_unknown line).mp hu
  obtain ⟨rest, rfl⟩ := hpre
  obtain ⟨word, hword, hwsp⟩ : ∃ word, http_method_str m = word ++ [' '] ∧ ' ' ∉ word := by
    simp only [http_methods, List.mem_cons, List.mem_singleton, List.not_mem_nil,
      or_false] at hm
    rcases hm with rfl | rfl | rfl | rfl | rfl
    · exact ⟨"GET".toList, by decide, by decide⟩
    · exact ⟨"POST".toList, by decide, by decide⟩
    · exact ⟨"PUT".toList, by decide, by decide⟩
    · exact ⟨"PATCH".toList, by decide, by decide⟩
    · exact ⟨"DELETE".toList, by decide, by decide⟩
  have h1 : strchr (http_method_str m ++ rest) ' ' = some (word, rest) := by
    rw [hword, List.append_assoc, List.singleton_append]
    exact strchr_append _ _ _ hwsp
  rw [h1] at h
  simp only at h
  cases h2 : strchr (rest.dropWhile isspace) ' ' with
  | none => simp [h2] at h
  | some tv =>
    obtain ⟨target, version⟩ := tv
    simp only [h2] at h
    by_cases hlen : target.length ≥ L.HTTP_STR_LEN
    · simp [hlen] at h
    simp only [hlen, if_false] at h
    by_cases hver : strncmp_eq version "HTTP/1.1".toList 8 = true
    · obtain ⟨hsplit, hnsp⟩ := strchr_eq_some h2
      have hrest : rest = rest.takeWhile isspace ++ (target ++ ' ' :: version) := by
        rw [← hsplit, List.takeWhile_append_dropWhile]
      have hhead : ∀ c ∈ target.head?, isspace c = false := by
        intro c hc
        have hd := List.head?_dropWhile_not isspace rest
        rw [hsplit] at hd
        cases target with
        | nil => simp at hc
        | cons t ts =>
          simp only [List.head?_cons, Option.mem_def, Option.some.injEq] at hc
          subst hc
          simpa using hd
      have hne : target ≠ [] := by
        rintro rfl
        have hd := List.head?_dropWhile_not isspace rest
        rw [hsplit] at hd
        simp [isspace] at hd
      refine ⟨m, rest.takeWhile isspace, target, version, ?_, hm, ?_, hhead, hne, hnsp,
        Nat.lt_of_not_ge hlen, ?_⟩
      · rw [← hrest]
      · intro c hc
        exact (List.mem_takeWhile_imp hc)
      · exact (strncmp_eq_length version "HTTP/1.1".toList).mp hver
    · simp only [Bool.not_eq_true] at hver
      rw [hver] at h
      simp at h

theorem http_method_str_word (m : http_method) (hm : m ∈ http_methods) :
    ∃ word, http_method_str m = word ++ [' '] ∧ ' ' ∉ word := by
  simp only [http_methods, List.mem_cons, List.mem_singleton, List.not_mem_nil,
    or_false] at hm
  rcases hm with rfl | rfl | rfl | rfl | rfl
  · exact ⟨"GET".toList, by decide, by decide⟩
  · exact ⟨"POST".toList, by decide, by decide⟩
  · exact ⟨"PUT".toList, by decide, by decide⟩
  · exact ⟨"PATCH".toList, by decide, by decide⟩
  · exact ⟨"DELETE".toList, by decide, by decide⟩

theorem spec_target_shape (m : http_method) (ws target version : List Char)
    (hm : m ∈ http_methods) (hws : ∀ c ∈ ws, isspace c = true)
    (hhead : ∀ c ∈ target.head?, isspace c = false) (hne : target ≠ [])
    (hsp : ' ' ∉ target) :
    spec_target (http_method_str m ++ (ws ++ (target ++ ' ' :: version))) = target ∧
      spec_version (http_method_str m ++ (ws ++ (target ++ ' ' :: version))) = version := by
  obtain ⟨word, hword, hwsp⟩ := http_method_str_word m hm
  have h1 : (http_method_str m ++ (ws ++ (target ++ ' ' :: version))).dropWhile
      (fun c => c != ' ') = ' ' :: (ws ++ (target ++ ' ' :: version)) := by
    rw [hword, List.append_assoc, List.singleton_append]
    exact (takeWhile_ne_append _ _ _ hwsp).2
  have h2 : (ws ++ (target ++ ' ' :: version)).dropWhile isspace
      = target ++ ' ' :: version := by
    rw [List.dropWhile_append, (List.dropWhile_eq_nil_iff).mpr hws]
    simp only [List.isEmpty_nil, if_true]
    cases target with
    | nil => exact absurd rfl hne
    | cons t ts =>
      have := hhead t (by simp)
      simp [List.dropWhile_cons, this]
  have h3 := takeWhile_ne_append target version ' ' hsp
  unfold spec_target spec_version
  rw [h1, List.drop_one, List.tail_cons, h2, h3.1, h3.2, List.drop_one, List.tail_cons]
  exact ⟨rfl, rfl⟩

theorem path_part_eq (target : List Char) :
    (match strchr target '?' with
      | some (p, _) => p
      | none => target) = spec_path_part target := by
  unfold spec_path_part
  cases h : strchr target '?' with
  | none => exact (takeWhile_ne_of_not_mem _ _ (strchr_eq_none.mp h)).symm
  | some pq =>
    obtain ⟨p, q⟩ := pq
    obtain ⟨e, hn⟩ := strchr_eq_some h
    rw [e]
    exact ((takeWhile_ne_append p q '?' hn).1).symm

theorem setup_request_route (L : Limits) (req : http_request) (target : List Char) :
    (setup_request L req target).route =
      snprintf req.route L.HTTP_STR_LEN
        ("HTTP".toList ++ TICK :: route_name (spec_path_part target)) := by
  rw [← path_part_eq]
  unfold setup_request
  cases h : strchr target '?' with
  | none => rfl
  | some pq => rfl

theorem setup_request_fields (L : Limits) (req : http_request) (target : List Char) :
    (setup_request L req target).method = req.method ∧
      (setup_request L req target).state = HTTP_REQUEST_HEADERS ∧
      (setup_request L req target).status = 200 ∧
      (setup_request L req target).hp = 0 ∧
      (setup_request L req target).cp = 0 ∧
      (setup_request L req target).length = 0 ∧
      (setup_request L req target).recv = 0 ∧
      (setup_request L req target).path =
        strncpy req.path (spec_path_part target) (L.HTTP_STR_LEN - 1) := by
  rw [← path_part_eq]
  unfold setup_request
  cases h : strchr target '?' with
  | none => simp
  | some pq => simp

theorem snprintf_fits (dst s : List Char) (n : Nat) (hn : n ≠ 0) (h : s.length ≤ n - 1) :
    snprintf dst n s = s := by
  unfold snprintf
  simp [hn, List.take_of_length_le h]

/-- C1: for every request line that `parse_http_query` accepts, the route is
the text HTTP, the separator and the normalization of the part of the target
before the first question mark (leading slashes stripped, INDEX if nothing
remains, else trailing slashes stripped, remaining slashes replaced by the
separator, all upper-cased), provided that key fits in `HTTP_STR_LEN - 1`
characters; in particular a target made only of slashes gives the route of
INDEX. -/
theorem route_is_normalized_path (L : Limits) (req : http_request) (line : List Char)
    (hacc : (parse_http_query L req line).1 = true)
    (hfit : ("HTTP`".toList ++ spec_normalize (spec_path_part (spec_target line))).length
      ≤ L.HTTP_STR_LEN - 1) :
    (parse_http_query L req line).2.route
        = "HTTP`".toList ++ spec_normalize (spec_path_part (spec_target line)) ∧
      ((∀ c ∈ spec_target line, c = '/') →
        (parse_http_query L req line).2.route = "HTTP`INDEX".toList) := by
  obtain ⟨m, ws, target, version, rfl, hm, hws, hhead, hne, hsp, hlen, hver⟩ :=
    parse_http_query_accept L req line hacc
  have hshape := parse_http_query_shape L req m ws target version hm hws hhead hne hsp
  have htv := spec_target_shape m ws target version hm hws hhead hne hsp
  have hv : strncmp_eq version "HTTP/1.1".toList 8 = true :=
    (strncmp_eq_length version "HTTP/1.1".toList).mpr hver
  rw [htv.1] at hfit ⊢
  rw [hshape]
  simp only [ge_iff_le, Nat.not_le.mpr hlen, if_false, hv, Bool.not_true]
  have hroute : (setup_request L { req with method := m } target).route
      = "HTTP`".toList ++ spec_normalize (spec_path_part target) := by
    rw [setup_request_route, route_name_eq_spec]
    have e : "HTTP".toList ++ TICK :: spec_normalize (spec_path_part target)
        = "HTTP`".toList ++ spec_normalize (spec_path_part target) := by
      simp [TICK]
    rw [e]
    exact snprintf_fits _ _ _ (by omega) hfit
  refine ⟨hroute, fun hall => ?_⟩
  simp only [Bool.false_eq_true, if_false]
  rw [hroute]
  have hq : spec_path_part target = target := by
    apply takeWhile_ne_of_not_mem
    intro hmem
    have := hall _ hmem
    exact absurd this (by decide)
  have hd : target.dropWhile (fun c => c == '/') = [] := by
    rw [List.dropWhile_eq_nil_iff]
    intro c hc
    simp [hall c hc]
  rw [hq]
  simp [spec_normalize, hd]

theorem route_is_normalized_path_witness :
    (parse_http_query example_limits http_request.zero
        "GET //wiki/Main/Page//?a=b HTTP/1.1".toList).2.route = "HTTP`WIKI`MAIN`PAGE".toList :=
  (route_is_normalized_path example_limits http_request.zero
    "GET //wiki/Main/Page//?a=b HTTP/1.1".toList (by decide) (by decide)).1

/-- C2: for each of the methods GET, POST, PUT, PATCH and DELETE, the line made
of the method label and `/x/y?z HTTP/1.1` is accepted and leaves the method,
the route of X under HTTP followed by Y, the query `z` and the state HEADERS
(the short fields being at least 9 bytes long, the room the route takes). -/
theorem parse_method_x_y_z (L : Limits) (req : http_request) (m : http_method)
    (hm : m ∈ http_methods) (hcap : 9 ≤ L.HTTP_STR_LEN) :
    (parse_http_query L req (http_method_str m ++ "/x/y?z HTTP/1.1".toList)).1 = true ∧
      (parse_http_query L req (http_method_str m ++ "/x/y?z HTTP/1.1".toList)).2.method = m ∧
      (parse_http_query L req (http_method_str m ++ "/x/y?z HTTP/1.1".toList)).2.route
        = "HTTP`X`Y".toList ∧
      (parse_http_query L req (http_method_str m ++ "/x/y?z HTTP/1.1".toList)).2.query
        = "z".toList ∧
      (parse_http_query L req (http_method_str m ++ "/x/y?z HTTP/1.1".toList)).2.state
        = HTTP_REQUEST_HEADERS := by
  have hshape := parse_http_query_shape L req m [] "/x/y?z".toList "HTTP/1.1".toList hm
    (by simp) (by decide) (by decide) (by decide)
  have hline : http_method_str m ++ ([] ++ ("/x/y?z".toList ++ ' ' :: "HTTP/1.1".toList))
      = http_method_str m ++ "/x/y?z HTTP/1.1".toList := by
    congr 1
  rw [hline] at hshape
  have hlen : ¬ ("/x/y?z".toList.length ≥ L.HTTP_STR_LEN) := by
    have : "/x/y?z".toList.length = 6 := by decide
    omega
  have hver : strncmp_eq "HTTP/1.1".toList "HTTP/1.1".toList 8 = true := by decide
  rw [hshape]
  simp only [hlen, if_false, hver, Bool.not_true, Bool.false_eq_true]
  have hq : strchr "/x/y?z".toList '?' = some ("/x/y".toList, "z".toList) := by decide
  have hr : route_name "/x/y".toList = ("X".toList ++ TICK :: "Y".toList) := by decide
  refine ⟨trivial, ?_, ?_, ?_, ?_⟩
  · exact (setup_request_fields L _ _).1
  · rw [setup_request_route]
    have hp : spec_path_part "/x/y?z".toList = "/x/y".toList := by decide
    rw [hp, hr]
    exact snprintf_fits _ _ _ (by omega) (by
      have : ("HTTP".toList ++ TICK :: ("X".toList ++ TICK :: "Y".toList)).length = 8 := by
        decide
      omega)
  · unfold setup_request
    simp only [hq]
    unfold strncpy
    have : "z".toList.length < L.HTTP_STR_LEN - 1 := by
      have : "z".toList.length = 1 := by decide
      omega
    simp only [this, if_true]
  · exact (setup_request_fields L _ _).2.1

theorem parse_method_x_y_z_witness :
    (parse_http_query example_limits http_request.zero "PATCH /x/y?z HTTP/1.1".toList).1
        = true ∧
      (parse_http_query example_limits http_request.zero
        "PATCH /x/y?z HTTP/1.1".toList).2.method = .PATCH ∧
      (parse_http_query example_limits http_request.zero
        "PATCH /x/y?z HTTP/1.1".toList).2.route = "HTTP`X`Y".toList ∧
      (parse_http_query example_limits http_request.zero
        "PATCH /x/y?z HTTP/1.1".toList).2.query = "z".toList ∧
      (parse_http_query example_limits http_request.zero
        "PATCH /x/y?z HTTP/1.1".toList).2.state = HTTP_REQUEST_HEADERS :=
  parse_method_x_y_z example_limits http_request.zero .PATCH (by decide) (by decide)

/-- C5 (as the code has it): the length check of `parse_http_query` applies to
the whole target, query string included: a line made of a method label, a
target without spaces and a version that begins with `HTTP/1.1` is refused
exactly when the target has `HTTP_STR_LEN` characters or more. -/
theorem length_check_on_whole_target (L : Limits) (req : http_request) (m : http_method)
    (target version : List Char) (hm : m ∈ http_methods)
    (hhead : ∀ c ∈ target.head?, isspace c = false) (hne : target ≠ [])
    (hsp : ' ' ∉ target) (hver : "HTTP/1.1".toList <+: version) :
    (parse_http_query L req (http_method_str m ++ (target ++ ' ' :: version))).1 = false ↔
      L.HTTP_STR_LEN ≤ target.length := by
  have hshape := parse_http_query_shape L req m [] target version hm (by simp) hhead hne hsp
  rw [List.nil_append] at hshape
  have hv : strncmp_eq version "HTTP/1.1".toList 8 = true :=
    (strncmp_eq_length version "HTTP/1.1".toList).mpr hver
  rw [hshape]
  by_cases hlen : target.length ≥ L.HTTP_STR_LEN
  · simp [hlen]
  · simp only [hlen, if_false, hv, Bool.not_true, Bool.false_eq_true]
    simp only [ge_iff_le] at hlen
    simp [hlen]

theorem length_check_on_whole_target_witness :
    (parse_http_query example_limits http_request.zero
        ("GET ".toList ++ ("/a?b=c".toList ++ ' ' :: "HTTP/1.1".toList))).1 = false ↔
      example_limits.HTTP_STR_LEN ≤ "/a?b=c".toList.length :=
  length_check_on_whole_target example_limits http_request.zero .GET "/a?b=c".toList
    "HTTP/1.1".toList (by decide) (by decide) (by decide) (by decide) (by decide)

/-- C5 as stated fails: with short fields of 64 bytes the target `/a?` followed
by 62 letters has a path portion of 2 characters, and the line is refused. -/
theorem length_check_counts_query :
    (spec_path_part (spec_target
        ("GET /a?".toList ++ List.replicate 62 'q' ++ " HTTP/1.1".toList))).length
        < example_limits.HTTP_STR_LEN ∧
      "HTTP/1.1".toList <+: spec_version
        ("GET /a?".toList ++ List.replicate 62 'q' ++ " HTTP/1.1".toList) ∧
      (parse_http_query example_limits http_request.zero
        ("GET /a?".toList ++ List.replicate 62 'q' ++ " HTTP/1.1".toList)).1 = false := by
  decide

/-- Whatever the size of the short fields, a query string of that size makes
`parse_http_query` refuse a target whose path portion is `/a`. -/
theorem long_query_refused (L : Limits) (req : http_request) :
    (parse_http_query L req
      ("GET ".toList ++ (("/a?".toList ++ List.replicate L.HTTP_STR_LEN 'q')
        ++ ' ' :: "HTTP/1.1".toList))).1 = false ∧
      spec_path_part ("/a?".toList ++ List.replicate L.HTTP_STR_LEN 'q') = "/a".toList := by
  constructor
  · have hsp : ' ' ∉ "/a?".toList ++ List.replicate L.HTTP_STR_LEN 'q' := by
      simp only [List.mem_append, List.mem_replicate, not_or]
      exact ⟨by decide, fun h => absurd h.2 (by decide)⟩
    have hshape := parse_http_query_shape L req .GET []
      ("/a?".toList ++ List.replicate L.HTTP_STR_LEN 'q') "HTTP/1.1".toList (by decide)
      (by simp) (by simp [isspace]) (by simp) hsp
    rw [List.nil_append] at hshape
    have hlen : ("/a?".toList ++ List.replicate L.HTTP_STR_LEN 'q').length
        ≥ L.HTTP_STR_LEN := by
      simp only [List.length_append, List.length_replicate]
      omega
    have hm : http_method_str .GET = "GET ".toList := rfl
    rw [← hm, hshape]
    simp only [hlen, if_true]
  · simp [spec_path_part, List.takeWhile_cons]

/-- C6: a line that `parse_http_query` accepts has the text `HTTP/1.1` at the
start of what follows the space that ends the target; a line where that text
starts otherwise, or is missing, is refused. -/
theorem version_must_be_http_1_1 (L : Limits) (req : http_request) (line : List Char) :
    ((parse_http_query L req line).1 = true → "HTTP/1.1".toList <+: spec_version line) ∧
      (¬ "HTTP/1.1".toList <+: spec_version line → (parse_http_query L req line).1 = false) := by
  have key : (parse_http_query L req line).1 = true →
      "HTTP/1.1".toList <+: spec_version line := by
    intro hacc
    obtain ⟨m, ws, target, version, rfl, hm, hws, hhead, hne, hsp, _, hver⟩ :=
      parse_http_query_accept L req line hacc
    rw [(spec_target_shape m ws target version hm hws hhead hne hsp).2]
    exact hver
  refine ⟨key, fun hn => ?_⟩
  cases hb : (parse_http_query L req line).1 with
  | false => rfl
  | true => exact absurd (key hb) hn

theorem version_must_be_http_1_1_witness :
    "HTTP/1.1".toList <+: spec_version "GET /x HTTP/1.1".toList ∧
      (parse_http_query example_limits http_request.zero "GET /x HTTP/1.0".toList).1 = false ∧
      (parse_http_query example_limits http_request.zero "GET /x".toList).1 = false :=
  ⟨(version_must_be_http_1_1 example_limits http_request.zero
      "GET /x HTTP/1.1".toList).1 (by decide),
    (version_must_be_http_1_1 example_limits http_request.zero
      "GET /x HTTP/1.0".toList).2 (by decide),
    (version_must_be_http_1_1 example_limits http_request.zero
      "GET /x".toList).2 (by decide)⟩

/-! ## Header lines -/

theorem parse_http_header_length (L : Limits) (req : http_request)
    (name value : List Char) (hcolon : ':' ∉ name) :
    (parse_http_header L req (name ++ ':' :: value)).length =
      if HTTP_CONTENT_LENGTH <+: name then parse_integer value else req.length := by
  unfold parse_http_header
  simp only [strchr_append name value ':' hcolon]
  by_cases h : HTTP_CONTENT_LENGTH <+: name
  · simp only [(strncmp_eq_length name HTTP_CONTENT_LENGTH).mpr h, if_true, h]
  · have h1 : strncmp_eq name HTTP_CONTENT_LENGTH HTTP_CONTENT_LENGTH.length = false := by
      cases hb : strncmp_eq name HTTP_CONTENT_LENGTH HTTP_CONTENT_LENGTH.length with
      | false => rfl
      | true => exact absurd ((strncmp_eq_length name HTTP_CONTENT_LENGTH).mp hb) h
    simp only [h1, h, if_false, Bool.false_eq_true]
    split
    · split <;> rfl
    · rfl

theorem parse_http_header_overrun (L : Limits) (req : http_request) (line : List Char) :
    (parse_http_header L req line).type_overrun
      = (req.type_overrun || !type_copy_fits L line) := by
  unfold type_copy_fits parse_http_header
  dsimp only
  cases hs : strchr line ':' with
  | none => simp
  | some nv =>
    dsimp only
    split
    · simp
    · split
      · split
        · rename_i h
          simp [h]
        · rename_i h
          simp [h]
      · simp

theorem type_copy_fits_colon (L : Limits) (name value : List Char) (hcolon : ':' ∉ name) :
    type_copy_fits L (name ++ ':' :: value)
      = if HTTP_CONTENT_LENGTH <+: name then true
        else if HTTP_CONTENT_TYPE <+: name then decide (value.length < L.HTTP_STR_LEN)
        else true := by
  unfold type_copy_fits
  simp only [strchr_append name value ':' hcolon]
  have e1 : (strncmp_eq name HTTP_CONTENT_LENGTH HTTP_CONTENT_LENGTH.length = true)
      = (HTTP_CONTENT_LENGTH <+: name) := propext (strncmp_eq_length name HTTP_CONTENT_LENGTH)
  have e2 : (strncmp_eq name HTTP_CONTENT_TYPE HTTP_CONTENT_TYPE.length = true)
      = (HTTP_CONTENT_TYPE <+: name) := propext (strncmp_eq_length name HTTP_CONTENT_TYPE)
  simp only [e1, e2]

/-- C7 (as the code has it): for a header line made of a name, a colon and a
value, a name that begins with `Content-Length` in exactly this letter case
makes `parse_http_header` set `length` to the integer parsed from the value;
a name that does not begin with `Content-Length` even when letter case is
ignored leaves `length` unchanged, provided the line is not one whose name
begins with `Content-Type` and whose value has `HTTP_STR_LEN` bytes or more.
In both cases no copy leaves the field `type`. -/
theorem content_length_header (L : Limits) (req : http_request)
    (name value : List Char) (hcolon : ':' ∉ name) :
    (HTTP_CONTENT_LENGTH <+: name →
        (parse_http_header L req (name ++ ':' :: value)).length = parse_integer value ∧
          (parse_http_header L req (name ++ ':' :: value)).type_overrun
            = req.type_overrun) ∧
      (¬ (HTTP_CONTENT_LENGTH.map tolower <+: name.map tolower) →
        (HTTP_CONTENT_TYPE <+: name → value.length < L.HTTP_STR_LEN) →
        (parse_http_header L req (name ++ ':' :: value)).length = req.length ∧
          (parse_http_header L req (name ++ ':' :: value)).type_overrun
            = req.type_overrun) := by
  rw [parse_http_header_length L req name value hcolon,
    parse_http_header_overrun L req (name ++ ':' :: value),
    type_copy_fits_colon L name value hcolon]
  constructor
  · intro h
    simp [h]
  · intro h hfit
    have hn : ¬ HTTP_CONTENT_LENGTH <+: name := fun hp => h (hp.map tolower)
    by_cases ht : HTTP_CONTENT_TYPE <+: name
    · simp [hn, ht, hfit ht]
    · simp [hn, ht]

theorem content_length_header_witness :
    ((parse_http_header example_limits http_request.zero
        ("Content-Length".toList ++ ':' :: " 5".toList)).length = parse_integer " 5".toList ∧
      (parse_http_header example_limits http_request.zero
        ("Content-Length".toList ++ ':' :: " 5".toList)).type_overrun
          = http_request.zero.type_overrun) ∧
      ((parse_http_header example_limits http_request.zero
        ("Content-Type".toList ++ ':' :: " text/plain".toList)).length
          = http_request.zero.length ∧
      (parse_http_header example_limits http_request.zero
        ("Content-Type".toList ++ ':' :: " text/plain".toList)).type_overrun
          = http_request.zero.type_overrun) :=
  ⟨(content_length_header example_limits http_request.zero "Content-Length".toList
      " 5".toList (by decide)).1 (by decide),
    (content_length_header example_limits http_request.zero "Content-Type".toList
      " text/plain".toList (by decide)).2 (by decide) (fun _ => by decide)⟩

/-- C7 as stated fails: the header name `Content-Length-Hint` is not
`Content-Length`, with or without regard to letter case, and the line still
changes `length` from 0 to 5. -/
theorem content_length_is_prefix_match :
    "Content-Length-Hint".toList.map tolower ≠ HTTP_CONTENT_LENGTH.map tolower ∧
      http_request.zero.length = 0 ∧
      (parse_http_header example_limits http_request.zero
        "Content-Length-Hint: 5".toList).length = 5 := by
  decide

/-- The comparison of the header name is case-sensitive: the line
`content-length: 5` leaves `length` at 0. -/
theorem content_length_lower_case_ignored :
    "content-length".toList.map tolower = HTTP_CONTENT_LENGTH.map tolower ∧
      parse_integer " 5".toList = 5 ∧
      (parse_http_header example_limits http_request.zero
        "content-length: 5".toList).length = 0 := by
  decide

/-- The copy of a content type is bounded by the value only: with fields of 64
bytes, a `Content-Type` line whose value has 64 bytes fills `type` without a
terminator, and the request is marked; a value of 63 bytes is stored as it
is. -/
theorem content_type_value_overruns :
    (parse_http_header example_limits http_request.zero
        ("Content-Type:".toList ++ List.replicate 64 't')).type_overrun = true ∧
      ((parse_http_header example_limits http_request.zero
        ("Content-Type:".toList ++ List.replicate 64 't')).type).length
          = example_limits.HTTP_STR_LEN ∧
      (parse_http_header example_limits http_request.zero
        ("Content-Type:".toList ++ List.replicate 63 't')).type_overrun = false ∧
      (parse_http_header example_limits http_request.zero
        ("Content-Type:".toList ++ List.replicate 63 't')).type = List.replicate 63 't' := by
  decide

/-! ## Body lines -/

theorem parse_http_content_done (L : Limits) (req : http_request) (line : List Char) :
    ((parse_http_content L req line).1 = true ↔ req.recv + line.length ≥ req.length) ∧
      (parse_http_content L req line).2.recv = req.recv + line.length ∧
      (parse_http_content L req line).2.length = req.length ∧
      (parse_http_content L req line).2.state = req.state ∧
      (parse_http_content L req line).2.method = req.method := by
  unfold parse_http_content
  by_cases h : req.recv + line.length ≥ req.length <;> simp [h]

theorem process_http_helper_after_done (E : Env) (d : DESC) (req : http_request)
    (hd : d.http = some req) (hs : req.state = HTTP_REQUEST_DONE) (line : List Char) :
    process_http_helper E d line = (true, d) := by
  unfold process_http_helper
  simp [hd, hs, HTTP_REQUEST_DONE, HTTP_REQUEST_HEADERS, HTTP_REQUEST_CONTENT]

/-! ## Effects of the response and timer routines -/

@[simp] theorem queue_write_http (d : DESC) (b : List Char) :
    (queue_write d b).http = d.http := rfl

@[simp] theorem queue_eol_http (d : DESC) : (queue_eol d).http = d.http := rfl

@[simp] theorem dispatches_queue_write (d : DESC) (b : List Char) :
    dispatches (queue_write d b) = dispatches d := by
  simp [dispatches, queue_write, List.filterMap_append]

@[simp] theorem dispatches_queue_eol (d : DESC) :
    dispatches (queue_eol d) = dispatches d := by
  simp [dispatches, queue_eol, List.filterMap_append]

@[simp] theorem send_http_status_http (E : Env) (d : DESC) (status : Nat)
    (content : List Char) : (send_http_status E d status content).http = d.http := by
  unfold send_http_status
  cases hd : d.http with
  | none => simp only [hd]
  | some req =>
    simp only
    split
    · simp only [queue_eol_http, queue_write_http, hd]
    · exact hd

@[simp] theorem dispatches_send_http_status (E : Env) (d : DESC) (status : Nat)
    (content : List Char) :
    dispatches (send_http_status E d status content) = dispatches d := by
  unfold send_http_status
  cases hd : d.http with
  | none => rfl
  | some req =>
    simp only
    split
    · simp only [dispatches_queue_eol, dispatches_queue_write]
    · rfl

@[simp] theorem send_not_found_http (E : Env) (d : DESC) (req : http_request) :
    (send_not_found E d req).http = d.http := by
  simp [send_not_found]

@[simp] theorem dispatches_send_not_found (E : Env) (d : DESC) (req : http_request) :
    dispatches (send_not_found E d req) = dispatches d := by
  simp [send_not_found]

@[simp] theorem dispatches_send_mudurl (E : Env) (d : DESC) :
    dispatches (send_mudurl E d) = dispatches d := by
  simp [send_mudurl]

@[simp] theorem send_mudurl_http (E : Env) (d : DESC) :
    (send_mudurl E d).http = d.http := by
  simp [send_mudurl]

theorem with_timer_self (req : http_request) (t : Option Nat) (h : req.timer = t) :
    { req with timer := t } = req := by
  cases req
  simp_all

theorem close_http_request_http (E : Env) (d : DESC) :
    (close_http_request E d).http = d.http.map (fun r => { r with timer := none }) := by
  unfold close_http_request
  cases hd : d.http with
  | none => simp [hd]
  | some req =>
    dsimp only
    cases ht : req.timer with
    | none =>
      dsimp only
      rw [Option.map_some', with_timer_self req none ht]
      split <;> simp only [queue_eol_http, queue_write_http, hd]
    | some v =>
      dsimp only
      rw [Option.map_some']
      split <;> simp only [queue_eol_http, queue_write_http]

@[simp] theorem dispatches_close_http_request (E : Env) (d : DESC) :
    dispatches (close_http_request E d) = dispatches d := by
  unfold close_http_request
  cases hd : d.http with
  | none => simp [dispatches, List.filterMap_append]
  | some req =>
    dsimp only
    cases ht : req.timer <;> dsimp only <;> split <;>
      simp [dispatches, queue_eol, queue_write, List.filterMap_append]

@[simp] theorem request_state_close_http_request (E : Env) (d : DESC) :
    request_state (close_http_request E d) = request_state d := by
  unfold request_state
  rw [close_http_request_http]
  cases d.http <;> rfl

theorem reset_http_timeout_http (d : DESC) (time : Nat) :
    (reset_http_timeout d time).http = d.http.map (fun r => { r with timer := some time }) := by
  unfold reset_http_timeout
  cases hd : d.http with
  | none => simp [hd]
  | some req => rfl

@[simp] theorem dispatches_reset_http_timeout (d : DESC) (time : Nat) :
    dispatches (reset_http_timeout d time) = dispatches d := by
  unfold reset_http_timeout
  cases hd : d.http with
  | none => rfl
  | some req =>
    dsimp only
    cases ht : req.timer <;> simp [dispatches, List.filterMap_append]

@[simp] theorem request_state_reset_http_timeout (d : DESC) (time : Nat) :
    request_state (reset_http_timeout d time) = request_state d := by
  unfold request_state
  rw [reset_http_timeout_http]
  cases d.http <;> rfl

theorem request_state_send_http_status (E : Env) (d : DESC) (status : Nat)
    (content : List Char) :
    request_state (send_http_status E d status content) = request_state d := by
  simp [request_state]

theorem request_state_send_not_found (E : Env) (d : DESC) (req : http_request) :
    request_state (send_not_found E d req) = request_state d := by
  simp [request_state]

theorem run_http_request_some (E : Env) (d : DESC) (req : http_request)
    (hd : d.http = some req) :
    ∃ e : http_event,
      run_http_request E d
        = (E.handler_bound req.route,
            { d with log := d.log ++ [effect.queue_event e (E.handler_bound req.route)] }) ∧
      e.route = req.route ∧ e.method = http_method_str req.method ∧ e.path = req.path ∧
      e.query = req.query ∧ e.headers = req.headers ∧ e.content = req.content ∧
      e.length = req.length ∧ e.type = req.type ∧ e.descriptor = d.descriptor ∧
      e.ip = d.ip := by
  unfold run_http_request
  simp only [hd]
  exact ⟨_, rfl, rfl, rfl, rfl, rfl, rfl, rfl, rfl, rfl, rfl, rfl⟩

theorem dispatches_log_append_event (d : DESC) (e : http_event) (r : Bool) :
    dispatches { d with log := d.log ++ [effect.queue_event e r] } = dispatches d ++ [e] := by
  simp [dispatches, List.filterMap_append]

/-! ## One event at a time -/

theorem parse_http_header_fields (L : Limits) (req : http_request) (line : List Char) :
    (parse_http_header L req line).state = req.state ∧
      (parse_http_header L req line).method = req.method ∧
      (parse_http_header L req line).route = req.route ∧
      (parse_http_header L req line).headers
        = (safe_chr L LF (safe_strl L line line.length req.headers req.hp).1
            (safe_strl L line line.length req.headers req.hp).2).1.take
          (safe_chr L LF (safe_strl L line line.length req.headers req.hp).1
            (safe_strl L line line.length req.headers req.hp).2).2 ∧
      (parse_http_header L req line).hp
        = (safe_chr L LF (safe_strl L line line.length req.headers req.hp).1
            (safe_strl L line line.length req.headers req.hp).2).2 := by
  unfold parse_http_header
  dsimp only
  cases strchr line ':' with
  | none => exact ⟨rfl, rfl, rfl, rfl, rfl⟩
  | some nv =>
    dsimp only
    split
    · exact ⟨rfl, rfl, rfl, rfl, rfl⟩
    · split
      · split <;> exact ⟨rfl, rfl, rfl, rfl, rfl⟩
      · exact ⟨rfl, rfl, rfl, rfl, rfl⟩

theorem request_state_of_http {d : DESC} {req : http_request} (h : d.http = some req) :
    request_state d = req.state := by
  simp [request_state, h]

theorem http_of_valid_state {d : DESC} (h : valid_state d) : ∃ req, d.http = some req := by
  unfold valid_state request_state at h
  cases hd : d.http with
  | none => simp [hd, HTTP_REQUEST_HEADERS] at h
  | some req => exact ⟨req, rfl⟩

theorem dispatch_then_done (E : Env) (d : DESC) (req : http_request)
    (hd : d.http = some req) :
    (run_http_request E d).2.http = some req ∧
      ∃ e, dispatches (run_http_request E d).2 = dispatches d ++ [e] := by
  obtain ⟨e, he, _⟩ := run_http_request_some E d req hd
  rw [he]
  exact ⟨hd, e, dispatches_log_append_event d e _⟩

theorem helper_header_line (E : Env) (d : DESC) (req : http_request) (l : List Char)
    (hd : d.http = some req) (hs : req.state = HTTP_REQUEST_HEADERS) (hl : l ≠ []) :
    process_http_helper E d l
      = (true, { d with http := some (parse_http_header E.L req l) }) := by
  unfold process_http_helper
  simp only [hd, hs, if_true, hl, if_false]

theorem helper_blank_other (E : Env) (d : DESC) (req : http_request)
    (hd : d.http = some req) (hs : req.state = HTTP_REQUEST_HEADERS)
    (hm : req.method ≠ .GET) :
    process_http_helper E d []
      = (true, { d with http := some { req with state := HTTP_REQUEST_CONTENT } }) := by
  unfold process_http_helper
  simp only [hd, hs, if_true, hm, if_false]

theorem helper_blank_get (E : Env) (d : DESC) (req : http_request)
    (hd : d.http = some req) (hs : req.state = HTTP_REQUEST_HEADERS)
    (hm : req.method = .GET) :
    process_http_helper E d [] = dispatch_or_404 E d req := by
  unfold process_http_helper
  simp only [hd, hs, if_true, hm]

theorem helper_content_line (E : Env) (d : DESC) (req : http_request) (l : List Char)
    (hd : d.http = some req) (hs : req.state = HTTP_REQUEST_CONTENT) :
    process_http_helper E d l
      = if (parse_http_content E.L req l).1 then
          dispatch_or_404 E d (parse_http_content E.L req l).2
        else (true, { d with http := some (parse_http_content E.L req l).2 }) := by
  unfold process_http_helper
  have h12 : HTTP_REQUEST_CONTENT ≠ HTTP_REQUEST_HEADERS := by decide
  simp only [hd, hs, h12, if_false, if_true]
  cases hp : parse_http_content E.L req l with
  | mk done req2 => cases done <;> simp

theorem dispatch_or_404_spec (E : Env) (d : DESC) (req : http_request) :
    (dispatch_or_404 E d req).1 = E.handler_bound req.route ∧
      (dispatch_or_404 E d req).2.http = some { req with state := HTTP_REQUEST_DONE } ∧
      (dispatch_or_404 E d req).2.descriptor = d.descriptor ∧
      (dispatch_or_404 E d req).2.ip = d.ip ∧
      ∃ e : http_event,
        dispatches (dispatch_or_404 E d req).2 = dispatches d ++ [e] ∧
        e.route = req.route ∧ e.method = http_method_str req.method ∧ e.path = req.path ∧
        e.query = req.query ∧ e.headers = req.headers ∧ e.content = req.content ∧
        e.length = req.length ∧ e.type = req.type ∧ e.descriptor = d.descriptor ∧
        e.ip = d.ip := by
  obtain ⟨e, he, h1, h2, h3, h4, h5, h6, h7, h8, h9, h10⟩ :=
    run_http_request_some E { d with http := some { req with state := HTTP_REQUEST_DONE } }
      { req with state := HTTP_REQUEST_DONE } rfl
  unfold dispatch_or_404
  dsimp only
  rw [he]
  cases hb : E.handler_bound req.route
  · refine ⟨rfl, ?_, ?_, ?_, e, ?_, h1, h2, h3, h4, h5, h6, h7, h8, h9, h10⟩
    · simp only [send_not_found_http]
    · simp [send_not_found, send_http_status]
      split <;> rfl
    · simp [send_not_found, send_http_status]
      split <;> rfl
    · rw [dispatches_send_not_found]
      exact dispatches_log_append_event _ e _
  · exact ⟨rfl, rfl, rfl, rfl, e, dispatches_log_append_event _ e _,
      h1, h2, h3, h4, h5, h6, h7, h8, h9, h10⟩

theorem helper_other_state (E : Env) (d : DESC) (req : http_request) (l : List Char)
    (hd : d.http = some req) (h1 : req.state ≠ HTTP_REQUEST_HEADERS)
    (h2 : req.state ≠ HTTP_REQUEST_CONTENT) :
    process_http_helper E d l = (true, d) := by
  unfold process_http_helper
  simp only [hd, h1, h2, if_false]

theorem done_in_range : HTTP_REQUEST_HEADERS ≤ HTTP_REQUEST_DONE ∧
    HTTP_REQUEST_DONE ≤ HTTP_REQUEST_STARTED := by decide

theorem content_in_range : HTTP_REQUEST_HEADERS ≤ HTTP_REQUEST_CONTENT ∧
    HTTP_REQUEST_CONTENT ≤ HTTP_REQUEST_STARTED := by decide

theorem started_in_range : HTTP_REQUEST_HEADERS ≤ HTTP_REQUEST_STARTED ∧
    HTTP_REQUEST_STARTED ≤ HTTP_REQUEST_STARTED := by decide

theorem done_le_started : HTTP_REQUEST_DONE ≤ HTTP_REQUEST_STARTED := by decide

theorem line_step (E : Env) (a : DESC) (l : List Char) (hv : valid_state a) :
    valid_state (process_http_helper E a l).2 ∧
      dispatch_step a (process_http_helper E a l).2 := by
  obtain ⟨req, ha⟩ := http_of_valid_state hv
  have hst := request_state_of_http ha
  unfold valid_state at hv ⊢
  unfold dispatch_step
  rw [hst] at hv ⊢
  by_cases h1 : req.state = HTTP_REQUEST_HEADERS
  · by_cases hl : l = []
    · subst hl
      by_cases hm : req.method = .GET
      · rw [helper_blank_get E a req ha h1 hm]
        obtain ⟨_, hh, _, _, e, he, _⟩ := dispatch_or_404_spec E a req
        rw [request_state_of_http hh]
        exact ⟨done_in_range, Or.inr ⟨Or.inl h1, rfl, e, he⟩⟩
      · rw [helper_blank_other E a req ha h1 hm]
        refine ⟨content_in_range, Or.inl ⟨rfl, ?_⟩⟩
        rw [h1]
        intro h
        exact absurd h (by decide)
    · rw [helper_header_line E a req l ha h1 hl]
      have hps := (parse_http_header_fields E.L req l).1
      refine ⟨by simpa [request_state, hps] using hv, Or.inl ⟨rfl, ?_⟩⟩
      simp [request_state, hps]
  · by_cases h2 : req.state = HTTP_REQUEST_CONTENT
    · rw [helper_content_line E a req l ha h2]
      obtain ⟨_, hrecv, _, hstate, _⟩ := parse_http_content_done E.L req l
      by_cases hdone : (parse_http_content E.L req l).1 = true
      · simp only [hdone, if_true]
        obtain ⟨_, hh, _, _, e, he, _⟩ :=
          dispatch_or_404_spec E a (parse_http_content E.L req l).2
        rw [request_state_of_http hh]
        exact ⟨done_in_range, Or.inr ⟨Or.inr h2, rfl, e, he⟩⟩
      · simp only [hdone, if_false, Bool.false_eq_true]
        refine ⟨by simpa [request_state, hstate] using hv, Or.inl ⟨rfl, ?_⟩⟩
        simp [request_state, hstate]
    · rw [helper_other_state E a req l ha h1 h2]
      rw [hst]
      exact ⟨hv, Or.inl ⟨rfl, id⟩⟩

theorem run_http_request_spec (E : Env) (d : DESC) (req : http_request)
    (hd : d.http = some req) :
    (run_http_request E d).1 = E.handler_bound req.route ∧
      (run_http_request E d).2.http = some req ∧
      (run_http_request E d).2.descriptor = d.descriptor ∧
      (run_http_request E d).2.ip = d.ip ∧
      ∃ e : http_event,
        dispatches (run_http_request E d).2 = dispatches d ++ [e] ∧
        e.route = req.route ∧ e.method = http_method_str req.method ∧ e.path = req.path ∧
        e.query = req.query ∧ e.headers = req.headers ∧ e.content = req.content ∧
        e.length = req.length ∧ e.type = req.type ∧ e.descriptor = d.descriptor ∧
        e.ip = d.ip := by
  obtain ⟨e, he, h1, h2, h3, h4, h5, h6, h7, h8, h9, h10⟩ := run_http_request_some E d req hd
  rw [he]
  exact ⟨rfl, hd, rfl, rfl, e, dispatches_log_append_event d e _,
    h1, h2, h3, h4, h5, h6, h7, h8, h9, h10⟩

theorem timeout_before_done (E : Env) (a : DESC) (req : http_request)
    (ha : a.http = some req) (hlt : req.state < HTTP_REQUEST_DONE) :
    http_timeout_wrapper E a
      = if (run_http_request E
            { a with http := some { req with state := HTTP_REQUEST_DONE } }).1 then
          reset_http_timeout (run_http_request E
            { a with http := some { req with state := HTTP_REQUEST_DONE } }).2 1
        else
          close_http_request E (send_http_status E (run_http_request E
            { a with http := some { req with state := HTTP_REQUEST_DONE } }).2 404
            "File not found.".toList) := by
  unfold http_timeout_wrapper
  simp only [ha, hlt, if_true]
  cases h : run_http_request E { a with http := some { req with state := HTTP_REQUEST_DONE } }
    with
  | mk ok d2 => cases ok <;> rfl

theorem timeout_after_done (E : Env) (a : DESC) (req : http_request)
    (ha : a.http = some req) (hge : ¬ req.state < HTTP_REQUEST_DONE) :
    http_timeout_wrapper E a
      = close_http_request E
          (if req.state ≠ HTTP_REQUEST_STARTED then
            send_http_status E a 408 "Unable to complete request.".toList
          else a) := by
  unfold http_timeout_wrapper
  simp only [ha, hge, if_false]

theorem timeout_step (E : Env) (a : DESC) (hv : valid_state a) :
    valid_state (http_timeout_wrapper E a) ∧ dispatch_step a (http_timeout_wrapper E a) := by
  obtain ⟨req, ha⟩ := http_of_valid_state hv
  have hst := request_state_of_http ha
  unfold valid_state at hv ⊢
  unfold dispatch_step
  rw [hst] at hv ⊢
  by_cases hlt : req.state < HTTP_REQUEST_DONE
  · have h12 : req.state = HTTP_REQUEST_HEADERS ∨ req.state = HTTP_REQUEST_CONTENT := by
      unfold HTTP_REQUEST_HEADERS HTTP_REQUEST_CONTENT HTTP_REQUEST_DONE at *
      omega
    obtain ⟨_, hh, _, _, e, he, _⟩ := run_http_request_spec E
      { a with http := some { req with state := HTTP_REQUEST_DONE } }
      { req with state := HTTP_REQUEST_DONE } rfl
    have hrs := request_state_of_http hh
    rw [timeout_before_done E a req ha hlt]
    split
    · rw [request_state_reset_http_timeout, dispatches_reset_http_timeout, hrs, he]
      exact ⟨done_in_range, Or.inr ⟨h12, rfl, e, rfl⟩⟩
    · rw [request_state_close_http_request, request_state_send_http_status,
        dispatches_close_http_request, dispatches_send_http_status, hrs, he]
      exact ⟨done_in_range, Or.inr ⟨h12, rfl, e, rfl⟩⟩
  · rw [timeout_after_done E a req ha hlt, request_state_close_http_request,
      dispatches_close_http_request]
    split
    · rw [request_state_send_http_status, dispatches_send_http_status, hst]
      exact ⟨hv, Or.inl ⟨rfl, id⟩⟩
    · rw [hst]
      exact ⟨hv, Or.inl ⟨rfl, id⟩⟩

theorem send_http_response_spec (E : Env) (a : DESC) (req : http_request)
    (content : Option (List Char)) (ha : a.http = some req) :
    (send_http_response E a content).http
        = some { req with state := HTTP_REQUEST_STARTED } ∧
      dispatches (send_http_response E a content) = dispatches a := by
  unfold send_http_response
  simp only [ha]
  by_cases hs : req.state = HTTP_REQUEST_STARTED
  · have e : { req with state := HTTP_REQUEST_STARTED } = req := by
      cases req
      simp_all
    rw [e]
    simp only [hs, ne_eq, not_true_eq_false, if_false, queue_eol_http, queue_write_http,
      dispatches_queue_eol, dispatches_queue_write]
    exact ⟨trivial, by simp [dispatches]⟩
  · simp only [ne_eq, hs, not_false_eq_true, if_true, queue_eol_http, queue_write_http,
      dispatches_queue_eol, dispatches_queue_write]
    exact ⟨trivial, by simp [dispatches]⟩

theorem respond_step (E : Env) (a : DESC) (content : Option (List Char))
    (hv : valid_state a) :
    valid_state (send_http_response E a content) ∧
      dispatch_step a (send_http_response E a content) := by
  obtain ⟨req, ha⟩ := http_of_valid_state hv
  obtain ⟨hh, hdis⟩ := send_http_response_spec E a req content ha
  unfold valid_state dispatch_step
  rw [request_state_of_http hh]
  exact ⟨started_in_range, Or.inl ⟨hdis, fun _ => done_le_started⟩⟩

theorem apply_step_spec (E : Env) (a : DESC) (s : http_step) (hv : valid_state a) :
    valid_state (apply_step E a s) ∧ dispatch_step a (apply_step E a s) := by
  cases s with
  | line l => exact line_step E a l hv
  | timeout => exact timeout_step E a hv
  | respond content => exact respond_step E a content hv

/-! ## Body completion and dispatch -/

theorem lines_after_done (E : Env) (d : DESC) (req : http_request)
    (hd : d.http = some req) (hs : req.state = HTTP_REQUEST_DONE)
    (more : List (List Char)) :
    run_steps E d (more.map http_step.line) = d := by
  induction more with
  | nil => rfl
  | cons l ls ih =>
    simp only [List.map_cons, run_steps, List.foldl_cons, apply_step]
    rw [process_http_helper_after_done E d req hd hs l]
    exact ih

/-- C9: `parse_http_content` returns true only when the bytes received,
the length of the line included, have reached `length`; and when it does so
for a request in state CONTENT, `process_http_helper` leaves the request in
state DONE, after which every further line leaves the descriptor, the
request, its body and its counters exactly as they are, with no dispatch. -/
theorem body_completion_monotonic (E : Env) (d : DESC) (req : http_request)
    (line : List Char) :
    ((parse_http_content E.L req line).1 = true →
        (parse_http_content E.L req line).2.recv = req.recv + line.length ∧
        (parse_http_content E.L req line).2.recv ≥ (parse_http_content E.L req line).2.length) ∧
      (d.http = some req → req.state = HTTP_REQUEST_CONTENT →
        (parse_http_content E.L req line).1 = true →
        request_state (process_http_helper E d line).2 = HTTP_REQUEST_DONE ∧
        (∀ l, process_http_helper E (process_http_helper E d line).2 l
          = (true, (process_http_helper E d line).2)) ∧
        (∀ more : List (List Char),
          run_steps E (process_http_helper E d line).2 (more.map http_step.line)
            = (process_http_helper E d line).2)) := by
  obtain ⟨hiff, hrecv, hlen, _, _⟩ := parse_http_content_done E.L req line
  constructor
  · intro h
    refine ⟨hrecv, ?_⟩
    rw [hrecv, hlen]
    exact hiff.mp h
  · intro hd hs h
    rw [helper_content_line E d req line hd hs]
    simp only [h, if_true]
    obtain ⟨_, hh, _⟩ := dispatch_or_404_spec E d (parse_http_content E.L req line).2
    refine ⟨request_state_of_http hh, fun l => ?_, fun more => ?_⟩
    · exact process_http_helper_after_done E _ _ hh rfl l
    · exact lines_after_done E _ _ hh rfl more

theorem body_completion_monotonic_witness :
    request_state (process_http_helper example_env example_body_desc "abc".toList).2
      = HTTP_REQUEST_DONE :=
  ((body_completion_monotonic example_env example_body_desc example_body_request
    "abc".toList).2 rfl rfl (by decide)).1

theorem dispatch_step_bound {a b : DESC} (h : dispatch_step a b) :
    (dispatches b).length + (if request_state b < HTTP_REQUEST_DONE then 1 else 0)
      ≤ (dispatches a).length + (if request_state a < HTTP_REQUEST_DONE then 1 else 0) := by
  rcases h with ⟨h1, h2⟩ | ⟨h1, h2, e, he⟩
  · rw [h1]
    by_cases ha : request_state a < HTTP_REQUEST_DONE
    · simp only [ha, if_true]
      split <;> omega
    · have hb : ¬ request_state b < HTTP_REQUEST_DONE := Nat.not_lt.mpr (h2 (Nat.not_lt.mp ha))
      simp [ha, hb]
  · have ha : request_state a < HTTP_REQUEST_DONE := by
      rcases h1 with h | h <;> rw [h] <;> decide
    have hb : ¬ request_state b < HTTP_REQUEST_DONE := by
      rw [h2]
      exact Nat.lt_irrefl _
    simp [ha, hb, he]

theorem run_steps_valid (E : Env) (steps : List http_step) :
    ∀ d : DESC, valid_state d → valid_state (run_steps E d steps) := by
  induction steps with
  | nil => exact fun d h => h
  | cons s rest ih =>
    intro d h
    exact ih _ (apply_step_spec E d s h).1

theorem run_steps_count (E : Env) (steps : List http_step) :
    ∀ d : DESC, valid_state d →
      (dispatches (run_steps E d steps)).length
        ≤ (dispatches d).length + (if request_state d < HTTP_REQUEST_DONE then 1 else 0) := by
  induction steps with
  | nil =>
    intro d _
    exact Nat.le_add_right _ _
  | cons s rest ih =>
    intro d h
    obtain ⟨hv, hstep⟩ := apply_step_spec E d s h
    have h1 := ih _ hv
    have h2 := dispatch_step_bound hstep
    simp only [run_steps, List.foldl_cons] at h1 ⊢
    omega

theorem run_steps_take_succ (E : Env) (d : DESC) (steps : List http_step) (k : Nat)
    (hk : k < steps.length) :
    run_steps E d (steps.take (k + 1))
      = apply_step E (run_steps E d (steps.take k)) (steps.get ⟨k, hk⟩) := by
  unfold run_steps
  rw [List.take_succ, List.foldl_append]
  simp [List.getElem?_eq_getElem hk]

/-- C10: for a request that `parse_http_query` has set up and any finite
sequence of lines, timer firings and `send_http_response` calls, at most one
`queue_event` call is added to those made before, and any step that adds one
takes the request from HEADERS or CONTENT to DONE and adds exactly one. -/
theorem dispatch_at_most_once (E : Env) (d : DESC) (req0 : http_request)
    (line : List Char) (steps : List http_step)
    (hacc : (parse_http_query E.L req0 line).1 = true)
    (hd : d.http = some (parse_http_query E.L req0 line).2) :
    (dispatches (run_steps E d steps)).length ≤ (dispatches d).length + 1 ∧
      ∀ k, k < steps.length →
        dispatches (run_steps E d (steps.take (k + 1)))
          ≠ dispatches (run_steps E d (steps.take k)) →
        (request_state (run_steps E d (steps.take k)) = HTTP_REQUEST_HEADERS ∨
          request_state (run_steps E d (steps.take k)) = HTTP_REQUEST_CONTENT) ∧
        request_state (run_steps E d (steps.take (k + 1))) = HTTP_REQUEST_DONE ∧
        ∃ e, dispatches (run_steps E d (steps.take (k + 1)))
          = dispatches (run_steps E d (steps.take k)) ++ [e] := by
  have hstate : (parse_http_query E.L req0 line).2.state = HTTP_REQUEST_HEADERS := by
    obtain ⟨m, ws, target, version, rfl, hm, hws, hhead, hne, hsp, hlen, hver⟩ :=
      parse_http_query_accept E.L req0 line hacc
    have hv : strncmp_eq version "HTTP/1.1".toList 8 = true :=
      (strncmp_eq_length version "HTTP/1.1".toList).mpr hver
    rw [parse_http_query_shape E.L req0 m ws target version hm hws hhead hne hsp]
    simp only [ge_iff_le, Nat.not_le.mpr hlen, if_false, hv, Bool.not_true,
      Bool.false_eq_true]
    exact (setup_request_fields E.L _ target).2.1
  have hvalid : valid_state d := by
    unfold valid_state
    rw [request_state_of_http hd, hstate]
    decide
  constructor
  · have := run_steps_count E steps d hvalid
    split at this <;> omega
  · intro k hk hne
    have hv := run_steps_valid E (steps.take k) d hvalid
    have hstep := (apply_step_spec E _ (steps.get ⟨k, hk⟩) hv).2
    rw [← run_steps_take_succ E d steps k hk] at hstep
    rcases hstep with ⟨h1, _⟩ | h
    · exact absurd h1 hne
    · exact h

theorem dispatch_at_most_once_witness :
    (dispatches (run_steps example_env example_headers_desc
        [.line "Content-Length: 2".toList, .line [], .timeout, .line "ab".toList,
          .respond none, .line [], .timeout])).length
      ≤ (dispatches example_headers_desc).length + 1 :=
  (dispatch_at_most_once example_env example_headers_desc http_request.zero
    "POST /form HTTP/1.1".toList
    [.line "Content-Length: 2".toList, .line [], .timeout, .line "ab".toList,
      .respond none, .line [], .timeout] (by decide) rfl).1

/-! ## Splitting a chunk into lines -/

theorem cstr_of_nul_free (s : List Char) (h : NUL ∉ s) : cstr s = s := by
  unfold cstr
  rw [List.takeWhile_eq_self_iff]
  intro x hx
  simp only [bne_iff_ne, ne_eq]
  rintro rfl
  exact h hx

theorem copy_command_nul_free (s : List Char) (h : NUL ∉ s) :
    copy_command s s.length = s := by
  unfold copy_command
  simp [cstr_of_nul_free s h]

theorem cbuf_write_fits (E : Env) (d : DESC) (n : Nat) (h : n ≤ E.MAX_COMMAND_LEN) :
    cbuf_write E d n = d := by
  unfold cbuf_write
  rw [if_neg (by omega)]

theorem cbuf_write_http (E : Env) (d : DESC) (n : Nat) : (cbuf_write E d n).http = d.http := by
  unfold cbuf_write
  split <;> rfl

theorem cbuf_write_log (E : Env) (d : DESC) (n : Nat) : (cbuf_write E d n).log = d.log := by
  unfold cbuf_write
  split <;> rfl

theorem dispatches_cbuf_write (E : Env) (d : DESC) (n : Nat) :
    dispatches (cbuf_write E d n) = dispatches d := by
  unfold dispatches
  rw [cbuf_write_log]

theorem split_lines_other (E : Env) (got : Nat) (d : DESC) (cur rest : List Char) (c : Char)
    (h1 : c ≠ CR) (h2 : c ≠ LF) :
    split_lines E got d cur (c :: rest) = split_lines E got d (cur ++ [c]) rest := by
  cases rest with
  | nil => simp [split_lines, h1, h2]
  | cons n rest => simp [split_lines, h1, h2]

theorem split_lines_crlf (E : Env) (got : Nat) (d : DESC) (cur rest : List Char) :
    split_lines E got d cur (CR :: LF :: rest)
      = match process_http_helper E d (cstr cur) with
        | (false, d) => (false, d)
        | (true, d) => split_lines E got d [] rest := by
  simp [split_lines]

theorem split_lines_line (E : Env) (got : Nat) (d : DESC) (l : List Char) (hcr : CR ∉ l)
    (hlf : LF ∉ l) :
    ∀ cur rest : List Char,
      split_lines E got d cur (l ++ CR :: LF :: rest)
        = match process_http_helper E d (cstr (cur ++ l)) with
          | (false, d) => (false, d)
          | (true, d) => split_lines E got d [] rest := by
  induction l with
  | nil =>
    intro cur rest
    rw [List.nil_append, List.append_nil]
    exact split_lines_crlf E got d cur rest
  | cons x xs ih =>
    intro cur rest
    have hx1 : x ≠ CR := fun e => hcr (by simp [e])
    have hx2 : x ≠ LF := fun e => hlf (by simp [e])
    rw [List.cons_append, split_lines_other E got d cur _ x hx1 hx2,
      ih (fun h => hcr (by simp [h])) (fun h => hlf (by simp [h])) (cur ++ [x]) rest]
    simp

theorem split_lines_crlf_lines (E : Env) (got : Nat) (lines : List (List Char))
    (hclean : ∀ l ∈ lines, CR ∉ l ∧ LF ∉ l ∧ NUL ∉ l) :
    ∀ d : DESC, split_lines E got d [] (crlf_lines lines) = feed_lines E d lines := by
  induction lines with
  | nil =>
    intro d
    simp [crlf_lines, split_lines, feed_lines]
  | cons l ls ih =>
    intro d
    obtain ⟨hcr, hlf, hnul⟩ := hclean l (by simp)
    have hrest : ∀ l ∈ ls, CR ∉ l ∧ LF ∉ l ∧ NUL ∉ l := fun x hx => hclean x (by simp [hx])
    have e : crlf_lines (l :: ls) = l ++ CR :: LF :: crlf_lines ls := by
      simp [crlf_lines, CRLF]
    rw [e, split_lines_line E got d l hcr hlf [] (crlf_lines ls), List.nil_append,
      cstr_of_nul_free l hnul]
    unfold feed_lines
    cases hh : process_http_helper E d l with
    | mk ok d2 =>
      cases ok
      · rfl
      · exact ih hrest d2

theorem crlf_lines_nul_free (lines : List (List Char))
    (hclean : ∀ l ∈ lines, CR ∉ l ∧ LF ∉ l ∧ NUL ∉ l) : NUL ∉ crlf_lines lines := by
  unfold crlf_lines
  simp only [List.mem_flatten, List.mem_map, not_exists, not_and]
  rintro s ⟨l, hl, rfl⟩
  simp only [List.mem_append, not_or]
  exact ⟨(hclean l hl).2.2, by decide⟩

/-- A chunk made of whole lines, each ended by CR LF, hands exactly these lines
to `process_http_helper`, in order, and then re-arms the timer; the only write
to `cbuf` that can leave the buffer is the copy of the chunk itself. -/
theorem process_http_request_crlf_lines (E : Env) (d : DESC) (lines : List (List Char))
    (hclean : ∀ l ∈ lines, CR ∉ l ∧ LF ∉ l ∧ NUL ∉ l) :
    process_http_request E d (crlf_lines lines) (crlf_lines lines).length
      = if (feed_lines E (cbuf_write E d (crlf_lines lines).length) lines).1 then
          (true, reset_http_timeout
            (feed_lines E (cbuf_write E d (crlf_lines lines).length) lines).2 HTTP_TIMEOUT)
        else (false, (feed_lines E (cbuf_write E d (crlf_lines lines).length) lines).2) := by
  unfold process_http_request
  rw [copy_command_nul_free _ (crlf_lines_nul_free lines hclean),
    split_lines_crlf_lines E _ lines hclean _]
  cases hf : feed_lines E (cbuf_write E d (crlf_lines lines).length) lines with
  | mk ok d2 => cases ok <;> rfl

/-! ## The first line and the end of the headers -/

theorem do_http_command_ok (E : Env) (d : DESC) (command : List Char)
    (hattr : E.http_attr = true) (hmalloc : E.malloc_ok = true)
    (hacc : (parse_http_query E.L http_request.zero command).1 = true) :
    do_http_command E d command
      = (true, reset_http_timeout
          { d with http := some (parse_http_query E.L http_request.zero command).2 }
          HTTP_TIMEOUT) := by
  unfold do_http_command
  simp only [hattr, hmalloc, Bool.not_true, Bool.false_eq_true, if_false]
  cases hp : parse_http_query E.L http_request.zero command with
  | mk ok req =>
    rw [hp] at hacc
    simp only at hacc
    subst hacc
    rfl

theorem setup_request_query (L : Limits) (req : http_request) (target : List Char)
    (h : '?' ∉ target) : (setup_request L req target).query = req.query := by
  unfold setup_request
  simp only [strchr_eq_none.mpr h]

theorem strncpy_fits (dst src : List Char) (n : Nat) (h : src.length < n) :
    strncpy dst src n = src := by
  simp [strncpy, h]

theorem feed_blank_get (E : Env) (d : DESC) (req : http_request)
    (hd : d.http = some req) (hs : req.state = HTTP_REQUEST_HEADERS)
    (hm : req.method = .GET) (hb : E.handler_bound req.route = true) :
    feed_lines E d [[]] = (true, (dispatch_or_404 E d req).2) := by
  have h1 := (dispatch_or_404_spec E d req).1
  unfold feed_lines
  rw [helper_blank_get E d req hd hs hm]
  cases hr : dispatch_or_404 E d req with
  | mk ok d2 =>
    rw [hr] at h1
    simp only at h1
    rw [h1, hb]
    rfl

/-- C3 (as the code has it): after `do_http_command` on the line
`GET /news HTTP/1.1` and the blank line that ends the headers, with the HTTP
handler object present, memory available and a handler bound to the route of
NEWS under HTTP, exactly one `queue_event` call has been added; it is for that
route and carries the method label `GET `, the path `/news` with its leading
slash, and an empty query. -/
theorem news_request_dispatched_once (E : Env) (d : DESC)
    (hattr : E.http_attr = true) (hmalloc : E.malloc_ok = true)
    (hbound : E.handler_bound "HTTP`NEWS".toList = true)
    (hcap : 10 ≤ E.L.HTTP_STR_LEN) :
    (do_http_command E d "GET /news HTTP/1.1".toList).1 = true ∧
      (process_http_request E (do_http_command E d "GET /news HTTP/1.1".toList).2
        CRLF 2).1 = true ∧
      ∃ e : http_event,
        dispatches (process_http_request E
          (do_http_command E d "GET /news HTTP/1.1".toList).2 CRLF 2).2
          = dispatches d ++ [e] ∧
        e.route = "HTTP`NEWS".toList ∧ e.method = "GET ".toList ∧
        e.path = "/news".toList ∧ e.query = [] := by
  have hshape := parse_http_query_shape E.L http_request.zero .GET [] "/news".toList
    "HTTP/1.1".toList (by decide) (by simp) (by decide) (by decide) (by decide)
  have hline : http_method_str .GET ++ ([] ++ ("/news".toList ++ ' ' :: "HTTP/1.1".toList))
      = "GET /news HTTP/1.1".toList := by decide
  rw [hline] at hshape
  have hlen : ¬ ("/news".toList.length ≥ E.L.HTTP_STR_LEN) := by
    have : "/news".toList.length = 5 := by decide
    omega
  have hver : strncmp_eq "HTTP/1.1".toList "HTTP/1.1".toList 8 = true := by decide
  simp only [hlen, if_false, hver, Bool.not_true, Bool.false_eq_true] at hshape
  have hacc : (parse_http_query E.L http_request.zero "GET /news HTTP/1.1".toList).1 = true := by
    rw [hshape]
  rw [do_http_command_ok E d _ hattr hmalloc hacc, hshape]
  dsimp only
  -- the request that the first line leaves behind
  obtain ⟨hmeth, hstate, _, _, _, _, _, hpath⟩ :=
    setup_request_fields E.L { http_request.zero with method := .GET } "/news".toList
  have hroute := setup_request_route E.L { http_request.zero with method := .GET }
    "/news".toList
  have hquery := setup_request_query E.L { http_request.zero with method := .GET }
    "/news".toList (by decide)
  have hpp : spec_path_part "/news".toList = "/news".toList := by decide
  have hrn : "HTTP".toList ++ TICK :: route_name "/news".toList = "HTTP`NEWS".toList := by
    decide
  rw [hpp] at hpath hroute
  rw [hrn, snprintf_fits _ _ _ (by omega) (by
    have : "HTTP`NEWS".toList.length = 9 := by decide
    omega)] at hroute
  rw [strncpy_fits _ _ _ (by
    have : "/news".toList.length = 5 := by decide
    omega)] at hpath
  generalize setup_request E.L { http_request.zero with method := .GET } "/news".toList = req
    at hmeth hstate hpath hroute hquery ⊢
  -- the blank line
  have hchunk : CRLF = crlf_lines [[]] := by decide
  have hgot : (2 : Nat) = (crlf_lines [[]]).length := by decide
  rw [hchunk, hgot, process_http_request_crlf_lines E _ [[]] (by simp)]
  have hd1 := reset_http_timeout_http { d with http := some req } HTTP_TIMEOUT
  rw [Option.map_some'] at hd1
  have hd2 := (cbuf_write_http E (reset_http_timeout { d with http := some req } HTTP_TIMEOUT)
    (crlf_lines [[]]).length).trans hd1
  rw [feed_blank_get E _ _ hd2 hstate hmeth (by rw [hroute]; exact hbound)]
  simp only [if_true]
  obtain ⟨_, _, _, _, e, he, h1, h2, h3, h4, _⟩ := dispatch_or_404_spec E
    (cbuf_write E (reset_http_timeout { d with http := some req } HTTP_TIMEOUT)
      (crlf_lines [[]]).length)
    { req with timer := some HTTP_TIMEOUT }
  refine ⟨trivial, trivial, e, ?_, ?_, ?_, ?_, ?_⟩
  · rw [dispatches_reset_http_timeout, he, dispatches_cbuf_write,
      dispatches_reset_http_timeout]
    rfl
  · rw [h1]; exact hroute
  · rw [h2]; show http_method_str req.method = _; rw [hmeth]; rfl
  · rw [h3]; exact hpath
  · rw [h4]; exact hquery

theorem news_request_dispatched_once_witness :
    (do_http_command example_env example_desc "GET /news HTTP/1.1".toList).1 = true ∧
      (process_http_request example_env
        (do_http_command example_env example_desc "GET /news HTTP/1.1".toList).2
        CRLF 2).1 = true ∧
      ∃ e : http_event,
        dispatches (process_http_request example_env
          (do_http_command example_env example_desc "GET /news HTTP/1.1".toList).2 CRLF 2).2
          = dispatches example_desc ++ [e] ∧
        e.route = "HTTP`NEWS".toList ∧ e.method = "GET ".toList ∧
        e.path = "/news".toList ∧ e.query = [] :=
  news_request_dispatched_once example_env example_desc rfl rfl (by decide) (by decide)

/-- C3 as stated fails: the one dispatch made for `GET /news HTTP/1.1` carries
the path `/news`, not `news`. -/
theorem news_dispatch_path_has_slash :
    (dispatches (process_http_request example_env
        (do_http_command example_env example_desc "GET /news HTTP/1.1".toList).2
        CRLF 2).2).map (fun e => (e.route, e.method, e.path, e.query))
        = [("HTTP`NEWS".toList, "GET ".toList, "/news".toList, [])] ∧
      "/news".toList ≠ "news".toList := by
  decide

/-! ## Accumulating header lines -/

theorem parse_http_header_append (L : Limits) (req : http_request) (line : List Char)
    (hhp : req.hp ≤ req.headers.length)
    (hfit : req.hp + (line.length + 1) ≤ L.BUFFER_LEN - 1) :
    (parse_http_header L req line).headers = req.headers.take req.hp ++ (line ++ [LF]) ∧
      (parse_http_header L req line).hp = req.hp + (line.length + 1) := by
  obtain ⟨_, _, _, hh, hp⟩ := parse_http_header_fields L req line
  rw [hh, hp]
  have hw : line.take (min line.length (L.BUFFER_LEN - 1 - req.hp)) = line := by
    apply List.take_of_length_le
    omega
  have h1 : safe_strl L line line.length req.headers req.hp
      = (req.headers.take req.hp ++ line ++ req.headers.drop (req.hp + line.length),
          req.hp + line.length) := by
    unfold safe_strl
    simp only [hw]
  rw [h1]
  dsimp only
  have hw2 : [LF].take (min 1 (L.BUFFER_LEN - 1 - (req.hp + line.length))) = [LF] := by
    apply List.take_of_length_le
    simp only [List.length_singleton]
    omega
  have htake : (req.headers.take req.hp ++ line
      ++ req.headers.drop (req.hp + line.length)).take (req.hp + line.length)
      = req.headers.take req.hp ++ line := by
    rw [List.take_append_of_le_length (by simp; omega)]
    apply List.take_of_length_le
    simp only [List.length_append, List.length_take]
    omega
  have h2 : safe_chr L LF (req.headers.take req.hp ++ line
        ++ req.headers.drop (req.hp + line.length)) (req.hp + line.length)
      = (req.headers.take req.hp ++ line ++ [LF]
          ++ (req.headers.take req.hp ++ line
            ++ req.headers.drop (req.hp + line.length)).drop (req.hp + line.length + 1),
          req.hp + line.length + 1) := by
    unfold safe_chr safe_strl
    simp only [hw2, htake, List.length_singleton]
  rw [h2]
  dsimp only
  refine ⟨?_, by omega⟩
  rw [List.take_append_of_le_length (by simp; omega)]
  rw [List.take_of_length_le (by simp; omega)]
  simp

theorem fold_headers (L : Limits) (hs : List (List Char)) :
    ∀ req : http_request, req.hp = req.headers.length →
      req.hp + (hs.map (fun l => l.length + 1)).sum ≤ L.BUFFER_LEN - 1 →
      (hs.foldl (parse_http_header L) req).headers
          = req.headers ++ (hs.map (fun l => l ++ [LF])).flatten ∧
        (hs.foldl (parse_http_header L) req).hp
          = (hs.foldl (parse_http_header L) req).headers.length ∧
        (hs.foldl (parse_http_header L) req).state = req.state ∧
        (hs.foldl (parse_http_header L) req).method = req.method := by
  induction hs with
  | nil =>
    intro req hhp _
    simp [hhp]
  | cons h hs ih =>
    intro req hhp hfit
    simp only [List.map_cons, List.sum_cons] at hfit
    obtain ⟨e1, e2⟩ := parse_http_header_append L req h (by omega) (by omega)
    obtain ⟨e3, e4, _⟩ := parse_http_header_fields L req h
    rw [hhp, List.take_length] at e1
    have hlen : (parse_http_header L req h).hp = (parse_http_header L req h).headers.length := by
      rw [e1, e2]
      simp only [List.length_append, List.length_singleton]
      omega
    obtain ⟨i1, i2, i3, i4⟩ := ih (parse_http_header L req h) hlen (by
      rw [e2]
      omega)
    simp only [List.foldl_cons, List.map_cons, List.sum_cons, List.flatten_cons]
    refine ⟨?_, i2, ?_, ?_⟩
    · rw [i1, e1]
      simp
    · rw [i3, e3]
    · rw [i4, e4]

theorem desc_with_http (d : DESC) (req : http_request) (h : d.http = some req) :
    { d with http := some req } = d := by
  cases d
  simp_all

theorem feed_header_lines (E : Env) (hs : List (List Char)) (hne : ∀ h ∈ hs, h ≠ []) :
    ∀ (d : DESC) (req : http_request), d.http = some req →
      req.state = HTTP_REQUEST_HEADERS →
      feed_lines E d hs = (true, { d with http := some (hs.foldl (parse_http_header E.L) req) }) := by
  induction hs with
  | nil =>
    intro d req hd _
    simp only [feed_lines, List.foldl_nil]
    rw [desc_with_http d req hd]
  | cons h hs ih =>
    intro d req hd hst
    unfold feed_lines
    rw [helper_header_line E d req h hd hst (hne h (by simp))]
    dsimp only
    rw [ih (fun x hx => hne x (by simp [hx])) _ (parse_http_header E.L req h) rfl
      (by rw [(parse_http_header_fields E.L req h).1]; exact hst)]
    rfl

theorem feed_lines_append (E : Env) (xs ys : List (List Char)) :
    ∀ d : DESC, feed_lines E d (xs ++ ys)
      = if (feed_lines E d xs).1 then feed_lines E (feed_lines E d xs).2 ys
        else (false, (feed_lines E d xs).2) := by
  induction xs with
  | nil =>
    intro d
    simp [feed_lines]
  | cons x xs ih =>
    intro d
    simp only [List.cons_append, feed_lines]
    cases hh : process_http_helper E d x with
    | mk ok d2 =>
      cases ok
      · simp
      · exact ih d2

theorem feed_chunks_cons (E : Env) (d : DESC) (c : List Char) (cs : List (List Char)) :
    feed_chunks E d (c :: cs)
      = feed_chunks E (process_http_request E d c c.length).2 cs := rfl

theorem reset_http_timeout_cbuf (d : DESC) (t : Nat) :
    (reset_http_timeout d t).cbuf_overrun = d.cbuf_overrun := by
  unfold reset_http_timeout
  cases d.http with
  | none => rfl
  | some req =>
    dsimp only
    split <;> rfl

theorem send_http_status_cbuf (E : Env) (d : DESC) (status : Nat) (content : List Char) :
    (send_http_status E d status content).cbuf_overrun = d.cbuf_overrun := by
  unfold send_http_status
  cases d.http with
  | none => rfl
  | some req =>
    dsimp only
    split <;> rfl

theorem dispatch_or_404_cbuf (E : Env) (d : DESC) (req : http_request) :
    (dispatch_or_404 E d req).2.cbuf_overrun = d.cbuf_overrun := by
  unfold dispatch_or_404 run_http_request
  dsimp only
  split
  · rename_i d2 h
    simp only [Prod.mk.injEq] at h
    rw [← h.2]
    unfold send_not_found
    rw [send_http_status_cbuf]
  · rename_i d2 h
    simp only [Prod.mk.injEq] at h
    rw [← h.2]

theorem process_http_helper_cbuf (E : Env) (d : DESC) (l : List Char) :
    (process_http_helper E d l).2.cbuf_overrun = d.cbuf_overrun := by
  cases hd : d.http with
  | none =>
    unfold process_http_helper
    rw [hd]
    rfl
  | some req =>
    by_cases h1 : req.state = HTTP_REQUEST_HEADERS
    · by_cases hl : l = []
      · subst hl
        by_cases hm : req.method = .GET
        · rw [helper_blank_get E d req hd h1 hm]
          exact dispatch_or_404_cbuf E d req
        · rw [helper_blank_other E d req hd h1 hm]
      · rw [helper_header_line E d req l hd h1 hl]
    · by_cases h2 : req.state = HTTP_REQUEST_CONTENT
      · rw [helper_content_line E d req l hd h2]
        split
        · exact dispatch_or_404_cbuf E d _
        · rfl
      · rw [helper_other_state E d req l hd h1 h2]

theorem feed_lines_cbuf (E : Env) (ls : List (List Char)) :
    ∀ d : DESC, (feed_lines E d ls).2.cbuf_overrun = d.cbuf_overrun := by
  induction ls with
  | nil => intro d; rfl
  | cons l ls ih =>
    intro d
    unfold feed_lines
    have h := process_http_helper_cbuf E d l
    cases hp : process_http_helper E d l with
    | mk ok d2 =>
      rw [hp] at h
      cases ok
      · exact h
      · exact (ih d2).trans h

theorem fold_headers_overrun (L : Limits) (hs : List (List Char)) :
    ∀ req : http_request, (∀ h ∈ hs, type_copy_fits L h = true) →
      (hs.foldl (parse_http_header L) req).type_overrun = req.type_overrun := by
  induction hs with
  | nil => intro req _; rfl
  | cons h t ih =>
    intro req hf
    rw [List.foldl_cons, ih _ (fun x hx => hf x (by simp [hx])),
      parse_http_header_overrun, hf h (by simp)]
    simp

theorem blank_line_keeps_request (E : Env) (d : DESC) (req : http_request)
    (hd : d.http = some req) (hst : req.state = HTTP_REQUEST_HEADERS) :
    ∃ req', (feed_lines E d [[]]).2.http = some req' ∧ req'.headers = req.headers ∧
      req'.type_overrun = req.type_overrun := by
  unfold feed_lines
  by_cases hm : req.method = .GET
  · rw [helper_blank_get E d req hd hst hm]
    obtain ⟨_, hh, _⟩ := dispatch_or_404_spec E d req
    cases hr : dispatch_or_404 E d req with
    | mk ok d2 =>
      rw [hr] at hh
      cases ok
      · exact ⟨_, hh, rfl, rfl⟩
      · exact ⟨_, hh, rfl, rfl⟩
  · rw [helper_blank_other E d req hd hst hm]
    exact ⟨_, rfl, rfl, rfl⟩

theorem feed_groups (E : Env) (groups : List (List (List Char))) :
    ∀ (hs : List (List Char)) (d : DESC) (req : http_request),
      (∀ g ∈ groups, g ≠ []) → groups.flatten = hs ++ [[]] →
      (∀ h ∈ hs, h ≠ [] ∧ CR ∉ h ∧ LF ∉ h ∧ NUL ∉ h) →
      d.http = some req → req.state = HTTP_REQUEST_HEADERS →
      req.hp = req.headers.length →
      req.hp + (hs.map (fun l => l.length + 1)).sum ≤ E.L.BUFFER_LEN - 1 →
      (∀ h ∈ hs, type_copy_fits E.L h = true) →
      (∀ g ∈ groups, (crlf_lines g).length ≤ E.MAX_COMMAND_LEN) →
      ∃ req', (feed_chunks E d (groups.map crlf_lines)).http = some req' ∧
        req'.headers = req.headers ++ (hs.map (fun l => l ++ [LF])).flatten ∧
        req'.type_overrun = req.type_overrun ∧
        (feed_chunks E d (groups.map crlf_lines)).cbuf_overrun = d.cbuf_overrun := by
  induction groups with
  | nil =>
    intro hs d req _ hflat
    simp at hflat
  | cons g gs ih =>
    intro hs d req hgne hflat hclean hd hst hhp hfit htype hlen
    have hne : ∀ h ∈ hs, h ≠ [] := fun h hh => (hclean h hh).1
    have hcl : ∀ h ∈ hs, CR ∉ h ∧ LF ∉ h ∧ NUL ∉ h := fun h hh => (hclean h hh).2
    rw [List.map_cons, feed_chunks_cons]
    by_cases hgs : gs = []
    · subst hgs
      simp only [List.flatten_cons, List.flatten_nil, List.append_nil] at hflat
      subst hflat
      have hclg : ∀ l ∈ hs ++ [[]], CR ∉ l ∧ LF ∉ l ∧ NUL ∉ l := by
        intro l hl
        rcases List.mem_append.mp hl with h | h
        · exact hcl l h
        · simp only [List.mem_singleton] at h
          subst h
          simp
      obtain ⟨f1, _, f3, _⟩ := fold_headers E.L hs req hhp hfit
      have f5 := fold_headers_overrun E.L hs req htype
      obtain ⟨req', hb1, hb2, hb3⟩ := blank_line_keeps_request E
        { d with http := some (hs.foldl (parse_http_header E.L) req) }
        (hs.foldl (parse_http_header E.L) req) rfl (by rw [f3]; exact hst)
      have hcb := feed_lines_cbuf E [[]]
        { d with http := some (hs.foldl (parse_http_header E.L) req) }
      rw [process_http_request_crlf_lines E d _ hclg,
        cbuf_write_fits E d _ (hlen _ (by simp)), feed_lines_append,
        feed_header_lines E hs hne d req hd hst]
      simp only [if_true, List.map_nil, feed_chunks, List.foldl_nil]
      split
      · dsimp only
        rw [reset_http_timeout_http, hb1, Option.map_some', reset_http_timeout_cbuf, hcb]
        exact ⟨_, rfl, by rw [← f1, ← hb2], by rw [← f5, ← hb3], rfl⟩
      · dsimp only
        rw [hcb]
        exact ⟨req', hb1, by rw [hb2, f1], by rw [hb3, f5], rfl⟩
    · have hflat_ne : gs.flatten ≠ [] := by
        cases gs with
        | nil => exact absurd rfl hgs
        | cons g2 gs2 =>
          have : g2 ≠ [] := hgne g2 (by simp)
          simp [this]
      obtain ⟨a, ha1, ha2⟩ : ∃ a, hs = g ++ a ∧ gs.flatten = a ++ [[]] := by
        rw [List.flatten_cons] at hflat
        rcases List.append_eq_append_iff.mp hflat with ⟨a, h1, h2⟩ | ⟨c, h1, h2⟩
        · exact ⟨a, h1, h2⟩
        · have hc : c = [] := by
            cases c with
            | nil => rfl
            | cons x xs =>
              have hl : ([[]] : List (List Char)).length = (x :: xs ++ gs.flatten).length :=
                congrArg List.length h2
              rw [List.length_singleton, List.length_append, List.length_cons] at hl
              have : gs.flatten.length ≠ 0 := fun h => hflat_ne (List.length_eq_zero.mp h)
              omega
          subst hc
          simp only [List.append_nil, List.nil_append] at h1 h2
          exact ⟨[], by simp [h1], by simp [← h2]⟩
      subst ha1
      have hneg : ∀ h ∈ g, h ≠ [] := fun h hh => hne h (by simp [hh])
      have hclg : ∀ l ∈ g, CR ∉ l ∧ LF ∉ l ∧ NUL ∉ l := fun h hh => hcl h (by simp [hh])
      simp only [List.map_append, List.sum_append, List.flatten_append] at hfit ⊢
      obtain ⟨f1, f2, f3, _⟩ := fold_headers E.L g req hhp (by omega)
      have f5 := fold_headers_overrun E.L g req (fun h hh => htype h (by simp [hh]))
      rw [process_http_request_crlf_lines E d _ hclg,
        cbuf_write_fits E d _ (hlen _ (by simp)),
        feed_header_lines E g hneg d req hd hst]
      simp only [if_true]
      have hd1 := reset_http_timeout_http
        { d with http := some (g.foldl (parse_http_header E.L) req) } HTTP_TIMEOUT
      rw [Option.map_some'] at hd1
      obtain ⟨req', r1, r2, r3, r4⟩ := ih a _ _ (fun x hx => hgne x (by simp [hx])) ha2
        (fun h hh => hclean h (by simp [hh])) hd1 (by
          show (g.foldl (parse_http_header E.L) req).state = _
          rw [f3]; exact hst) (by
          show (g.foldl (parse_http_header E.L) req).hp
            = (g.foldl (parse_http_header E.L) req).headers.length
          exact f2) (by
          show (g.foldl (parse_http_header E.L) req).hp + _ ≤ _
          rw [f2, f1]
          simp only [List.length_append, List.length_flatten, List.map_map]
          have e : (List.map (List.length ∘ fun l => l ++ [LF]) g).sum
              = (List.map (fun l => l.length + 1) g).sum := by
            congr 1
            apply List.map_congr_left
            intro x _
            simp
          rw [e]
          omega) (fun h hh => htype h (by simp [hh]))
          (fun x hx => hlen x (by simp [hx]))
      refine ⟨req', r1, ?_, ?_, ?_⟩
      · rw [r2]
        show (g.foldl (parse_http_header E.L) req).headers ++ _ = _
        rw [f1, List.append_assoc]
      · rw [r3]
        exact f5
      · rw [r4, reset_http_timeout_cbuf]

theorem crlf_lines_append (a b : List (List Char)) :
    crlf_lines (a ++ b) = crlf_lines a ++ crlf_lines b := by
  simp [crlf_lines]

theorem crlf_lines_flatten (groups : List (List (List Char))) :
    (groups.map crlf_lines).flatten = crlf_lines groups.flatten := by
  induction groups with
  | nil => rfl
  | cons g gs ih =>
    rw [List.map_cons, List.flatten_cons, List.flatten_cons, crlf_lines_append, ih]

theorem crlf_lines_length_le (groups : List (List (List Char))) (g : List (List Char))
    (hg : g ∈ groups) : (crlf_lines g).length ≤ (crlf_lines groups.flatten).length := by
  rw [← crlf_lines_flatten]
  exact (List.sublist_flatten_of_mem (List.mem_map_of_mem crlf_lines hg)).length_le

/-- C8 (as the code has it): for three header lines that are not empty and
contain no CR, LF or NUL, none of them a `Content-Type` line whose value has
`HTTP_STR_LEN` bytes or more, on a request in state HEADERS whose write
position is at the end of the headers stored so far, with room for the three
lines in the header buffer and for the whole stream in the command buffer:
however the four lines H1, H2, H3 and the blank line are grouped into chunks
of whole lines, each line ended by CR LF, feeding the chunks in order to
`process_http_request` appends H1, H2 and H3, each followed by a line feed, to
the stored headers, and no write leaves the field `type` or the command
buffer. -/
theorem header_lines_accumulate (E : Env) (d : DESC) (req : http_request)
    (H1 H2 H3 : List Char) (groups : List (List (List Char)))
    (hd : d.http = some req) (hst : req.state = HTTP_REQUEST_HEADERS)
    (hhp : req.hp = req.headers.length)
    (hclean : ∀ h ∈ [H1, H2, H3], h ≠ [] ∧ CR ∉ h ∧ LF ∉ h ∧ NUL ∉ h)
    (hfit : req.headers.length + (H1.length + H2.length + H3.length + 3)
      ≤ E.L.BUFFER_LEN - 1)
    (htype : ∀ h ∈ [H1, H2, H3], type_copy_fits E.L h = true)
    (hcmd : H1.length + H2.length + H3.length + 8 ≤ E.MAX_COMMAND_LEN)
    (hgne : ∀ g ∈ groups, g ≠ []) (hgroups : groups.flatten = [H1, H2, H3, []]) :
    (groups.map crlf_lines).flatten = H1 ++ CRLF ++ H2 ++ CRLF ++ H3 ++ CRLF ++ CRLF ∧
      ∃ req', (feed_chunks E d (groups.map crlf_lines)).http = some req' ∧
        req'.headers = req.headers ++ (H1 ++ [LF] ++ H2 ++ [LF] ++ H3 ++ [LF]) ∧
        req'.type_overrun = req.type_overrun ∧
        (feed_chunks E d (groups.map crlf_lines)).cbuf_overrun = d.cbuf_overrun := by
  constructor
  · rw [crlf_lines_flatten, hgroups]
    simp [crlf_lines]
  · have hlen : ∀ g ∈ groups, (crlf_lines g).length ≤ E.MAX_COMMAND_LEN := by
      intro g hg
      have h1 := crlf_lines_length_le groups g hg
      rw [hgroups] at h1
      have h2 : (crlf_lines [H1, H2, H3, []]).length
          = H1.length + H2.length + H3.length + 8 := by
        simp [crlf_lines, CRLF]
        omega
      omega
    obtain ⟨req', h1, h2, h3, h4⟩ := feed_groups E groups [H1, H2, H3] d req hgne hgroups
      hclean hd hst hhp (by
        simp only [List.map_cons, List.map_nil, List.sum_cons, List.sum_nil]
        omega) htype hlen
    refine ⟨req', h1, ?_, h3, h4⟩
    rw [h2]
    simp

theorem header_lines_accumulate_witness :
    ([["Host: a".toList, "Content-Type: text/plain".toList], ["X: y".toList, []]].map
        crlf_lines).flatten
        = "Host: a".toList ++ CRLF ++ "Content-Type: text/plain".toList ++ CRLF
          ++ "X: y".toList ++ CRLF ++ CRLF ∧
      ∃ req', (feed_chunks example_env example_headers_desc
          ([["Host: a".toList, "Content-Type: text/plain".toList], ["X: y".toList, []]].map
            crlf_lines)).http = some req' ∧
        req'.headers = example_request.headers ++ ("Host: a".toList ++ [LF]
          ++ "Content-Type: text/plain".toList ++ [LF] ++ "X: y".toList ++ [LF]) ∧
        req'.type_overrun = example_request.type_overrun ∧
        (feed_chunks example_env example_headers_desc
          ([["Host: a".toList, "Content-Type: text/plain".toList], ["X: y".toList, []]].map
            crlf_lines)).cbuf_overrun = example_headers_desc.cbuf_overrun :=
  header_lines_accumulate example_env example_headers_desc example_request
    "Host: a".toList "Content-Type: text/plain".toList "X: y".toList
    [["Host: a".toList, "Content-Type: text/plain".toList], ["X: y".toList, []]]
    rfl (by decide) (by decide) (by decide) (by decide) (by decide) (by decide) (by decide)
    (by decide)

/-- C8 as stated fails: with the first header line cut in two, the two pieces
are stored as two lines, since the tail of a chunk is handed on as a line
whether or not its terminator has arrived. -/
theorem header_cut_inside_line :
    ["Host".toList, ": a\r\nContent-Length: 3\r\nX: y\r\n\r\n".toList].flatten
        = "Host: a".toList ++ CRLF ++ "Content-Length: 3".toList ++ CRLF ++ "X: y".toList
          ++ CRLF ++ CRLF ∧
      (∀ c ∈ ["Host".toList, ": a\r\nContent-Length: 3\r\nX: y\r\n\r\n".toList], c ≠ []) ∧
      example_request.state = HTTP_REQUEST_HEADERS ∧ example_request.headers = [] ∧
      (feed_chunks example_env example_headers_desc
          ["Host".toList, ": a\r\nContent-Length: 3\r\nX: y\r\n\r\n".toList]).http.map
          (fun r => r.headers) = some "Host\n: a\nContent-Length: 3\nX: y\n".toList ∧
      "Host\n: a\nContent-Length: 3\nX: y\n".toList
        ≠ "Host: a".toList ++ [LF] ++ "Content-Length: 3".toList ++ [LF] ++ "X: y".toList
          ++ [LF] := by
  decide

/-- A cut between the CR and the LF of a terminator makes the LF at the start
of the next chunk a blank line: the headers end after the first line and the
later lines are taken as body. -/
theorem header_cut_between_cr_and_lf :
    (feed_chunks example_env example_headers_desc
        ["Host: a\r".toList, "\nContent-Length: 3\r\nX: y\r\n\r\n".toList]).http.map
        (fun r => (r.headers, r.content, r.length, r.state))
      = some ("Host: a\n".toList, "Content-Length: 3".toList, 0, HTTP_REQUEST_DONE) := by
  decide

/-! ## The order of the states -/

theorem line_transition (E : Env) (a : DESC) (l : List Char) (req : http_request)
    (ha : a.http = some req) :
    ∃ req', (process_http_helper E a l).2.http = some req' ∧ req'.method = req.method ∧
      (req'.state = req.state ∨
        (req.state = HTTP_REQUEST_HEADERS ∧ req'.state = HTTP_REQUEST_CONTENT ∧
          req.method ≠ .GET) ∨
        (req.state = HTTP_REQUEST_CONTENT ∧ req'.state = HTTP_REQUEST_DONE) ∨
        (req.state = HTTP_REQUEST_HEADERS ∧ req'.state = HTTP_REQUEST_DONE)) := by
  by_cases h1 : req.state = HTTP_REQUEST_HEADERS
  · by_cases hl : l = []
    · subst hl
      by_cases hm : req.method = .GET
      · rw [helper_blank_get E a req ha h1 hm]
        obtain ⟨_, hh, _⟩ := dispatch_or_404_spec E a req
        exact ⟨_, hh, rfl, Or.inr (Or.inr (Or.inr ⟨h1, rfl⟩))⟩
      · rw [helper_blank_other E a req ha h1 hm]
        exact ⟨_, rfl, rfl, Or.inr (Or.inl ⟨h1, rfl, hm⟩)⟩
    · rw [helper_header_line E a req l ha h1 hl]
      obtain ⟨hs, hme, _⟩ := parse_http_header_fields E.L req l
      exact ⟨_, rfl, hme, Or.inl hs⟩
  · by_cases h2 : req.state = HTTP_REQUEST_CONTENT
    · rw [helper_content_line E a req l ha h2]
      obtain ⟨_, _, _, hstate, hmeth⟩ := parse_http_content_done E.L req l
      by_cases hdone : (parse_http_content E.L req l).1 = true
      · simp only [hdone, if_true]
        obtain ⟨_, hh, _⟩ := dispatch_or_404_spec E a (parse_http_content E.L req l).2
        exact ⟨_, hh, hmeth, Or.inr (Or.inr (Or.inl ⟨h2, rfl⟩))⟩
      · simp only [hdone, if_false, Bool.false_eq_true]
        exact ⟨_, rfl, hmeth, Or.inl hstate⟩
    · rw [helper_other_state E a req l ha h1 h2]
      exact ⟨req, ha, rfl, Or.inl rfl⟩

theorem timeout_transition (E : Env) (a : DESC) (req : http_request)
    (ha : a.http = some req) (hv : valid_state a) :
    ∃ req', (http_timeout_wrapper E a).http = some req' ∧ req'.method = req.method ∧
      (req'.state = req.state ∨
        (req.state = HTTP_REQUEST_CONTENT ∧ req'.state = HTTP_REQUEST_DONE) ∨
        (req.state = HTTP_REQUEST_HEADERS ∧ req'.state = HTTP_REQUEST_DONE)) := by
  unfold valid_state at hv
  rw [request_state_of_http ha] at hv
  by_cases hlt : req.state < HTTP_REQUEST_DONE
  · have h12 : req.state = HTTP_REQUEST_HEADERS ∨ req.state = HTTP_REQUEST_CONTENT := by
      unfold HTTP_REQUEST_HEADERS HTTP_REQUEST_CONTENT HTTP_REQUEST_DONE at *
      omega
    obtain ⟨_, hh, _⟩ := run_http_request_spec E
      { a with http := some { req with state := HTTP_REQUEST_DONE } }
      { req with state := HTTP_REQUEST_DONE } rfl
    rw [timeout_before_done E a req ha hlt]
    have hfin : ({ req with state := HTTP_REQUEST_DONE } : http_request).state = req.state ∨
        (req.state = HTTP_REQUEST_CONTENT ∧
          ({ req with state := HTTP_REQUEST_DONE } : http_request).state = HTTP_REQUEST_DONE) ∨
        (req.state = HTTP_REQUEST_HEADERS ∧
          ({ req with state := HTTP_REQUEST_DONE } : http_request).state = HTTP_REQUEST_DONE) := by
      rcases h12 with h | h
      · exact Or.inr (Or.inr ⟨h, rfl⟩)
      · exact Or.inr (Or.inl ⟨h, rfl⟩)
    split
    · rw [reset_http_timeout_http, hh, Option.map_some']
      exact ⟨_, rfl, rfl, hfin⟩
    · rw [close_http_request_http, send_http_status_http, hh, Option.map_some']
      exact ⟨_, rfl, rfl, hfin⟩
  · rw [timeout_after_done E a req ha hlt, close_http_request_http]
    split
    · rw [send_http_status_http, ha, Option.map_some']
      exact ⟨_, rfl, rfl, Or.inl rfl⟩
    · rw [ha, Option.map_some']
      exact ⟨_, rfl, rfl, Or.inl rfl⟩

theorem step_transition (E : Env) (a : DESC) (s : http_step) (req : http_request)
    (ha : a.http = some req) (hv : valid_state a) :
    ∃ req', (apply_step E a s).http = some req' ∧ req'.method = req.method ∧
      (req'.state = req.state ∨
        (req.state = HTTP_REQUEST_HEADERS ∧ req'.state = HTTP_REQUEST_CONTENT ∧
          req.method ≠ .GET) ∨
        (req.state = HTTP_REQUEST_CONTENT ∧ req'.state = HTTP_REQUEST_DONE) ∨
        (req.state = HTTP_REQUEST_HEADERS ∧ req'.state = HTTP_REQUEST_DONE) ∨
        (req'.state = HTTP_REQUEST_STARTED ∧ ∃ c, s = .respond c)) := by
  cases s with
  | line l =>
    obtain ⟨r, h1, h2, h3⟩ := line_transition E a l req ha
    refine ⟨r, h1, h2, ?_⟩
    rcases h3 with h | h | h | h
    · exact Or.inl h
    · exact Or.inr (Or.inl h)
    · exact Or.inr (Or.inr (Or.inl h))
    · exact Or.inr (Or.inr (Or.inr (Or.inl h)))
  | timeout =>
    obtain ⟨r, h1, h2, h3⟩ := timeout_transition E a req ha hv
    refine ⟨r, h1, h2, ?_⟩
    rcases h3 with h | h | h
    · exact Or.inl h
    · exact Or.inr (Or.inr (Or.inl h))
    · exact Or.inr (Or.inr (Or.inr (Or.inl h)))
  | respond c =>
    obtain ⟨hh, _⟩ := send_http_response_spec E a req c ha
    exact ⟨_, hh, rfl, Or.inr (Or.inr (Or.inr (Or.inr ⟨rfl, c, rfl⟩)))⟩

/-- C11 (as the code has it): for a request in one of the four states, a line
handed to `process_http_helper`, a timer firing and a `send_http_response`
call each leave the state at least as far on as before, in the order HEADERS,
CONTENT, DONE, STARTED; a change is HEADERS to CONTENT, CONTENT to DONE,
DONE to STARTED or HEADERS to DONE, or else it is made by
`send_http_response` and goes from HEADERS or CONTENT to STARTED. -/
theorem state_never_regresses (E : Env) (a : DESC) (s : http_step) (hv : valid_state a) :
    request_state a ≤ request_state (apply_step E a s) ∧
      (request_state (apply_step E a s) ≠ request_state a →
        (request_state a = HTTP_REQUEST_HEADERS ∧
            request_state (apply_step E a s) = HTTP_REQUEST_CONTENT) ∨
          (request_state a = HTTP_REQUEST_CONTENT ∧
            request_state (apply_step E a s) = HTTP_REQUEST_DONE) ∨
          (request_state a = HTTP_REQUEST_DONE ∧
            request_state (apply_step E a s) = HTTP_REQUEST_STARTED) ∨
          (request_state a = HTTP_REQUEST_HEADERS ∧
            request_state (apply_step E a s) = HTTP_REQUEST_DONE) ∨
          ((∃ c, s = .respond c) ∧
            (request_state a = HTTP_REQUEST_HEADERS ∨
              request_state a = HTTP_REQUEST_CONTENT) ∧
            request_state (apply_step E a s) = HTTP_REQUEST_STARTED)) := by
  obtain ⟨req, ha⟩ := http_of_valid_state hv
  obtain ⟨r, h1, _, h3⟩ := step_transition E a s req ha hv
  have hv' := hv
  unfold valid_state at hv'
  rw [request_state_of_http ha] at hv' ⊢
  rw [request_state_of_http h1]
  unfold HTTP_REQUEST_HEADERS HTTP_REQUEST_CONTENT HTTP_REQUEST_DONE
    HTTP_REQUEST_STARTED at *
  rcases h3 with h | ⟨h, h', _⟩ | ⟨h, h'⟩ | ⟨h, h'⟩ | ⟨h, c, hc⟩
  · exact ⟨by omega, fun hne => absurd h hne⟩
  · exact ⟨by omega, fun _ => Or.inl ⟨h, h'⟩⟩
  · exact ⟨by omega, fun _ => Or.inr (Or.inl ⟨h, h'⟩)⟩
  · exact ⟨by omega, fun _ => Or.inr (Or.inr (Or.inr (Or.inl ⟨h, h'⟩)))⟩
  · refine ⟨by omega, fun hne => ?_⟩
    have hcases : req.state = 1 ∨ req.state = 2 ∨ req.state = 3 := by omega
    rcases hcases with h1 | h2 | h3
    · exact Or.inr (Or.inr (Or.inr (Or.inr ⟨⟨c, hc⟩, Or.inl h1, h⟩)))
    · exact Or.inr (Or.inr (Or.inr (Or.inr ⟨⟨c, hc⟩, Or.inr h2, h⟩)))
    · exact Or.inr (Or.inr (Or.inl ⟨h3, h⟩))

theorem state_never_regresses_witness :
    request_state example_body_desc
      ≤ request_state (apply_step example_env example_body_desc (.line "abc".toList)) :=
  (state_never_regresses example_env example_body_desc (.line "abc".toList)
    ⟨by decide, by decide⟩).1

/-- C11 as stated fails: `send_http_response` on a request that is still in
state HEADERS moves it to STARTED, which is none of the four listed changes. -/
theorem respond_skips_to_started :
    request_state example_headers_desc = HTTP_REQUEST_HEADERS ∧
      request_state (apply_step example_env example_headers_desc (.respond none))
        = HTTP_REQUEST_STARTED ∧
      request_state (send_http_response example_env example_body_desc none)
        = HTTP_REQUEST_STARTED := by
  decide

/-! ## GET requests and empty bodies -/

theorem parse_http_query_state (L : Limits) (req0 : http_request) (line : List Char)
    (hacc : (parse_http_query L req0 line).1 = true) :
    (parse_http_query L req0 line).2.state = HTTP_REQUEST_HEADERS ∧
      (parse_http_query L req0 line).2.status = 200 ∧
      (parse_http_query L req0 line).2.length = 0 ∧
      (parse_http_query L req0 line).2.recv = 0 := by
  obtain ⟨m, ws, target, version, rfl, hm, hws, hhead, hne, hsp, hlen, hver⟩ :=
    parse_http_query_accept L req0 line hacc
  have hv : strncmp_eq version "HTTP/1.1".toList 8 = true :=
    (strncmp_eq_length version "HTTP/1.1".toList).mpr hver
  rw [parse_http_query_shape L req0 m ws target version hm hws hhead hne hsp]
  simp only [ge_iff_le, Nat.not_le.mpr hlen, if_false, hv, Bool.not_true,
    Bool.false_eq_true]
  obtain ⟨_, h2, h3, _, _, h6, h7, _⟩ := setup_request_fields L { req0 with method := m } target
  exact ⟨h2, h3, h6, h7⟩

theorem get_invariant (E : Env) (steps : List http_step) :
    ∀ (d : DESC) (req : http_request), d.http = some req → req.method = .GET →
      (req.state = HTTP_REQUEST_HEADERS ∨ req.state = HTTP_REQUEST_DONE ∨
        req.state = HTTP_REQUEST_STARTED) →
      request_state (run_steps E d steps) ≠ HTTP_REQUEST_CONTENT := by
  induction steps with
  | nil =>
    intro d req hd _ hs
    simp only [run_steps, List.foldl_nil]
    rw [request_state_of_http hd]
    rcases hs with h | h | h <;> rw [h] <;> decide
  | cons s rest ih =>
    intro d req hd hm hs
    have hv : valid_state d := by
      unfold valid_state
      rw [request_state_of_http hd]
      rcases hs with h | h | h <;> rw [h] <;> decide
    obtain ⟨r, h1, h2, h3⟩ := step_transition E d s req hd hv
    simp only [run_steps, List.foldl_cons]
    refine ih _ r h1 (h2.trans hm) ?_
    rcases h3 with h | ⟨_, _, hne⟩ | ⟨h, _⟩ | ⟨_, h⟩ | ⟨h, _⟩
    · rw [h]; exact hs
    · exact absurd hm hne
    · rcases hs with h' | h' | h' <;> rw [h'] at h <;> exact absurd h (by decide)
    · exact Or.inr (Or.inl h)
    · exact Or.inr (Or.inr h)

/-- C12: for a GET request that `parse_http_query` has set up, no state reached
along any sequence of lines and timer firings (calls of `send_http_response`
included) is CONTENT; the blank line that ends the headers takes the request
from HEADERS to DONE and makes one `queue_event` call. -/
theorem get_never_enters_content (E : Env) (d : DESC) (req0 : http_request)
    (line : List Char) (steps : List http_step)
    (hacc : (parse_http_query E.L req0 line).1 = true)
    (hd : d.http = some (parse_http_query E.L req0 line).2)
    (hget : (parse_http_query E.L req0 line).2.method = .GET) :
    (∀ k, request_state (run_steps E d (steps.take k)) ≠ HTTP_REQUEST_CONTENT) ∧
      request_state d = HTTP_REQUEST_HEADERS ∧
      request_state (process_http_helper E d []).2 = HTTP_REQUEST_DONE ∧
      ∃ e, dispatches (process_http_helper E d []).2 = dispatches d ++ [e] := by
  have hst := (parse_http_query_state E.L req0 line hacc).1
  refine ⟨fun k => get_invariant E (steps.take k) d _ hd hget (Or.inl hst), ?_, ?_, ?_⟩
  · rw [request_state_of_http hd, hst]
  · rw [helper_blank_get E d _ hd hst hget]
    obtain ⟨_, hh, _⟩ := dispatch_or_404_spec E d (parse_http_query E.L req0 line).2
    exact request_state_of_http hh
  · rw [helper_blank_get E d _ hd hst hget]
    obtain ⟨_, _, _, _, e, he, _⟩ := dispatch_or_404_spec E d (parse_http_query E.L req0 line).2
    exact ⟨e, he⟩

theorem get_never_enters_content_witness :
    request_state (run_steps example_env example_get_desc
        ([.line "Content-Length: 4".toList, .line [], .line "body".toList,
          .timeout].take 2)) ≠ HTTP_REQUEST_CONTENT :=
  (get_never_enters_content example_env example_get_desc http_request.zero
    "GET /news HTTP/1.1".toList
    [.line "Content-Length: 4".toList, .line [], .line "body".toList, .timeout]
    (by decide) rfl (by decide)).1 2

/-- C13 (as the code has it): for a request with a method other than GET whose
`length` is 0, the blank line that ends the headers returns 1, moves the
request to CONTENT and makes no `queue_event` call; it is the next line
handed to `process_http_helper`, whatever it holds, that moves the request to
DONE and makes the one call. -/
theorem empty_body_waits_for_a_line (E : Env) (d : DESC) (req : http_request)
    (hd : d.http = some req) (hst : req.state = HTTP_REQUEST_HEADERS)
    (hm : req.method ≠ .GET) (hlen : req.length = 0) :
    (process_http_helper E d []).1 = true ∧
      request_state (process_http_helper E d []).2 = HTTP_REQUEST_CONTENT ∧
      dispatches (process_http_helper E d []).2 = dispatches d ∧
      ∀ l : List Char,
        request_state (process_http_helper E (process_http_helper E d []).2 l).2
          = HTTP_REQUEST_DONE ∧
        ∃ e, dispatches (process_http_helper E (process_http_helper E d []).2 l).2
          = dispatches d ++ [e] := by
  rw [helper_blank_other E d req hd hst hm]
  refine ⟨rfl, rfl, rfl, fun l => ?_⟩
  have hdone : (parse_http_content E.L { req with state := HTTP_REQUEST_CONTENT } l).1
      = true := by
    apply (parse_http_content_done E.L _ l).1.mpr
    show _ ≥ req.length
    rw [hlen]
    exact Nat.zero_le _
  rw [helper_content_line E _ { req with state := HTTP_REQUEST_CONTENT } l rfl rfl]
  simp only [hdone, if_true]
  obtain ⟨_, hh, _, _, e, he, _⟩ := dispatch_or_404_spec E
    { d with http := some { req with state := HTTP_REQUEST_CONTENT } }
    (parse_http_content E.L { req with state := HTTP_REQUEST_CONTENT } l).2
  exact ⟨request_state_of_http hh, e, he⟩

theorem empty_body_waits_for_a_line_witness :
    request_state (process_http_helper example_env example_headers_desc []).2
      = HTTP_REQUEST_CONTENT :=
  (empty_body_waits_for_a_line example_env example_headers_desc example_request
    rfl (by decide) (by decide) (by decide)).2.1

/-- C13 as stated fails: a POST request with `length` 0 is in state CONTENT
after the blank line, and no `queue_event` call has been made. -/
theorem empty_body_not_dispatched_by_blank_line :
    example_request.method = .POST ∧ example_request.length = 0 ∧
      request_state example_headers_desc = HTTP_REQUEST_HEADERS ∧
      request_state (process_http_helper example_env example_headers_desc []).2
        = HTTP_REQUEST_CONTENT ∧
      dispatches (process_http_helper example_env example_headers_desc []).2 = [] := by
  decide

/-! ## What is written to the connection -/

theorem safe_str_fresh (L : Limits) (s : List Char) :
    terminate (safe_str L s [] 0).1 (safe_str L s [] 0).2 = s.take (L.BUFFER_LEN - 1) := by
  unfold terminate safe_str safe_strl
  simp only [List.take_nil, List.nil_append, List.drop_nil, List.append_nil, Nat.sub_zero,
    Nat.zero_add, List.take_length]
  by_cases h : s.length ≤ L.BUFFER_LEN - 1
  · rw [Nat.min_eq_left h, List.take_length, List.take_of_length_le h]
  · rw [Nat.min_eq_right (Nat.le_of_lt (Nat.lt_of_not_le h))]

theorem safe_str_fits (L : Limits) (s buf : List Char) (bp : Nat) (hbp : bp = buf.length)
    (hfit : buf.length + s.length ≤ L.BUFFER_LEN - 1) :
    safe_str L s buf bp = (buf ++ s, (buf ++ s).length) := by
  subst hbp
  unfold safe_str safe_strl
  have hw : s.take (min s.length (L.BUFFER_LEN - 1 - buf.length)) = s := by
    apply List.take_of_length_le
    omega
  simp only [hw, List.take_length, List.length_append]
  rw [List.drop_of_length_le (by omega)]
  simp

theorem send_http_status_log (E : Env) (d : DESC) (req : http_request) (status : Nat)
    (code content : List Char) (hd : d.http = some req)
    (hs : get_http_status status = .found code) :
    (send_http_status E d status content).log
      = d.log ++ [effect.queue_write
          ((status_page status code req.route content).take (E.L.BUFFER_LEN - 1)),
          effect.queue_eol] := by
  unfold send_http_status
  simp only [hd, hs, safe_str_fresh]
  simp [queue_eol, queue_write]

theorem close_http_request_log (E : Env) (d : DESC) (req : http_request)
    (hd : d.http = some req) :
    (close_http_request E d).log = d.log ++ close_effects E req := by
  unfold close_http_request close_effects
  simp only [hd, safe_str_fresh]
  cases ht : req.timer <;> dsimp only <;> split <;>
    simp [queue_eol, queue_write]

theorem reset_http_timeout_log (d : DESC) (req : http_request) (time : Nat)
    (hd : d.http = some req) :
    (reset_http_timeout d time).log
      = d.log ++ (if req.timer.isSome then [effect.sq_cancel] else [])
        ++ [effect.sq_register_in time] := by
  unfold reset_http_timeout
  simp only [hd]
  cases ht : req.timer <;> simp

theorem rearms_append (d : DESC) (l : List effect) (hl : ∀ t, effect.sq_register_in t ∉ l) :
    (d.log ++ l).filterMap (fun x => match x with
      | .sq_register_in t => some t
      | _ => none) = rearms d := by
  unfold rearms
  rw [List.filterMap_append]
  have : l.filterMap (fun x => match x with
      | .sq_register_in t => some t
      | _ => none) = [] := by
    rw [List.filterMap_eq_nil_iff]
    intro x hx
    cases x with
    | sq_register_in t => exact absurd hx (hl t)
    | _ => rfl
  rw [this, List.append_nil]

theorem close_effects_no_rearm (E : Env) (req : http_request) (t : Nat) :
    effect.sq_register_in t ∉ close_effects E req := by
  unfold close_effects
  simp only [List.mem_append, List.mem_singleton, not_or]
  refine ⟨⟨?_, ?_⟩, by simp⟩
  · split <;> simp
  · split <;> simp

theorem response_head_fits (E : Env) (req : http_request) (reason : List Char)
    (hreason : get_http_status req.status = .found reason)
    (hfit : (spec_response_head E req reason).length ≤ E.L.BUFFER_LEN - 1) :
    response_head E req
      = (spec_response_head E req reason, (spec_response_head E req reason).length) := by
  unfold response_head
  simp only [hreason, status_text]
  unfold spec_response_head at hfit ⊢
  simp only [List.length_append] at hfit
  rw [safe_str_fits E.L _ [] 0 rfl (by simp only [List.length_nil, List.length_append]; omega)]
  dsimp only
  rw [safe_str_fits E.L req.response _ _ rfl
    (by simp only [List.nil_append, List.length_append]; omega)]
  dsimp only
  rw [safe_str_fits E.L req.res_type _ _ rfl
    (by simp only [List.nil_append, List.length_append]; omega)]
  dsimp only
  rw [safe_str_fits E.L "\r\n".toList _ _ rfl
    (by simp only [List.nil_append, List.length_append]; omega)]
  dsimp only
  by_cases hw : req.wrap_html = true ∧ strstr req.res_type "text/html".toList = true
  · have hb : (req.wrap_html && strstr req.res_type "text/html".toList) = true := by
      rw [hw.1, hw.2]
      rfl
    rw [if_pos hw] at hfit ⊢
    rw [if_pos hb]
    rw [safe_str_fits E.L _ _ _ rfl
      (by simp only [List.nil_append, List.length_append, html_opening] at hfit ⊢; omega)]
    simp [html_opening]
  · have hb : (req.wrap_html && strstr req.res_type "text/html".toList) = false := by
      cases h1 : req.wrap_html <;> cases h2 : strstr req.res_type "text/html".toList <;>
        simp_all
    rw [if_neg hw, if_neg (by rw [hb]; exact Bool.false_ne_true)]
    simp

theorem send_http_response_first (E : Env) (d : DESC) (req : http_request)
    (reason : List Char) (c : Option (List Char)) (hd : d.http = some req)
    (hns : req.state ≠ HTTP_REQUEST_STARTED)
    (hreason : get_http_status req.status = .found reason)
    (hfit : (spec_response_head E req reason ++ c.getD []).length ≤ E.L.BUFFER_LEN - 1) :
    (send_http_response E d c).log
      = d.log ++ [effect.queue_write (spec_response_head E req reason ++ c.getD []),
          effect.queue_eol] := by
  have hhead := response_head_fits E { req with state := HTTP_REQUEST_STARTED } reason
    hreason (by
      have : spec_response_head E { req with state := HTTP_REQUEST_STARTED } reason
          = spec_response_head E req reason := rfl
      rw [this]
      rw [List.length_append] at hfit
      omega)
  have hsame : spec_response_head E { req with state := HTTP_REQUEST_STARTED } reason
      = spec_response_head E req reason := rfl
  rw [hsame] at hhead
  unfold send_http_response
  simp only [hd, ne_eq, hns, not_false_eq_true, if_true, hhead]
  rcases c with _ | _ | ⟨x, xs⟩
  · simp [queue_eol, queue_write, terminate]
  · simp [queue_eol, queue_write, terminate]
  · simp only [Option.getD_some] at hfit ⊢
    rw [safe_str_fits E.L (x :: xs) _ _ rfl (by
      rw [List.length_append] at hfit
      omega)]
    simp [queue_eol, queue_write, terminate]

theorem send_http_response_again (E : Env) (d : DESC) (req : http_request)
    (c : Option (List Char)) (hd : d.http = some req)
    (hs : req.state = HTTP_REQUEST_STARTED)
    (hfit : (c.getD []).length ≤ E.L.BUFFER_LEN - 1) :
    (send_http_response E d c).log
      = d.log ++ [effect.queue_write (c.getD []), effect.queue_eol] := by
  unfold send_http_response
  simp only [hd, hs, ne_eq, not_true_eq_false, if_false]
  rcases c with _ | _ | ⟨x, xs⟩
  · simp [queue_eol, queue_write, terminate]
  · simp [queue_eol, queue_write, terminate]
  · simp only [Option.getD_some] at hfit ⊢
    rw [safe_str_fits E.L (x :: xs) [] 0 rfl (by simpa using hfit)]
    simp [queue_eol, queue_write, terminate]

/-- C14 (as the code has it): two calls of `send_http_response` on a request
whose response has not started, with a status found in the table and texts
that fit the buffer.  The first sets the state to STARTED and hands to
`queue_write` one status line with the code and its reason phrase, the extra
response headers, the content-type header, a blank line, the opening of the
HTML page if and only if wrapping is on and the content-type header contains
`text/html`, and then the content; the second hands to `queue_write` only its
content, which is nothing when the content is empty or absent.  Each call
then ends the line with `queue_eol`. -/
theorem respond_twice (E : Env) (d : DESC) (req : http_request) (reason : List Char)
    (c1 c2 : Option (List Char)) (hd : d.http = some req)
    (hns : req.state ≠ HTTP_REQUEST_STARTED)
    (hreason : get_http_status req.status = .found reason)
    (hfit1 : (spec_response_head E req reason ++ c1.getD []).length ≤ E.L.BUFFER_LEN - 1)
    (hfit2 : (c2.getD []).length ≤ E.L.BUFFER_LEN - 1) :
    request_state (send_http_response E d c1) = HTTP_REQUEST_STARTED ∧
      (send_http_response E d c1).log
        = d.log ++ [effect.queue_write (spec_response_head E req reason ++ c1.getD []),
            effect.queue_eol] ∧
      request_state (send_http_response E (send_http_response E d c1) c2)
        = HTTP_REQUEST_STARTED ∧
      (send_http_response E (send_http_response E d c1) c2).log
        = (send_http_response E d c1).log
          ++ [effect.queue_write (c2.getD []), effect.queue_eol] := by
  obtain ⟨h1, _⟩ := send_http_response_spec E d req c1 hd
  obtain ⟨h2, _⟩ := send_http_response_spec E (send_http_response E d c1) _ c2 h1
  exact ⟨request_state_of_http h1,
    send_http_response_first E d req reason c1 hd hns hreason hfit1,
    request_state_of_http h2,
    send_http_response_again E _ _ c2 h1 rfl hfit2⟩

theorem respond_twice_witness :
    request_state (send_http_response example_env example_get_desc (some "Hello".toList))
        = HTTP_REQUEST_STARTED ∧
      (send_http_response example_env example_get_desc (some "Hello".toList)).log
        = example_get_desc.log
          ++ [effect.queue_write (spec_response_head example_env example_get_request
                "OK".toList ++ (some "Hello".toList).getD []),
              effect.queue_eol] ∧
      request_state (send_http_response example_env
          (send_http_response example_env example_get_desc (some "Hello".toList))
          (some " world".toList)) = HTTP_REQUEST_STARTED ∧
      (send_http_response example_env
          (send_http_response example_env example_get_desc (some "Hello".toList))
          (some " world".toList)).log
        = (send_http_response example_env example_get_desc (some "Hello".toList)).log
          ++ [effect.queue_write ((some " world".toList).getD []), effect.queue_eol] :=
  respond_twice example_env example_get_desc example_get_request "OK".toList
    (some "Hello".toList) (some " world".toList) rfl (by decide) (by decide) (by decide)
    (by decide)

/-- C14 as stated fails: a second call of `send_http_response` with no content
still calls `queue_eol` after its empty `queue_write`, so an end of line goes
to the connection. -/
theorem second_respond_ends_a_line :
    (send_http_response example_env
        (send_http_response example_env example_get_desc (some "Hello".toList)) none).log
      = (send_http_response example_env example_get_desc (some "Hello".toList)).log
        ++ [effect.queue_write [], effect.queue_eol] ∧
      (send_http_response example_env example_get_desc (some "Hello".toList)).log
        = [effect.queue_write
            ("HTTP/1.1 200 OK\r\nContent-Type: text/plain\r\n\r\nHello".toList),
           effect.queue_eol] := by
  decide

/-! ## Time-outs -/

theorem status_page_starts (status : Nat) (code route content : List Char) :
    ("HTTP/1.1 ".toList ++ fmt_uint status ++ " ".toList ++ code ++ "\r\n".toList)
      <+: status_page status code route content := by
  unfold status_page
  simp only [List.append_assoc]
  repeat apply (List.prefix_append_right_inj _).mpr
  exact List.prefix_append _ _

/-- C16: a timer firing on a request in state HEADERS with no header and no
body stored sets the state to DONE and makes one `queue_event` call for the
route of the request, with empty headers and content, whether or not a
handler is bound to the route.  When none is bound, it then writes the
response that begins with the status line of 404 Not Found and closes the
connection with `close_http_request`, and no timeout is armed; when one is
bound, the only further calls are those that re-arm the timer with a delay
of 1. -/
theorem timeout_in_headers (E : Env) (d : DESC) (req : http_request)
    (hd : d.http = some req) (hst : req.state = HTTP_REQUEST_HEADERS)
    (hh : req.headers = []) (hc : req.content = []) :
    request_state (http_timeout_wrapper E d) = HTTP_REQUEST_DONE ∧
      ∃ e : http_event,
        e.route = req.route ∧ e.headers = [] ∧ e.content = [] ∧
        dispatches (http_timeout_wrapper E d) = dispatches d ++ [e] ∧
        (E.handler_bound req.route = false →
          (http_timeout_wrapper E d).log
            = d.log ++ [effect.queue_event e false,
                effect.queue_write ((status_page 404 "Not Found".toList req.route
                  "File not found.".toList).take (E.L.BUFFER_LEN - 1)),
                effect.queue_eol] ++ close_effects E req ∧
          "HTTP/1.1 404 Not Found\r\n".toList
            <+: status_page 404 "Not Found".toList req.route "File not found.".toList ∧
          rearms (http_timeout_wrapper E d) = rearms d ∧
          effect.boot_desc ∈ (http_timeout_wrapper E d).log) ∧
        (E.handler_bound req.route = true →
          (http_timeout_wrapper E d).log
            = d.log ++ [effect.queue_event e true]
              ++ (if req.timer.isSome then [effect.sq_cancel] else [])
              ++ [effect.sq_register_in 1]) := by
  have hlt : req.state < HTTP_REQUEST_DONE := by rw [hst]; decide
  obtain ⟨e, he, h1, _, _, _, h5, h6, _⟩ := run_http_request_some E
    { d with http := some { req with state := HTTP_REQUEST_DONE } }
    { req with state := HTTP_REQUEST_DONE } rfl
  have hroute : ({ req with state := HTTP_REQUEST_DONE } : http_request).route = req.route :=
    rfl
  rw [hroute] at he
  have hw := timeout_before_done E d req hd hlt
  rw [he] at hw
  dsimp only at hw
  refine ⟨?_, e, h1, h5.trans hh, h6.trans hc, ?_, ?_, ?_⟩
  · rw [hw]
    split
    · rw [request_state_reset_http_timeout]
      rfl
    · rw [request_state_close_http_request, request_state_send_http_status]
      rfl
  · rw [hw]
    split
    · rw [dispatches_reset_http_timeout]
      exact dispatches_log_append_event _ e _
    · rw [dispatches_close_http_request, dispatches_send_http_status]
      exact dispatches_log_append_event _ e _
  · intro hnb
    rw [hnb] at hw
    simp only [Bool.false_eq_true, if_false] at hw
    have hlog : (http_timeout_wrapper E d).log
        = d.log ++ [effect.queue_event e false,
            effect.queue_write ((status_page 404 "Not Found".toList req.route
              "File not found.".toList).take (E.L.BUFFER_LEN - 1)),
            effect.queue_eol] ++ close_effects E req := by
      rw [hw, close_http_request_log E _ { req with state := HTTP_REQUEST_DONE }
          (by rw [send_http_status_http]),
        send_http_status_log E _ { req with state := HTTP_REQUEST_DONE } 404
          "Not Found".toList _ rfl (by decide)]
      simp [close_effects]
    refine ⟨hlog, ?_, ?_, ?_⟩
    · have e1 : "HTTP/1.1 404 Not Found\r\n".toList
          = "HTTP/1.1 ".toList ++ fmt_uint 404 ++ " ".toList ++ "Not Found".toList
            ++ "\r\n".toList := by decide
      rw [e1]
      exact status_page_starts _ _ _ _
    · unfold rearms
      rw [hlog, List.append_assoc]
      apply rearms_append
      intro t
      simp only [List.mem_append, List.mem_cons, List.mem_singleton, List.not_mem_nil,
        not_or]
      exact ⟨⟨by simp, by simp, by simp, by simp⟩, close_effects_no_rearm E req t⟩
    · rw [hlog]
      simp [close_effects]
  · intro hb
    rw [hb] at hw
    simp only [if_true] at hw
    rw [hw, reset_http_timeout_log _ { req with state := HTTP_REQUEST_DONE } 1 rfl]

theorem timeout_in_headers_witness :
    request_state (http_timeout_wrapper example_env_unbound example_get_desc)
        = HTTP_REQUEST_DONE ∧
      request_state (http_timeout_wrapper example_env example_get_desc)
        = HTTP_REQUEST_DONE ∧
      ∃ e : http_event, e.headers = [] ∧ e.content = [] ∧
        dispatches (http_timeout_wrapper example_env_unbound example_get_desc)
          = dispatches example_get_desc ++ [e] ∧
        rearms (http_timeout_wrapper example_env_unbound example_get_desc)
          = rearms example_get_desc ∧
        effect.boot_desc ∈ (http_timeout_wrapper example_env_unbound example_get_desc).log :=
  ⟨(timeout_in_headers example_env_unbound example_get_desc example_get_request
      rfl (by decide) (by decide) (by decide)).1,
    (timeout_in_headers example_env example_get_desc example_get_request
      rfl (by decide) (by decide) (by decide)).1,
    (timeout_in_headers example_env_unbound example_get_desc example_get_request
      rfl (by decide) (by decide) (by decide)).2.elim
      (fun e he => ⟨e, he.2.1, he.2.2.1, he.2.2.2.1, (he.2.2.2.2.1 rfl).2.2.1,
        (he.2.2.2.2.1 rfl).2.2.2⟩)⟩

/-- With a handler bound to the route, the timer firing in state HEADERS
dispatches the request and re-arms the timer with a delay of 1. -/
theorem timeout_in_headers_bound :
    request_state (http_timeout_wrapper example_env example_get_desc) = HTTP_REQUEST_DONE ∧
      (dispatches (http_timeout_wrapper example_env example_get_desc)).length
        = (dispatches example_get_desc).length + 1 ∧
      rearms (http_timeout_wrapper example_env example_get_desc)
        = rearms example_get_desc ++ [1] := by
  decide

/-- C17: a timer firing on a request in state DONE writes the response that
begins with the status line of 408 Request Timeout and then closes the
connection with `close_http_request`; on a request in state STARTED it only
closes the connection.  In both cases no `queue_event` call is made, no
timeout is armed and the state stays as it is. -/
theorem timeout_after_dispatch (E : Env) (d : DESC) (req : http_request)
    (hd : d.http = some req)
    (hst : req.state = HTTP_REQUEST_DONE ∨ req.state = HTTP_REQUEST_STARTED) :
    (req.state = HTTP_REQUEST_DONE →
        (http_timeout_wrapper E d).log
          = d.log ++ [effect.queue_write ((status_page 408 "Request Timeout".toList req.route
                "Unable to complete request.".toList).take (E.L.BUFFER_LEN - 1)),
              effect.queue_eol] ++ close_effects E req) ∧
      "HTTP/1.1 408 Request Timeout\r\n".toList
        <+: status_page 408 "Request Timeout".toList req.route
          "Unable to complete request.".toList ∧
      (req.state = HTTP_REQUEST_STARTED →
        (http_timeout_wrapper E d).log = d.log ++ close_effects E req) ∧
      dispatches (http_timeout_wrapper E d) = dispatches d ∧
      rearms (http_timeout_wrapper E d) = rearms d ∧
      effect.boot_desc ∈ (http_timeout_wrapper E d).log ∧
      request_state (http_timeout_wrapper E d) = request_state d := by
  have hge : ¬ req.state < HTTP_REQUEST_DONE := by
    rcases hst with h | h <;> rw [h] <;> decide
  have hdone : req.state = HTTP_REQUEST_DONE →
      (http_timeout_wrapper E d).log
        = d.log ++ [effect.queue_write ((status_page 408 "Request Timeout".toList req.route
              "Unable to complete request.".toList).take (E.L.BUFFER_LEN - 1)),
            effect.queue_eol] ++ close_effects E req := by
    intro h
    have hne : req.state ≠ HTTP_REQUEST_STARTED := by rw [h]; decide
    rw [timeout_after_done E d req hd hge, if_pos hne,
      close_http_request_log E _ req (by rw [send_http_status_http]; exact hd),
      send_http_status_log E d req 408 "Request Timeout".toList _ hd (by decide)]
  have hstarted : req.state = HTTP_REQUEST_STARTED →
      (http_timeout_wrapper E d).log = d.log ++ close_effects E req := by
    intro h
    rw [timeout_after_done E d req hd hge, if_neg (by simp [h]),
      close_http_request_log E d req hd]
  refine ⟨hdone, ?_, hstarted, ?_, ?_, ?_, ?_⟩
  · have e1 : "HTTP/1.1 408 Request Timeout\r\n".toList
        = "HTTP/1.1 ".toList ++ fmt_uint 408 ++ " ".toList ++ "Request Timeout".toList
          ++ "\r\n".toList := by decide
    rw [e1]
    exact status_page_starts _ _ _ _
  · rw [timeout_after_done E d req hd hge, dispatches_close_http_request]
    split
    · exact dispatches_send_http_status _ _ _ _
    · rfl
  · unfold rearms
    rcases hst with h | h
    · rw [hdone h, List.append_assoc]
      apply rearms_append
      intro t
      simp only [List.mem_append, List.mem_cons, List.mem_singleton, List.not_mem_nil,
        not_or]
      exact ⟨⟨by simp, by simp, by simp⟩, close_effects_no_rearm E req t⟩
    · rw [hstarted h]
      exact rearms_append d _ (close_effects_no_rearm E req)
  · rcases hst with h | h
    · rw [hdone h]
      simp [close_effects]
    · rw [hstarted h]
      simp [close_effects]
  · rw [timeout_after_done E d req hd hge, request_state_close_http_request]
    split
    · exact request_state_send_http_status _ _ _ _
    · rfl

theorem timeout_after_dispatch_witness :
    dispatches (http_timeout_wrapper example_env
        (process_http_helper example_env example_get_desc []).2)
        = dispatches (process_http_helper example_env example_get_desc []).2 ∧
      rearms (http_timeout_wrapper example_env
        (process_http_helper example_env example_get_desc []).2)
        = rearms (process_http_helper example_env example_get_desc []).2 :=
  ⟨(timeout_after_dispatch example_env
      (process_http_helper example_env example_get_desc []).2
      { example_get_request with state := HTTP_REQUEST_DONE } (by decide)
      (Or.inl rfl)).2.2.2.1,
    (timeout_after_dispatch example_env
      (process_http_helper example_env example_get_desc []).2
      { example_get_request with state := HTTP_REQUEST_DONE } (by decide)
      (Or.inl rfl)).2.2.2.2.1⟩

/-! ## Failures on the first line -/

theorem parse_http_query_reject_route (L : Limits) (req : http_request) (line : List Char)
    (h : (parse_http_query L req line).1 = false) :
    (parse_http_query L req line).2.route = req.route := by
  unfold parse_http_query at h ⊢
  by_cases hu : parse_http_method line = .UNKNOWN
  · simp only [hu, if_true]
  · simp only [hu, if_false] at h ⊢
    cases h1 : strchr line ' ' with
    | none => rfl
    | some pc =>
      obtain ⟨pre, c⟩ := pc
      simp only [h1] at h ⊢
      cases h2 : strchr (c.dropWhile isspace) ' ' with
      | none => rfl
      | some tv =>
        obtain ⟨target, version⟩ := tv
        simp only [h2] at h ⊢
        by_cases hlen : target.length ≥ L.HTTP_STR_LEN
        · simp only [hlen, if_true]
        · simp only [hlen, if_false] at h ⊢
          by_cases hv : (!strncmp_eq version "HTTP/1.1".toList 8) = true
          · simp only [hv, if_true]
          · simp only [hv, if_false] at h
            exact absurd h (by simp)

theorem do_http_command_rejected (E : Env) (d : DESC) (command : List Char)
    (hattr : E.http_attr = true) (hmalloc : E.malloc_ok = true)
    (hrej : (parse_http_query E.L http_request.zero command).1 = false) :
    do_http_command E d command
      = (false, send_http_status E
          { d with http := some (parse_http_query E.L http_request.zero command).2 } 400
          "Invalid request method.".toList) := by
  unfold do_http_command
  simp only [hattr, hmalloc, Bool.not_true, Bool.false_eq_true, if_false]
  cases hp : parse_http_query E.L http_request.zero command with
  | mk ok req =>
    rw [hp] at hrej
    simp only at hrej
    subst hrej
    rfl

/-- C18: when the HTTP handler object exists and memory is available, every
first line that `parse_http_query` refuses makes `do_http_command` return 0
after writing the response that begins with the status line of 400 Bad
Request; no timeout is armed and no `queue_event` call is made. -/
theorem malformed_line_gets_400 (E : Env) (d : DESC) (command : List Char)
    (hattr : E.http_attr = true) (hmalloc : E.malloc_ok = true)
    (hrej : (parse_http_query E.L http_request.zero command).1 = false) :
    (do_http_command E d command).1 = false ∧
      (do_http_command E d command).2.log
        = d.log ++ [effect.queue_write ((status_page 400 "Bad Request".toList []
              "Invalid request method.".toList).take (E.L.BUFFER_LEN - 1)),
            effect.queue_eol] ∧
      "HTTP/1.1 400 Bad Request\r\n".toList
        <+: status_page 400 "Bad Request".toList [] "Invalid request method.".toList ∧
      rearms (do_http_command E d command).2 = rearms d ∧
      dispatches (do_http_command E d command).2 = dispatches d := by
  have hroute := parse_http_query_reject_route E.L http_request.zero command hrej
  have hlog : (do_http_command E d command).2.log
      = d.log ++ [effect.queue_write ((status_page 400 "Bad Request".toList []
            "Invalid request method.".toList).take (E.L.BUFFER_LEN - 1)),
          effect.queue_eol] := by
    rw [do_http_command_rejected E d command hattr hmalloc hrej]
    dsimp only
    rw [send_http_status_log E _ _ 400 "Bad Request".toList _ rfl (by decide), hroute]
    rfl
  refine ⟨?_, hlog, ?_, ?_, ?_⟩
  · rw [do_http_command_rejected E d command hattr hmalloc hrej]
  · decide
  · unfold rearms
    rw [hlog]
    apply rearms_append
    intro t
    simp
  · rw [do_http_command_rejected E d command hattr hmalloc hrej]
    exact dispatches_send_http_status _ _ _ _

theorem malformed_line_gets_400_witness :
    (do_http_command example_env example_desc "GET /news HTTP/1.0".toList).1 = false ∧
      (do_http_command example_env example_desc "GET /news HTTP/1.0".toList).2.log
        = example_desc.log ++ [effect.queue_write ((status_page 400 "Bad Request".toList []
              "Invalid request method.".toList).take (example_env.L.BUFFER_LEN - 1)),
            effect.queue_eol] :=
  ⟨(malformed_line_gets_400 example_env example_desc "GET /news HTTP/1.0".toList rfl rfl
      (by decide)).1,
    (malformed_line_gets_400 example_env example_desc "GET /news HTTP/1.0".toList rfl rfl
      (by decide)).2.1⟩

theorem do_http_command_no_memory (E : Env) (d : DESC) (command : List Char)
    (hattr : E.http_attr = true) (hmalloc : E.malloc_ok = false) :
    do_http_command E d command = (false, { d with http := none }) := by
  unfold do_http_command
  simp only [hattr, hmalloc, Bool.not_true, Bool.false_eq_true, if_false, Bool.not_false,
    if_true]
  rfl

/-- C19 fails on the code: when `mush_malloc` returns no memory,
`do_http_command` has just stored the null pointer in `d->http`, so the
`send_http_status` call for code 500 returns at its first test and nothing is
written: the call returns 0 and the record of calls is unchanged. -/
theorem allocation_failure_writes_nothing :
    example_env_no_memory.http_attr = true ∧ example_env_no_memory.malloc_ok = false ∧
      do_http_command example_env_no_memory example_desc "GET /news HTTP/1.1".toList
        = (false, example_desc) ∧
      writes (do_http_command example_env_no_memory example_desc
        "GET /news HTTP/1.1".toList).2 = [] := by
  decide

/-! ## The status table -/

theorem status_codes_increasing :
    (http_status_codes.map Prod.fst).Pairwise (fun a b => a < b) := by
  decide

theorem status_codes_nonzero : ∀ p ∈ http_status_codes, p.1 ≠ 0 := by
  decide

theorem status_scan_found (tbl : List (Nat × List Char)) (code : Nat) (str : List Char)
    (hz : ∀ p ∈ tbl, p.1 ≠ 0) (hnd : (tbl.map Prod.fst).Nodup) (hmem : (code, str) ∈ tbl) :
    status_scan tbl code = .found str := by
  induction tbl with
  | nil => simp at hmem
  | cons p rest ih =>
    obtain ⟨c, s⟩ := p
    have hc : c ≠ 0 := hz (c, s) (by simp)
    simp only [List.map_cons, List.nodup_cons] at hnd
    unfold status_scan
    simp only [hc, if_false]
    rcases List.mem_cons.mp hmem with h | h
    · cases h
      simp
    · have hne : c ≠ code := by
        rintro rfl
        exact hnd.1 (List.mem_map.mpr ⟨(c, str), h, rfl⟩)
      simp only [hne, if_false]
      exact ih (fun q hq => hz q (by simp [hq])) hnd.2 h

theorem status_scan_absent (tbl : List (Nat × List Char)) (code : Nat)
    (hz : ∀ p ∈ tbl, p.1 ≠ 0) (hn : code ∉ tbl.map Prod.fst) :
    status_scan tbl code = .overrun := by
  induction tbl with
  | nil => rfl
  | cons p rest ih =>
    obtain ⟨c, s⟩ := p
    have hc : c ≠ 0 := hz (c, s) (by simp)
    simp only [List.map_cons, List.mem_cons, not_or] at hn
    unfold status_scan
    simp only [hc, if_false, Ne.symm hn.1]
    exact ih (fun q hq => hz q (by simp [hq])) hn.2

/-- The lookup on the table as it is: a code of the table gives its phrase,
and for every other code the scan leaves the array. -/
theorem get_http_status_cases (code : Nat) :
    (∀ str, (code, str) ∈ http_status_codes → get_http_status code = .found str) ∧
      (code ∉ http_status_codes.map Prod.fst → get_http_status code = .overrun) := by
  constructor
  · intro str h
    exact status_scan_found _ _ _ status_codes_nonzero
      (status_codes_increasing.imp (fun h => Nat.ne_of_lt h)) h
  · intro h
    exact status_scan_absent _ _ status_codes_nonzero h

/-- C20 fails on the code for the codes that are not in the table: the array
`http_status_codes` has no last entry with code 0, so for 0, 199, 299 and 600
the loop of `get_http_status` reads past the last element instead of
returning a null pointer.  The codes of the table are strictly increasing
and the codes that are listed give their phrases. -/
theorem status_lookup_leaves_table :
    get_http_status 0 = .overrun ∧ get_http_status 199 = .overrun ∧
      get_http_status 299 = .overrun ∧ get_http_status 600 = .overrun ∧
      (http_status_codes.map Prod.fst).Pairwise (fun a b => a < b) ∧
      get_http_status 200 = .found "OK".toList ∧
      get_http_status 400 = .found "Bad Request".toList ∧
      get_http_status 404 = .found "Not Found".toList ∧
      get_http_status 408 = .found "Request Timeout".toList ∧
      get_http_status 500 = .found "Internal Server Error".toList := by
  decide

/-! ## The status switch of `@respond` -/

theorem respond_content_type_fields (E : Env) (sw : respond_switches) (req : http_request) :
    (respond_content_type E sw req).1.status = req.status ∧
      (respond_content_type E sw req).1.state = req.state := by
  unfold respond_content_type
  split
  · exact ⟨rfl, rfl⟩
  · split
    · exact ⟨rfl, rfl⟩
    · split <;> exact ⟨rfl, rfl⟩

theorem status_scan_ne_null (tbl : List (Nat × List Char)) (code : Nat)
    (hz : ∀ p ∈ tbl, p.1 ≠ 0) : status_scan tbl code ≠ .null := by
  induction tbl with
  | nil => simp [status_scan]
  | cons p rest ih =>
    obtain ⟨c, s⟩ := p
    have hc : c ≠ 0 := hz (c, s) (by simp)
    unfold status_scan
    simp only [hc, if_false]
    split
    · simp
    · exact ih (fun q hq => hz q (by simp [hq]))

/-- The scan of `get_http_status` never ends at an entry with code 0: the
table has none. -/
theorem get_http_status_ne_null (code : Nat) : get_http_status code ≠ .null :=
  status_scan_ne_null _ _ status_codes_nonzero

theorem get_http_status_found_iff (code : Nat) :
    (∃ p, get_http_status code = .found p) ↔ code ∈ http_status_codes.map Prod.fst := by
  constructor
  · rintro ⟨p, hp⟩
    by_contra hn
    rw [(get_http_status_cases code).2 hn] at hp
    cases hp
  · intro h
    obtain ⟨⟨c, str⟩, hmem, hc⟩ := List.mem_map.mp h
    simp only at hc
    subst hc
    exact ⟨str, (get_http_status_cases c).1 str hmem⟩

theorem cmd_respond_status_branch (E : Env) (sw : respond_switches)
    (arg_left arg_right : List Char) (d : DESC) (req : http_request)
    (hsw : sw.status = true) (htype : sw.type = false) (hheader : sw.header = false)
    (hd : d.http = some req) (hleft : arg_left ≠ []) (hright : arg_right ≠ []) :
    (cmd_respond E sw arg_left arg_right (some d) true = none ∧
        get_http_status (parse_uint32 arg_right) = .overrun) ∨
      ∃ p r, cmd_respond E sw arg_left arg_right (some d) true = some r ∧
        get_http_status (parse_uint32 arg_right) = .found p ∧
        "Invalid HTTP status code.".toList ∉ r.2 := by
  have hd1 := reset_http_timeout_http d HTTP_TIMEOUT
  rw [hd, Option.map_some'] at hd1
  unfold cmd_respond
  simp only [hleft, if_false, hd, reduceCtorEq, or_self, hd1, htype, hheader, hsw,
    Bool.false_eq_true, if_true, hright]
  have hsaid : "Invalid HTTP status code.".toList
      ∉ (respond_content_type E sw { req with timer := some HTTP_TIMEOUT }).2.1 := by
    unfold respond_content_type
    split
    · simp
    · split
      · simp
      · split
        · simp
        · simp
  generalize respond_content_type E sw { req with timer := some HTTP_TIMEOUT } = r at hsaid
  obtain ⟨r1, said, cs⟩ := r
  simp only at hsaid ⊢
  cases hl : get_http_status (parse_uint32 arg_right) with
  | found p =>
    refine Or.inr ⟨p, ?_⟩
    dsimp only
    have hne : "Invalid HTTP status code.".toList
        ∉ said ++ ["Status code set to ".toList ++ fmt_uint (parse_uint32 arg_right)
          ++ " ".toList ++ p ++ ".".toList] := by
      simp only [List.mem_append, List.mem_singleton, not_or]
      refine ⟨hsaid, ?_⟩
      intro h
      have := congrArg List.head? h
      simp at this
    split
    · exact ⟨_, rfl, rfl, hne⟩
    · exact ⟨_, rfl, rfl, hne⟩
  | null => exact absurd hl (get_http_status_ne_null _)
  | overrun => exact Or.inl ⟨rfl, rfl⟩

/-- The status switch of `@respond` with a code that is not in the table (and
neither the type nor the header switch, which are handled first), on a
descriptor with a request: the lookup reads past the end of the table, and
`cmd_respond` gives no result. -/
theorem cmd_respond_unlisted (E : Env) (sw : respond_switches)
    (arg_left arg_right : List Char) (d : DESC) (req : http_request)
    (hsw : sw.status = true) (htype : sw.type = false) (hheader : sw.header = false)
    (hd : d.http = some req) (hleft : arg_left ≠ []) (hright : arg_right ≠ [])
    (hcode : parse_uint32 arg_right ∉ http_status_codes.map Prod.fst) :
    cmd_respond E sw arg_left arg_right (some d) true = none := by
  rcases cmd_respond_status_branch E sw arg_left arg_right d req hsw htype hheader hd hleft
    hright with h | ⟨p, _, _, hp, _⟩
  · exact h.1
  · exact absurd ((get_http_status_found_iff _).mp ⟨p, hp⟩) hcode

/-- No use of `@respond` that gives a result tells the executor that the
status code is invalid: the message is sent only after a lookup that returned
a null pointer, and the scan of the table as it is never returns one. -/
theorem status_never_rejected (E : Env) (sw : respond_switches)
    (arg_left arg_right : List Char) (d : DESC) (req : http_request)
    (hsw : sw.status = true) (htype : sw.type = false) (hheader : sw.header = false)
    (hd : d.http = some req) (hleft : arg_left ≠ []) (hright : arg_right ≠ [])
    (r : Option DESC × List (List Char))
    (hr : cmd_respond E sw arg_left arg_right (some d) true = some r) :
    "Invalid HTTP status code.".toList ∉ r.2 := by
  rcases cmd_respond_status_branch E sw arg_left arg_right d req hsw htype hheader hd hleft
    hright with h | ⟨p, r2, h2, _, hn⟩
  · rw [h.1] at hr
    cases hr
  · rw [h2] at hr
    cases hr
    exact hn

/-- C15 fails on the code: the table has no entry with code 0, so the scan
for a code that is not listed never returns the null pointer that
`cmd_respond` tests for; it reads past the end of the table.  For
`@respond/status 7=600` and `@respond/status 7=0` on a request the command
therefore has no determined outcome, where the claim has the code rejected
and the status left as it is; for the listed code 404 the status is set and no
rejection is reported. -/
theorem unlisted_status_not_rejected :
    (∀ code, get_http_status code ≠ status_lookup.null) ∧
      get_http_status (parse_uint32 "600".toList) = .overrun ∧
      cmd_respond example_env { status := true } "7".toList "600".toList
        (some example_get_desc) true = none ∧
      cmd_respond example_env { status := true } "7".toList "0".toList
        (some example_get_desc) true = none ∧
      (cmd_respond example_env { status := true } "7".toList "404".toList
        (some example_get_desc) true).map
          (fun r => (r.1.map (fun d => d.http.map (fun q => q.status)), r.2))
        = some (some (some 404), ["Status code set to 404 Not Found.".toList]) :=
  ⟨get_http_status_ne_null, by decide, by decide, by decide, by decide⟩

/-! ## Closing the connection -/

/-- C21 (as the code has it): `close_http_request` writes the closing markup of
the HTML page exactly when wrapping is on and the content-type header contains
`text/html`, whatever the state of the request; a pending timer is cancelled
first, the termination of the connection comes last, and the request is left
without a timer. -/
theorem closing_wrapper_follows_flags (E : Env) (d : DESC) (req : http_request)
    (hd : d.http = some req) (hcap : 17 ≤ E.L.BUFFER_LEN) :
    (close_http_request E d).log
        = d.log ++ (if req.timer.isSome then [effect.sq_cancel] else [])
          ++ (if req.wrap_html = true ∧ strstr req.res_type "text/html".toList = true then
                [effect.queue_write "</BODY></HTML>\r\n".toList, effect.queue_eol]
              else [])
          ++ [effect.boot_desc] ∧
      writes (close_http_request E d)
        = writes d ++ (if req.wrap_html = true ∧ strstr req.res_type "text/html".toList = true
            then ["</BODY></HTML>\r\n".toList] else []) ∧
      (close_http_request E d).http = some { req with timer := none } := by
  have htake : "</BODY></HTML>\r\n".toList.take (E.L.BUFFER_LEN - 1)
      = "</BODY></HTML>\r\n".toList := by
    apply List.take_of_length_le
    have : "</BODY></HTML>\r\n".toList.length = 16 := by decide
    omega
  have hlog : (close_http_request E d).log
      = d.log ++ (if req.timer.isSome then [effect.sq_cancel] else [])
        ++ (if req.wrap_html = true ∧ strstr req.res_type "text/html".toList = true then
              [effect.queue_write "</BODY></HTML>\r\n".toList, effect.queue_eol]
            else [])
        ++ [effect.boot_desc] := by
    rw [close_http_request_log E d req hd]
    unfold close_effects
    rw [htake]
    by_cases hw : req.wrap_html = true ∧ strstr req.res_type "text/html".toList = true
    · have hb : (req.wrap_html && strstr req.res_type "text/html".toList) = true := by
        rw [hw.1, hw.2]
        rfl
      rw [if_pos hw, if_pos hb]
      simp only [List.append_assoc]
    · have hb : ¬ (req.wrap_html && strstr req.res_type "text/html".toList) = true := by
        intro h
        exact hw (by simpa using h)
      rw [if_neg hw, if_neg hb]
      simp only [List.append_assoc]
  refine ⟨hlog, ?_, ?_⟩
  · unfold writes
    rw [hlog]
    by_cases hw : req.wrap_html = true ∧ strstr req.res_type "text/html".toList = true
    · rw [if_pos hw, if_pos hw]
      cases ht : req.timer.isSome <;> simp [List.filterMap_append]
    · rw [if_neg hw, if_neg hw]
      cases ht : req.timer.isSome <;> simp [List.filterMap_append]
  · rw [close_http_request_http, hd, Option.map_some']

theorem closing_wrapper_follows_flags_witness :
    writes (close_http_request example_env example_get_desc)
      = writes example_get_desc
        ++ (if example_get_request.wrap_html = true ∧
              strstr example_get_request.res_type "text/html".toList = true
            then ["</BODY></HTML>\r\n".toList] else []) :=
  (closing_wrapper_follows_flags example_env example_get_desc example_get_request rfl
    (by decide)).2.1

/-- C21 as stated fails: a request that is in state DONE, with no response
started, on which `@respond/html/wrap/status` has set the content type and
the wrapping, gets the closing markup written when it is closed. -/
theorem wrapper_closed_without_response :
    request_state example_wrapped_desc = HTTP_REQUEST_DONE ∧
      writes example_wrapped_desc = [] ∧
      writes (close_http_request example_env example_wrapped_desc)
        = ["</BODY></HTML>\r\n".toList] := by
  decide

/-! ## Lines ended by a bare line feed -/

theorem split_lines_delivers (E : Env) (got : Nat) (hgot : got < E.MAX_COMMAND_LEN)
    (chunk : List Char) :
    ∀ (n : Nat), chunk.length ≤ n → ∀ (d : DESC) (cur : List Char),
      split_lines E got d cur chunk = feed_lines E d (delivered_lines cur chunk) := by
  intro n
  induction n generalizing chunk with
  | zero =>
    intro h d cur
    have : chunk = [] := List.length_eq_zero.mp (Nat.le_zero.mp h)
    subst this
    unfold split_lines delivered_lines
    rw [cbuf_write_fits E d (got + 1) (by omega)]
    by_cases hc : cur = []
    · simp [hc, feed_lines]
    · simp only [ne_eq, hc, not_false_eq_true, if_true, feed_lines]
      cases process_http_helper E d (cstr cur) with
      | mk ok d2 => cases ok <;> rfl
  | succ k ih =>
    intro h d cur
    match chunk, h with
    | [], _ =>
      unfold split_lines delivered_lines
      rw [cbuf_write_fits E d (got + 1) (by omega)]
      by_cases hc : cur = []
      · simp [hc, feed_lines]
      · simp only [ne_eq, hc, not_false_eq_true, if_true, feed_lines]
        cases process_http_helper E d (cstr cur) with
        | mk ok d2 => cases ok <;> rfl
    | [c], _ =>
      unfold split_lines delivered_lines
      by_cases ht : c = CR ∨ c = LF
      · simp only [ht, if_true, feed_lines]
        cases process_http_helper E d (cstr cur) with
        | mk ok d2 =>
          cases ok
          · rfl
          · exact ih [] (Nat.zero_le _) d2 []
      · simp only [ht, if_false]
        exact ih [] (Nat.zero_le _) d (cur ++ [c])
    | c :: m :: rest, h =>
      have hlen : rest.length + 1 ≤ k := by
        simp only [List.length_cons] at h
        omega
      unfold split_lines delivered_lines
      by_cases ht : c = CR ∨ c = LF
      · simp only [ht, if_true, feed_lines]
        cases process_http_helper E d (cstr cur) with
        | mk ok d2 =>
          cases ok
          · rfl
          · by_cases hm : m = LF
            · simp only [hm, if_true]
              exact ih rest (by omega) d2 []
            · simp only [hm, if_false]
              exact ih (m :: rest) (by simpa using hlen) d2 []
      · simp only [ht, if_false]
        exact ih (m :: rest) (by simpa using hlen) d (cur ++ [c])

/-- The lines a chunk hands to `process_http_helper`: for a chunk shorter than
the command buffer, `process_http_request` feeds the lines computed by
`delivered_lines` and then re-arms the timer. -/
theorem process_http_request_delivers (E : Env) (d : DESC) (chunk : List Char)
    (hnul : NUL ∉ chunk) (hlen : chunk.length < E.MAX_COMMAND_LEN) :
    process_http_request E d chunk chunk.length
      = if (feed_lines E d (delivered_lines [] chunk)).1 then
          (true, reset_http_timeout (feed_lines E d (delivered_lines [] chunk)).2 HTTP_TIMEOUT)
        else (false, (feed_lines E d (delivered_lines [] chunk)).2) := by
  unfold process_http_request
  rw [copy_command_nul_free chunk hnul, cbuf_write_fits E d _ (by omega),
    split_lines_delivers E _ hlen chunk chunk.length (le_refl _)]
  cases feed_lines E d (delivered_lines [] chunk) with
  | mk ok d2 => cases ok <;> rfl

/-- The size of the command buffer is not compared with the size of the
chunk: with a buffer of 4 bytes, a chunk of 5 bytes is copied past its end,
and a chunk of 4 bytes that does not end a line has its terminator written
past the end, while 4 bytes that end with a line terminator stay inside. -/
theorem chunk_leaves_command_buffer :
    (process_http_request { example_env with MAX_COMMAND_LEN := 4 } example_headers_desc
        "ab\r\nc".toList 5).2.cbuf_overrun = true ∧
      (process_http_request { example_env with MAX_COMMAND_LEN := 4 } example_headers_desc
        "abcd".toList 4).2.cbuf_overrun = true ∧
      (process_http_request { example_env with MAX_COMMAND_LEN := 4 } example_headers_desc
        "ab\r\n".toList 4).2.cbuf_overrun = false ∧
      example_headers_desc.cbuf_overrun = false := by
  decide

/-- C22 fails on the code when a blank line follows a line ended by a bare
line feed: in the chunk of `Host: x`, LF, LF the second LF is skipped as if it
were the LF of a CR LF pair, so only `Host: x` reaches `process_http_helper`
and the request stays in state HEADERS, while the two lines `Host: x` and the
empty line would end the headers.  With CR LF after the first line both lines
are delivered. -/
theorem bare_lf_blank_line_swallowed :
    delivered_lines [] "Host: x\n\n".toList = ["Host: x".toList] ∧
      process_http_request example_env example_headers_desc "Host: x\n\n".toList 9
        = (true, reset_http_timeout
            (feed_lines example_env example_headers_desc ["Host: x".toList]).2
            HTTP_TIMEOUT) ∧
      request_state (process_http_request example_env example_headers_desc
        "Host: x\n\n".toList 9).2 = HTTP_REQUEST_HEADERS ∧
      request_state (feed_lines example_env example_headers_desc
        ["Host: x".toList, []]).2 = HTTP_REQUEST_CONTENT ∧
      delivered_lines [] "Host: x\r\n\n".toList = ["Host: x".toList, []] ∧
      delivered_lines [] "Host: x\r\n\r\n".toList = ["Host: x".toList, []] := by
  decide

/-! ## The status code of the response -/

theorem parse_http_header_status (L : Limits) (req : http_request) (line : List Char) :
    (parse_http_header L req line).status = req.status := by
  unfold parse_http_header
  dsimp only
  cases strchr line ':' with
  | none => rfl
  | some nv =>
    dsimp only
    split
    · rfl
    · split
      · split <;> rfl
      · rfl

theorem parse_http_content_status (L : Limits) (req : http_request) (line : List Char) :
    (parse_http_content L req line).2.status = req.status := by
  unfold parse_http_content
  dsimp only
  split <;> rfl

theorem line_status (E : Env) (a : DESC) (l : List Char) (req : http_request)
    (ha : a.http = some req) :
    ∃ req', (process_http_helper E a l).2.http = some req' ∧ req'.status = req.status := by
  by_cases h1 : req.state = HTTP_REQUEST_HEADERS
  · by_cases hl : l = []
    · subst hl
      by_cases hm : req.method = .GET
      · rw [helper_blank_get E a req ha h1 hm]
        obtain ⟨_, hh, _⟩ := dispatch_or_404_spec E a req
        exact ⟨_, hh, rfl⟩
      · rw [helper_blank_other E a req ha h1 hm]
        exact ⟨_, rfl, rfl⟩
    · rw [helper_header_line E a req l ha h1 hl]
      exact ⟨_, rfl, parse_http_header_status E.L req l⟩
  · by_cases h2 : req.state = HTTP_REQUEST_CONTENT
    · rw [helper_content_line E a req l ha h2]
      by_cases hdone : (parse_http_content E.L req l).1 = true
      · simp only [hdone, if_true]
        obtain ⟨_, hh, _⟩ := dispatch_or_404_spec E a (parse_http_content E.L req l).2
        exact ⟨_, hh, parse_http_content_status E.L req l⟩
      · simp only [hdone, if_false, Bool.false_eq_true]
        exact ⟨_, rfl, parse_http_content_status E.L req l⟩
    · rw [helper_other_state E a req l ha h1 h2]
      exact ⟨req, ha, rfl⟩

theorem timeout_status (E : Env) (a : DESC) (req : http_request) (ha : a.http = some req) :
    ∃ req', (http_timeout_wrapper E a).http = some req' ∧ req'.status = req.status := by
  by_cases hlt : req.state < HTTP_REQUEST_DONE
  · obtain ⟨_, hh, _⟩ := run_http_request_spec E
      { a with http := some { req with state := HTTP_REQUEST_DONE } }
      { req with state := HTTP_REQUEST_DONE } rfl
    rw [timeout_before_done E a req ha hlt]
    split
    · rw [reset_http_timeout_http, hh, Option.map_some']
      exact ⟨_, rfl, rfl⟩
    · rw [close_http_request_http, send_http_status_http, hh, Option.map_some']
      exact ⟨_, rfl, rfl⟩
  · rw [timeout_after_done E a req ha hlt, close_http_request_http]
    split
    · rw [send_http_status_http, ha, Option.map_some']
      exact ⟨_, rfl, rfl⟩
    · rw [ha, Option.map_some']
      exact ⟨_, rfl, rfl⟩

theorem step_status (E : Env) (a : DESC) (s : http_step) (req : http_request)
    (ha : a.http = some req) :
    ∃ req', (apply_step E a s).http = some req' ∧ req'.status = req.status := by
  cases s with
  | line l => exact line_status E a l req ha
  | timeout => exact timeout_status E a req ha
  | respond c =>
    obtain ⟨hh, _⟩ := send_http_response_spec E a req c ha
    exact ⟨_, hh, rfl⟩

theorem respond_finish_status (E : Env) (sw : respond_switches) (d : DESC)
    (req : http_request) (content : Option (List Char)) (close_socket : Bool)
    (hd : d.http = some req) :
    ∃ req', (respond_finish E sw d content close_socket).http = some req' ∧
      req'.status = req.status := by
  obtain ⟨hh, _⟩ := send_http_response_spec E d req content hd
  unfold respond_finish
  dsimp only
  split
  · rw [close_http_request_http, hh, Option.map_some']
    exact ⟨_, rfl, rfl⟩
  · exact ⟨_, hh, rfl⟩

theorem respond_finish_exists (E : Env) (sw : respond_switches) (d0 : DESC)
    (r : http_request) (content : Option (List Char)) (close_socket : Bool) (st : Nat)
    (said : List (List Char))
    (h : r.status = st ∨ ∃ p, get_http_status r.status = .found p) :
    ∃ d' req' said',
      (some (some (respond_finish E sw { d0 with http := some r } content close_socket),
          said) : Option (Option DESC × List (List Char))) = some (some d', said') ∧
      d'.http = some req' ∧
      (req'.status = st ∨ ∃ p, get_http_status req'.status = .found p) := by
  obtain ⟨r3, h3, h4⟩ := respond_finish_status E sw { d0 with http := some r } r content
    close_socket rfl
  refine ⟨_, r3, _, rfl, h3, ?_⟩
  rw [h4]
  exact h

/-- Whatever the switches and arguments, a use of `@respond` on a descriptor
with a request either has no determined outcome (the lookup of the code of
the status switch read past the table) or leaves a request whose status is
the old one or a code that the table lists. -/
theorem cmd_respond_status (E : Env) (sw : respond_switches) (arg_left arg_right : List Char)
    (d : DESC) (req : http_request) (conn_http : Bool) (hd : d.http = some req) :
    (cmd_respond E sw arg_left arg_right (some d) conn_http = none ∧
        get_http_status (parse_uint32 arg_right) = .overrun) ∨
      ∃ d' req' said,
        cmd_respond E sw arg_left arg_right (some d) conn_http = some (some d', said) ∧
        d'.http = some req' ∧
        (req'.status = req.status ∨ ∃ p, get_http_status req'.status = .found p) := by
  by_cases hleft : arg_left = []
  · unfold cmd_respond
    simp only [hleft, if_true]
    exact Or.inr ⟨d, req, _, rfl, hd, Or.inl rfl⟩
  cases conn_http with
  | false =>
    unfold cmd_respond
    simp only [hleft, if_false, or_true, if_true]
    exact Or.inr ⟨d, req, _, rfl, hd, Or.inl rfl⟩
  | true =>
    have hd1 := reset_http_timeout_http d HTTP_TIMEOUT
    rw [hd, Option.map_some'] at hd1
    obtain ⟨f1, _⟩ := respond_content_type_fields E sw { req with timer := some HTTP_TIMEOUT }
    unfold cmd_respond
    simp only [hleft, if_false, hd, reduceCtorEq, or_self, hd1]
    generalize respond_content_type E sw { req with timer := some HTTP_TIMEOUT } = r at f1
    obtain ⟨r1, said, cs⟩ := r
    simp only at f1 ⊢
    have hwrap : (if sw.wrap = true then { r1 with wrap_html := true }
        else if sw.nowrap = true then { r1 with wrap_html := false } else r1).status
          = req.status := by
      split
      · exact f1
      · split <;> exact f1
    generalize (if sw.wrap = true then { r1 with wrap_html := true }
        else if sw.nowrap = true then { r1 with wrap_html := false } else r1) = r2 at hwrap ⊢
    generalize (if arg_right ≠ [] then true else cs) = cs2
    by_cases htype : sw.type = true
    · simp only [htype, if_true]
      by_cases hr : arg_right = []
      · simp only [hr, if_true]
        exact Or.inr ⟨_, r2, _, rfl, rfl, Or.inl hwrap⟩
      · simp only [hr, if_false]
        exact Or.inr ⟨_, _, _, rfl, rfl, Or.inl hwrap⟩
    · simp only [htype, if_false, Bool.false_eq_true]
      by_cases hheader : sw.header = true
      · simp only [hheader, if_true]
        by_cases hr : arg_right = []
        · simp only [hr, if_true]
          exact Or.inr ⟨_, r2, _, rfl, rfl, Or.inl hwrap⟩
        · simp only [hr, if_false]
          cases hs : strchr arg_right ':' with
          | none => exact Or.inr ⟨_, r2, _, rfl, rfl, Or.inl hwrap⟩
          | some pq =>
            obtain ⟨pre, post⟩ := pq
            cases pre with
            | nil => exact Or.inr ⟨_, r2, _, rfl, rfl, Or.inl hwrap⟩
            | cons x xs =>
              dsimp only
              split
              · exact Or.inr ⟨_, r2, _, rfl, rfl, Or.inl hwrap⟩
              · split
                · exact Or.inr ⟨_, r2, _, rfl, rfl, Or.inl hwrap⟩
                · split
                  · exact Or.inr ⟨_, _, _, rfl, rfl, Or.inl hwrap⟩
                  · exact Or.inr (respond_finish_exists _ _ _ _ _ _ _ _ (Or.inl hwrap))
      · simp only [hheader, if_false, Bool.false_eq_true]
        by_cases hstatus : sw.status = true
        · simp only [hstatus, if_true]
          by_cases hr : arg_right = []
          · simp only [hr, if_true]
            exact Or.inr ⟨_, r2, _, rfl, rfl, Or.inl hwrap⟩
          · simp only [hr, if_false]
            cases hl : get_http_status (parse_uint32 arg_right) with
            | found p =>
              dsimp only
              split
              · exact Or.inr ⟨_, _, _, rfl, rfl, Or.inr ⟨p, hl⟩⟩
              · exact Or.inr (respond_finish_exists _ _ _ _ _ _ _ _ (Or.inr ⟨p, hl⟩))
            | null => exact Or.inr ⟨_, r2, _, rfl, rfl, Or.inl hwrap⟩
            | overrun => exact Or.inl ⟨rfl, rfl⟩
        · simp only [hstatus, if_false, Bool.false_eq_true]
          exact Or.inr (respond_finish_exists _ _ _ _ _ _ _ _ (Or.inl hwrap))

theorem apply_op_status_found (E : Env) (d d2 : DESC) (op : http_op)
    (h : ∃ req reason, d.http = some req ∧ get_http_status req.status = .found reason)
    (hop : apply_op E d op = some d2) :
    ∃ req reason, d2.http = some req ∧ get_http_status req.status = .found reason := by
  obtain ⟨req, reason, hd, hf⟩ := h
  cases op with
  | step s =>
    obtain ⟨r, h1, h2⟩ := step_status E d s req hd
    have e : apply_step E d s = d2 := by
      have : some (apply_step E d s) = some d2 := hop
      exact Option.some.inj this
    rw [← e]
    exact ⟨r, reason, h1, by rw [h2]; exact hf⟩
  | command sw arg_left arg_right conn_http =>
    have hop2 : (match cmd_respond E sw arg_left arg_right (some d) conn_http with
        | some (d', _) => some (d'.getD d)
        | none => none) = some d2 := hop
    rcases cmd_respond_status E sw arg_left arg_right d req conn_http hd with
      hn | ⟨d', r, said, h1, h2, h3⟩
    · rw [hn.1] at hop2
      cases hop2
    · rw [h1] at hop2
      simp only [Option.getD_some, Option.some.injEq] at hop2
      subst hop2
      rcases h3 with h | ⟨p, hp⟩
      · exact ⟨r, reason, h2, by rw [h]; exact hf⟩
      · exact ⟨r, p, h2, hp⟩

/-- As long as every operation has a determined outcome, the status of a
request that started with a listed code is a listed code: after a successful
`parse_http_query` it is 200, and lines, timer firings, responses and uses of
`@respond` leave it or store a code for which the lookup found a phrase. -/
theorem run_ops_status_found (E : Env) (ops : List http_op) :
    ∀ d d2 : DESC,
      (∃ req reason, d.http = some req ∧ get_http_status req.status = .found reason) →
      run_ops E d ops = some d2 →
      ∃ req reason, d2.http = some req ∧ get_http_status req.status = .found reason := by
  induction ops with
  | nil =>
    intro d d2 h hr
    have : some d = some d2 := hr
    cases this
    exact h
  | cons op rest ih =>
    intro d d2 h hr
    unfold run_ops at hr
    cases ha : apply_op E d op with
    | none =>
      rw [ha] at hr
      cases hr
    | some d1 =>
      rw [ha] at hr
      exact ih d1 d2 (apply_op_status_found E d d1 op h ha) hr

theorem apply_op_listed (E : Env) (d : DESC) (op : http_op) (req : http_request)
    (hd : d.http = some req)
    (hop : ∀ sw al ar c, op = .command sw al ar c →
      parse_uint32 ar ∈ http_status_codes.map Prod.fst) :
    ∃ d2 req2, apply_op E d op = some d2 ∧ d2.http = some req2 := by
  cases op with
  | step s =>
    obtain ⟨r, h1, _⟩ := step_status E d s req hd
    exact ⟨_, r, rfl, h1⟩
  | command sw arg_left arg_right conn_http =>
    have hcode := hop sw arg_left arg_right conn_http rfl
    obtain ⟨p, hp⟩ := (get_http_status_found_iff _).mpr hcode
    show ∃ d2 req2, (match cmd_respond E sw arg_left arg_right (some d) conn_http with
        | some (d', _) => some (d'.getD d)
        | none => none) = some d2 ∧ d2.http = some req2
    rcases cmd_respond_status E sw arg_left arg_right d req conn_http hd with
      hn | ⟨d', r, said, h1, h2, _⟩
    · rw [hp] at hn
      exact absurd hn.2 (by simp)
    · rw [h1]
      exact ⟨d', r, rfl, h2⟩

/-- A sequence of operations in which every use of `@respond` names a code of
the table has a determined outcome. -/
theorem run_ops_listed (E : Env) (ops : List http_op) :
    ∀ (d : DESC) (req : http_request), d.http = some req →
      (∀ op ∈ ops, ∀ sw al ar c, op = .command sw al ar c →
        parse_uint32 ar ∈ http_status_codes.map Prod.fst) →
      ∃ d2, run_ops E d ops = some d2 := by
  induction ops with
  | nil => exact fun d _ _ _ => ⟨d, rfl⟩
  | cons op rest ih =>
    intro d req hd hops
    obtain ⟨d1, r1, h1, h2⟩ := apply_op_listed E d op req hd (hops op (by simp))
    unfold run_ops
    rw [h1]
    exact ih d1 r1 h2 (fun o ho => hops o (by simp [ho]))

/-- C23 fails on the code: on the request set up for `GET /news HTTP/1.1`,
after the blank line, `@respond/status 7=600` makes `get_http_status` read
past the end of the table, which has no entry with code 0, so the outcome of
the test that guards the assignment of `status` is not determined by the
source and nothing keeps 600 out of `status`; with the listed code 404 the
same sequence ends with status 404 in state DONE. -/
theorem status_attempt_reads_past_table :
    (parse_http_query example_limits http_request.zero "GET /news HTTP/1.1".toList).1 = true ∧
      example_get_desc.http
        = some (parse_http_query example_limits http_request.zero
            "GET /news HTTP/1.1".toList).2 ∧
      get_http_status (parse_uint32 "600".toList) = .overrun ∧
      run_ops example_env example_get_desc
        [.step (.line []), .command { status := true } "7".toList "600".toList true] = none ∧
      (run_ops example_env example_get_desc
        [.step (.line []), .command { status := true } "7".toList "404".toList true]).map
          (fun d => d.http.map (fun r => (r.status, r.state)))
        = some (some (404, HTTP_REQUEST_DONE)) := by
  decide

theorem delivered_lines_other (cur rest : List Char) (c : Char) (h1 : c ≠ CR)
    (h2 : c ≠ LF) :
    delivered_lines cur (c :: rest) = delivered_lines (cur ++ [c]) rest := by
  cases rest with
  | nil => simp [delivered_lines, h1, h2]
  | cons n rest => simp [delivered_lines, h1, h2]

theorem delivered_lines_crlf (cur rest : List Char) :
    delivered_lines cur (CR :: LF :: rest) = cstr cur :: delivered_lines [] rest := by
  simp [delivered_lines]

theorem delivered_lines_lf (cur rest : List Char) (h : rest.head? ≠ some LF) :
    delivered_lines cur (LF :: rest) = cstr cur :: delivered_lines [] rest := by
  cases rest with
  | nil => simp [delivered_lines]
  | cons n rest =>
    have hn : n ≠ LF := fun e => h (by simp [e])
    simp [delivered_lines, hn]

theorem delivered_lines_line (l : List Char) (hcr : CR ∉ l) (hlf : LF ∉ l) :
    ∀ cur rest : List Char,
      delivered_lines cur (l ++ rest) = delivered_lines (cur ++ l) rest := by
  induction l with
  | nil =>
    intro cur rest
    simp
  | cons x xs ih =>
    intro cur rest
    have hx1 : x ≠ CR := fun e => hcr (by simp [e])
    have hx2 : x ≠ LF := fun e => hlf (by simp [e])
    rw [List.cons_append, delivered_lines_other cur _ x hx1 hx2,
      ih (fun h => hcr (by simp [h])) (fun h => hlf (by simp [h])) (cur ++ [x]) rest]
    simp

/-- Where the splitting is right: a chunk of complete lines, each ended by
CR LF or by a bare LF, hands exactly these lines on, provided that no line
ended by a bare LF is followed by an empty line that also ends in a bare LF. -/
theorem delivered_lines_terminated (lines : List (List Char × Bool))
    (hclean : ∀ lt ∈ lines, CR ∉ lt.1 ∧ LF ∉ lt.1 ∧ NUL ∉ lt.1)
    (hchain : lines.Chain' (fun a b => a.2 = false → b.1 ≠ [] ∨ b.2 = true)) :
    delivered_lines [] (terminated_lines lines) = lines.map Prod.fst := by
  induction lines with
  | nil => simp [terminated_lines, delivered_lines]
  | cons lt rest ih =>
    obtain ⟨l, t⟩ := lt
    obtain ⟨hcr, hlf, hnul⟩ := hclean (l, t) (by simp)
    have hrest : ∀ x ∈ rest, CR ∉ x.1 ∧ LF ∉ x.1 ∧ NUL ∉ x.1 :=
      fun x hx => hclean x (by simp [hx])
    have hch := List.chain'_cons'.mp hchain
    have ih' := ih hrest hch.2
    have e : terminated_lines ((l, t) :: rest)
        = l ++ ((if t then CRLF else [LF]) ++ terminated_lines rest) := by
      simp [terminated_lines]
    rw [e, delivered_lines_line l hcr hlf [] _, List.nil_append, List.map_cons]
    cases t with
    | true =>
      simp only [if_true, CRLF, List.cons_append, List.nil_append]
      rw [delivered_lines_crlf, ih', cstr_of_nul_free l hnul]
    | false =>
      simp only [Bool.false_eq_true, if_false, List.cons_append, List.nil_append]
      have hhead : (terminated_lines rest).head? ≠ some LF := by
        cases rest with
        | nil => simp [terminated_lines]
        | cons b bs =>
          obtain ⟨l2, t2⟩ := b
          have hb := hch.1 (l2, t2) (by simp) rfl
          have hl2 := (hclean (l2, t2) (by simp)).2.1
          cases l2 with
          | nil =>
            rcases hb with h | h
            · exact absurd rfl h
            · simp only at h
              subst h
              simp [terminated_lines, CRLF, CR, LF]
          | cons y ys =>
            have hy : y ≠ LF := fun e => hl2 (by simp [e])
            simp [terminated_lines, hy]
      rw [delivered_lines_lf _ _ hhead, ih', cstr_of_nul_free l hnul]

end PennHttp
